import Mathlib

/-!
# Ghost agent: the VM lifecycle engine and its resource ledger

A shallow embedding of the Go sources of the agent:

* `internal/domain/errors`, `internal/domain/entity` (error codes, VM record, resource ledger);
* `internal/application/dto` with the validation tags of the request types;
* `internal/infrastructure/storage` (in-memory resource, VM and image repositories, persistent VM
  repository, the storage adapter's `GetImage` and `DeleteDisk`);
* `internal/infrastructure/libvirt` (the hypervisor adapter's create, delete, start, stop, status,
  list and ping paths, with the libvirt calls each makes, and the breaker's `ReadyToTrip`);
* `internal/infrastructure/network` (the lease lookup of the NAT adapter);
* `internal/application/usecase` (the `Execute` of the create, delete, start, stop and list use
  cases);
* `internal/presentation/grpc/server` (`toGRPCError`, `Server.CreateVM`);
* `cmd/ghost-agent/main.go` (construction of the repositories at startup).

Go's `int` is modelled by `Int`.  The amounts of a request are validated (at most 1000) and the
host totals are small, so along the calls of the use cases from a fresh ledger no sum or difference
comes near the 64-bit bounds.  The records of `vms.json` are loaded without any check: where a
theorem adds the amounts of an arbitrary stored record it assumes the sums to be within the range
of `int`, and `DeleteVMUseCase.ExecuteOnGoValues` describes the Delete of the process on every
value the file can load, with wrapping sums and nil entries.  Every repository method
holds the repository's mutex from start to end, so it is modelled as one step; a use case is a
sequence of such steps, and two concurrent creates are described by an interleaving of their
steps.  Calls that leave the process (libvirt, the file system, `qemu-img`, the network) take
their result from an explicit environment argument, and every use case reports the list of
service calls it made.
-/

namespace Ghost

/-! ## `internal/domain/errors/errors.go` -/

/-- Domain error types (`ErrorCode`). -/
inductive ErrorCode where
  | ErrCodeValidation
  | ErrCodeResourceLimit
  | ErrCodeHypervisor
  | ErrCodeNetwork
  | ErrCodeStorage
  | ErrCodeNotFound
  | ErrCodeConflict
  | ErrCodeInternal
  deriving DecidableEq, Repr

/-- The string constant behind each `ErrorCode`. -/
def ErrorCode.text : ErrorCode → String
  | .ErrCodeValidation => "VALIDATION_ERROR"
  | .ErrCodeResourceLimit => "RESOURCE_LIMIT_EXCEEDED"
  | .ErrCodeHypervisor => "HYPERVISOR_ERROR"
  | .ErrCodeNetwork => "NETWORK_ERROR"
  | .ErrCodeStorage => "STORAGE_ERROR"
  | .ErrCodeNotFound => "NOT_FOUND"
  | .ErrCodeConflict => "CONFLICT"
  | .ErrCodeInternal => "INTERNAL_ERROR"

/-- A value stored in the context map of an error (`interface{}`): the use cases store strings and
integers only. -/
inductive CtxValue where
  | str (s : String)
  | int (n : Int)
  deriving DecidableEq, Repr

/-- One entry of the validator library's `ValidationErrors`: the struct field and the tag it
failed on. -/
structure FieldError where
  Field : String
  Tag : String
  deriving DecidableEq, Repr

/-- A Go `error` value.  `nil` is the nil interface, `plain` an error without a cause,
`wrap` an error built by `fmt.Errorf("...: %w", err)`, `validation` the validator library's
`ValidationErrors`, and `app` a `*AppError` with its four fields. -/
inductive GoError where
  | nil
  | plain (msg : String)
  | wrap (msg : String) (inner : GoError)
  | validation (fields : List FieldError)
  | app (Code : ErrorCode) (Message : String) (Err : GoError) (Context : List (String × CtxValue))
  deriving Repr

/-- The struct `AppError`. -/
structure AppError where
  Code : ErrorCode
  Message : String
  Err : GoError
  Context : List (String × CtxValue)
  deriving Repr

/-- An `*AppError` seen through the `error` interface. -/
def AppError.toError (e : AppError) : GoError :=
  .app e.Code e.Message e.Err e.Context

/-- `errors.New`: a new `AppError` with an empty context map. -/
def New (code : ErrorCode) (message : String) (err : GoError) : AppError :=
  { Code := code, Message := message, Err := err, Context := [] }

/-- `AppError.WithContext`: `e.Context[key] = value`. -/
def AppError.WithContext (e : AppError) (key : String) (value : CtxValue) : AppError :=
  { e with Context := (key, value) :: e.Context.filter (fun kv => kv.1 != key) }

/-- The test `err == nil`. -/
def GoError.isNil : GoError → Bool
  | .nil => true
  | _ => false

/-! ## `internal/domain/entity` -/

/-- `VMStatus` is a string type. -/
abbrev VMStatus := String

def VMStatusRunning : VMStatus := "running"

def VMStatusStopped : VMStatus := "stopped"

def VMStatusPaused : VMStatus := "paused"

def VMStatusError : VMStatus := "error"

/-- The entity `VM`; the two `time.Time` fields are abstract instants. -/
structure VM where
  ID : String
  Name : String
  VCPU : Int
  RAMGB : Int
  DiskGB : Int
  Status : VMStatus
  IP : String
  Template : String
  DiskPath : String
  CreatedAt : Nat
  UpdatedAt : Nat
  deriving DecidableEq, Repr

/-- The entity `Resource`: the ledger. -/
structure Resource where
  TotalCPU : Int
  AvailableCPU : Int
  ReservedCPU : Int
  TotalRAMGB : Int
  AvailableRAMGB : Int
  ReservedRAMGB : Int
  TotalDiskGB : Int
  AvailableDiskGB : Int
  ReservedDiskGB : Int
  deriving DecidableEq, Repr

/-- `Resource.CanAllocate`. -/
def Resource.CanAllocate (r : Resource) (vcpu ramGB diskGB : Int) : Bool :=
  decide (r.AvailableCPU ≥ vcpu) &&
    decide (r.AvailableRAMGB ≥ ramGB) &&
    decide (r.AvailableDiskGB ≥ diskGB)

/-- `Resource.Allocate`. -/
def Resource.Allocate (r : Resource) (vcpu ramGB diskGB : Int) : Resource :=
  { r with
    AvailableCPU := r.AvailableCPU - vcpu
    AvailableRAMGB := r.AvailableRAMGB - ramGB
    AvailableDiskGB := r.AvailableDiskGB - diskGB }

/-- `Resource.Release`, with the three sums as mathematical integers.  This is what the machine
computes as long as each sum is within the range of `int`; `Resource.ReleaseWrapping` below gives
the ledger of the machine in every case. -/
def Resource.Release (r : Resource) (vcpu ramGB diskGB : Int) : Resource :=
  { r with
    AvailableCPU := r.AvailableCPU + vcpu
    AvailableRAMGB := r.AvailableRAMGB + ramGB
    AvailableDiskGB := r.AvailableDiskGB + diskGB }

/-! ## `internal/application/dto/vm.go` and the validation tags -/

/-- The request type `CreateVMRequest`. -/
structure CreateVMRequest where
  Name : String
  VCPU : Int
  RAMGB : Int
  DiskGB : Int
  Template : String
  Metadata : List (String × String)
  deriving DecidableEq, Repr

/-- The response type `CreateVMResponse`. -/
structure CreateVMResponse where
  VMID : String
  IPAddress : String
  Status : String
  deriving DecidableEq, Repr

/-- The request type `DeleteVMRequest`. -/
structure DeleteVMRequest where
  VMID : String
  deriving DecidableEq, Repr

/-- The response type `DeleteVMResponse`. -/
structure DeleteVMResponse where
  Success : Bool
  deriving DecidableEq, Repr

/-- The request type `StartVMRequest`. -/
structure StartVMRequest where
  VMID : String
  deriving DecidableEq, Repr

/-- The response type `StartVMResponse`. -/
structure StartVMResponse where
  Status : String
  deriving DecidableEq, Repr

/-- The request type `StopVMRequest`. -/
structure StopVMRequest where
  VMID : String
  Force : Bool
  deriving DecidableEq, Repr

/-- The response type `StopVMResponse`. -/
structure StopVMResponse where
  Status : String
  deriving DecidableEq, Repr

/-- The request type `ListVMsRequest` (it has no field). -/
structure ListVMsRequest where
  deriving DecidableEq, Repr

/-- The type `VMInfo`: basic VM information. -/
structure VMInfo where
  VMID : String
  Name : String
  Status : String
  IPAddress : String
  deriving DecidableEq, Repr

/-- The response type `ListVMsResponse`. -/
structure ListVMsResponse where
  VMs : List VMInfo
  deriving DecidableEq, Repr

/-- The validator instance held by a use case (`*validator.Validate`).  The library is not part of
the repository; the only rule the request types use that is not plain arithmetic or list
membership is the `hostname` tag, taken here as a parameter. -/
structure Validate where
  hostname : String → Bool

/-- The tags of one field are tried in the order written; the field reports the first tag that
fails, and nothing when all pass. -/
def checkField (field : String) (tags : List (String × Bool)) : List FieldError :=
  match tags.find? (fun t => !t.2) with
  | some t => [{ Field := field, Tag := t.1 }]
  | none => []

/-- The values of the `oneof` tag on `CreateVMRequest.Template`. -/
def templateOneOf : List String :=
  ["ubuntu-22.04", "ubuntu-20.04", "debian-12", "debian-11"]

/-- `validator.Struct` on a `CreateVMRequest`, read off the struct tags:
`Name: required,min=3,max=63,hostname`, `VCPU: required,min=1,max=32`,
`RAMGB: required,min=1,max=128`, `DiskGB: required,min=10,max=1000`,
`Template: required,oneof=...`.  The result lists the failing fields; it is empty when the
request is accepted. -/
def Validate.StructCreate (v : Validate) (req : CreateVMRequest) : List FieldError :=
  checkField "Name"
      [("required", req.Name != ""), ("min", decide (3 ≤ req.Name.length)),
        ("max", decide (req.Name.length ≤ 63)), ("hostname", v.hostname req.Name)] ++
    checkField "VCPU"
      [("required", req.VCPU != 0), ("min", decide (1 ≤ req.VCPU)),
        ("max", decide (req.VCPU ≤ 32))] ++
    checkField "RAMGB"
      [("required", req.RAMGB != 0), ("min", decide (1 ≤ req.RAMGB)),
        ("max", decide (req.RAMGB ≤ 128))] ++
    checkField "DiskGB"
      [("required", req.DiskGB != 0), ("min", decide (10 ≤ req.DiskGB)),
        ("max", decide (req.DiskGB ≤ 1000))] ++
    checkField "Template"
      [("required", req.Template != ""), ("oneof", templateOneOf.contains req.Template)]

/-- `validator.Struct` on a `DeleteVMRequest` (`VMID: required`). -/
def Validate.StructDelete (_v : Validate) (req : DeleteVMRequest) : List FieldError :=
  checkField "VMID" [("required", req.VMID != "")]

/-- `validator.Struct` on a `StartVMRequest` (`VMID: required`). -/
def Validate.StructStart (_v : Validate) (req : StartVMRequest) : List FieldError :=
  checkField "VMID" [("required", req.VMID != "")]

/-- `validator.Struct` on a `StopVMRequest` (`VMID: required`; `Force` carries no tag). -/
def Validate.StructStop (_v : Validate) (req : StopVMRequest) : List FieldError :=
  checkField "VMID" [("required", req.VMID != "")]

/-- Letters `A-Z` and `a-z`. -/
def isAsciiLetter (c : Char) : Bool :=
  (decide (65 ≤ c.toNat) && decide (c.toNat ≤ 90)) ||
    (decide (97 ≤ c.toNat) && decide (c.toNat ≤ 122))

/-- Letters and the digits `0-9`. -/
def isAsciiAlnum (c : Char) : Bool :=
  isAsciiLetter c || (decide (48 ≤ c.toNat) && decide (c.toNat ≤ 57))

/-- The inner part of an RFC 952 host name: runs of letters, digits and hyphens, each run
followed by at most one dot.  `prev` tells whether the previous character belongs to a run. -/
def hostnameMiddle : Bool → List Char → Bool
  | _, [] => true
  | prev, c :: cs =>
    if isAsciiAlnum c || c.toNat == 45 then hostnameMiddle true cs
    else if c.toNat == 46 then prev && hostnameMiddle false cs
    else false

/-- The rule behind the validator library's `hostname` tag (RFC 952): a letter, then runs of
letters, digits and hyphens each followed by at most one dot, then a letter or digit. -/
def hostnameRFC952 (s : String) : Bool :=
  match s.data with
  | [] => false
  | c :: rest =>
    match rest.getLast? with
    | none => false
    | some l => isAsciiLetter c && isAsciiAlnum l && hostnameMiddle false rest.dropLast

/-- The validator as the library configures it by default. -/
def defaultValidate : Validate :=
  { hostname := hostnameRFC952 }

/-! ## `internal/infrastructure/storage/resource_repository.go` -/

/-- `InMemoryResourceRepository`: the ledger held by the agent. -/
structure InMemoryResourceRepository where
  resource : Resource
  deriving DecidableEq, Repr

/-- `NewInMemoryResourceRepository`.  `numCPU` is the value of `runtime.NumCPU()`; the totals of
RAM and disk are the constants 32 and 500 written in the source. -/
def NewInMemoryResourceRepository (numCPU : Int) (reservedCPU reservedRAMGB reservedDiskGB : Int) :
    InMemoryResourceRepository :=
  let totalCPU := numCPU
  let totalRAMGB := 32
  let totalDiskGB := 500
  { resource :=
      { TotalCPU := totalCPU
        AvailableCPU := totalCPU - reservedCPU
        ReservedCPU := reservedCPU
        TotalRAMGB := totalRAMGB
        AvailableRAMGB := totalRAMGB - reservedRAMGB
        ReservedRAMGB := reservedRAMGB
        TotalDiskGB := totalDiskGB
        AvailableDiskGB := totalDiskGB - reservedDiskGB
        ReservedDiskGB := reservedDiskGB } }

/-- `InMemoryResourceRepository.GetAvailable`: a copy of the ledger and a nil error. -/
def InMemoryResourceRepository.GetAvailable (r : InMemoryResourceRepository) :
    Except GoError Resource :=
  .ok r.resource

/-- `InMemoryResourceRepository.Update`: the ledger is replaced; the error is always nil. -/
def InMemoryResourceRepository.Update (_r : InMemoryResourceRepository) (resource : Resource) :
    InMemoryResourceRepository × GoError :=
  ({ resource := resource }, .nil)

/-! ## `internal/infrastructure/storage/persistent_vm_repository.go` -/

/-- A Go `map[string]*entity.VM` as a list of bindings, most recently written first, with at most
one binding per key when built by `VMMap.set` and `VMMap.delete`. -/
abbrev VMMap := List (String × VM)

/-- Map lookup: `vm, ok := m[id]`. -/
def VMMap.get (m : VMMap) (id : String) : Option VM :=
  (m.find? (fun kv => kv.1 == id)).map (fun kv => kv.2)

/-- Map assignment: `m[id] = vm`. -/
def VMMap.set (m : VMMap) (id : String) (vm : VM) : VMMap :=
  (id, vm) :: m.filter (fun kv => kv.1 != id)

/-- Map deletion: `delete(m, id)`. -/
def VMMap.delete (m : VMMap) (id : String) : VMMap :=
  m.filter (fun kv => kv.1 != id)

/-- What `os.ReadFile` and `json.Unmarshal` make of `vms.json`: the file may be absent, unreadable,
undecodable, or decode to a map of records. -/
inductive VMFile where
  | notExist
  | unreadable (err : GoError)
  | invalid (err : GoError)
  | decoded (m : VMMap)
  deriving Repr

/-- `PersistentVMRepository`: the in-memory map and the content of the file at `filePath`. -/
structure PersistentVMRepository where
  vms : VMMap
  file : VMFile
  deriving Repr

/-- Results of the two file-system calls made by `persist`. -/
structure PersistEnv where
  writeFile : GoError
  rename : GoError
  deriving Repr

/-- `PersistentVMRepository.persist`: the map is encoded, written to `filePath + ".tmp"` and
renamed over `filePath`.  The file changes only when both calls succeed. -/
def PersistentVMRepository.persist (r : PersistentVMRepository) (env : PersistEnv) :
    PersistentVMRepository × GoError :=
  match env.writeFile with
  | .nil =>
    match env.rename with
    | .nil => ({ r with file := .decoded r.vms }, .nil)
    | err => (r, err)
  | err => (r, err)

/-- `PersistentVMRepository.load`: reads the file into the map. -/
def PersistentVMRepository.load (r : PersistentVMRepository) :
    PersistentVMRepository × GoError × Bool :=
  match r.file with
  | .notExist => (r, .plain "open vms.json: no such file or directory", true)
  | .unreadable err => (r, err, false)
  | .invalid err => (r, err, false)
  | .decoded m => ({ r with vms := m }, .nil, false)

/-- What the file system answers when the repository is opened on a data directory: the result of
`os.MkdirAll` and the state of `vms.json` in it. -/
structure DataDir where
  mkdirAll : GoError
  file : VMFile
  deriving Repr

/-- `NewPersistentVMRepository`: the data directory is created if needed, the map starts empty and
is then loaded from `vms.json`; a load error other than "file does not exist" is returned. -/
def NewPersistentVMRepository (dataDir : DataDir) : Except GoError PersistentVMRepository :=
  match dataDir.mkdirAll with
  | .nil =>
    let repo : PersistentVMRepository := { vms := [], file := dataDir.file }
    match repo.load with
    | (repo1, .nil, _) => .ok repo1
    | (repo1, err, isNotExist) => if isNotExist then .ok repo1 else .error err
  | err => .error err

/-- `PersistentVMRepository.Save`: the record is stored under its ID, then the map is persisted. -/
def PersistentVMRepository.Save (r : PersistentVMRepository) (env : PersistEnv) (vm : VM) :
    PersistentVMRepository × GoError :=
  PersistentVMRepository.persist { r with vms := VMMap.set r.vms vm.ID vm } env

/-- `PersistentVMRepository.FindByID`. -/
def PersistentVMRepository.FindByID (r : PersistentVMRepository) (id : String) :
    Except AppError VM :=
  match VMMap.get r.vms id with
  | none => .error ((New .ErrCodeNotFound "VM not found" .nil).WithContext "vm_id" (.str id))
  | some vm => .ok vm

/-- `PersistentVMRepository.Delete`: the key is removed, then the map is persisted. -/
def PersistentVMRepository.Delete (r : PersistentVMRepository) (env : PersistEnv) (id : String) :
    PersistentVMRepository × GoError :=
  PersistentVMRepository.persist { r with vms := VMMap.delete r.vms id } env

/-- `PersistentVMRepository.Exists`: whether the key is in the map; the error is always nil. -/
def PersistentVMRepository.Exists (r : PersistentVMRepository) (id : String) :
    Except GoError Bool :=
  .ok (VMMap.get r.vms id).isSome

/-! ## `internal/domain/service` and `internal/infrastructure/libvirt/adapter.go` -/

/-- The struct `VMSpec`. -/
structure VMSpec where
  Name : String
  VCPU : Int
  RAMGB : Int
  DiskGB : Int
  Template : String
  DiskPath : String
  IP : String
  deriving DecidableEq, Repr

/-- `libvirt.DomainState`. -/
inductive DomainState where
  | DOMAIN_NOSTATE
  | DOMAIN_RUNNING
  | DOMAIN_BLOCKED
  | DOMAIN_PAUSED
  | DOMAIN_SHUTDOWN
  | DOMAIN_SHUTOFF
  | DOMAIN_CRASHED
  | DOMAIN_PMSUSPENDED
  deriving DecidableEq, Repr

/-- The idiom `ip, err := f(); if err != nil { ip = "" }`: the address, or the empty string when
the lookup failed. -/
def orEmpty (r : Except GoError String) : String :=
  match r with
  | .ok ip => ip
  | .error _ => ""

/-- What the circuit breaker and libvirt answer during one `Adapter.CreateVM`: whether the breaker
lets the request through (`nil`) or rejects it, the results of `DomainDefineXML`, `domain.Create`
and `waitForIP`, and the two readings of `time.Now()`. -/
structure LibvirtCreate where
  breaker : GoError
  defineXML : GoError
  domainCreate : GoError
  waitForIP : Except GoError String
  createdAt : Nat
  updatedAt : Nat
  deriving Repr

/-- `Adapter.createVMInternal`: define the domain, start it, wait for an address (a failure to get
one is not an error) and build the VM record from the spec. -/
def Adapter.createVMInternal (lv : LibvirtCreate) (spec : VMSpec) : Except GoError VM :=
  match lv.defineXML with
  | .nil =>
    match lv.domainCreate with
    | .nil =>
      let ip := orEmpty lv.waitForIP
      .ok
        { ID := spec.Name
          Name := spec.Name
          VCPU := spec.VCPU
          RAMGB := spec.RAMGB
          DiskGB := spec.DiskGB
          Status := VMStatusRunning
          IP := ip
          Template := spec.Template
          DiskPath := spec.DiskPath
          CreatedAt := lv.createdAt
          UpdatedAt := lv.updatedAt }
    | err => .error (.wrap "failed to start domain" err)
  | err => .error (.wrap "failed to define domain" err)

/-- `Adapter.CreateVM`: `createVMInternal` run through the circuit breaker; any error is wrapped
in a hypervisor error. -/
def Adapter.CreateVM (lv : LibvirtCreate) (spec : VMSpec) : Except AppError VM :=
  let result : Except GoError VM :=
    match lv.breaker with
    | .nil => Adapter.createVMInternal lv spec
    | err => .error err
  match result with
  | .error err =>
    .error ((New .ErrCodeHypervisor "failed to create VM" err).WithContext "vm_name"
      (.str spec.Name))
  | .ok vm => .ok vm

/-- What the circuit breaker and libvirt answer during one `Adapter.DeleteVM`. -/
structure LibvirtDelete where
  breaker : GoError
  lookupDomainByName : GoError
  getState : Except GoError DomainState
  destroy : GoError
  undefine : GoError
  deriving Repr

/-- `Adapter.deleteVMInternal`: look the domain up, stop it if it is running, undefine it. -/
def Adapter.deleteVMInternal (lv : LibvirtDelete) (_id : String) : GoError :=
  match lv.lookupDomainByName with
  | .nil =>
    match lv.getState with
    | .error err => .wrap "failed to get domain state" err
    | .ok state =>
      let stopped : GoError :=
        if state = .DOMAIN_RUNNING then lv.destroy else .nil
      match stopped with
      | .nil =>
        match lv.undefine with
        | .nil => .nil
        | err => .wrap "failed to undefine domain" err
      | err => .wrap "failed to stop domain" err
  | err => .wrap "failed to lookup domain" err

/-- `Adapter.DeleteVM`: `deleteVMInternal` run through the circuit breaker; any error is wrapped
in a hypervisor error. -/
def Adapter.DeleteVM (lv : LibvirtDelete) (id : String) : Except AppError Unit :=
  let err : GoError :=
    match lv.breaker with
    | .nil => Adapter.deleteVMInternal lv id
    | e => e
  match err with
  | .nil => .ok ()
  | e => .error ((New .ErrCodeHypervisor "failed to delete VM" e).WithContext "vm_id" (.str id))

/-- What the circuit breaker and libvirt answer during one `Adapter.StartVM`. -/
structure LibvirtStart where
  breaker : GoError
  lookupDomainByName : GoError
  domainCreate : GoError
  deriving Repr

/-- `Adapter.startVMInternal`: look the domain up and start it. -/
def Adapter.startVMInternal (lv : LibvirtStart) (_id : String) : GoError :=
  match lv.lookupDomainByName with
  | .nil =>
    match lv.domainCreate with
    | .nil => .nil
    | err => .wrap "failed to start domain" err
  | err => .wrap "failed to lookup domain" err

/-- `Adapter.StartVM`: `startVMInternal` run through the circuit breaker; any error is wrapped in
a hypervisor error. -/
def Adapter.StartVM (lv : LibvirtStart) (id : String) : Except AppError Unit :=
  let err : GoError :=
    match lv.breaker with
    | .nil => Adapter.startVMInternal lv id
    | e => e
  match err with
  | .nil => .ok ()
  | e => .error ((New .ErrCodeHypervisor "failed to start VM" e).WithContext "vm_id" (.str id))

/-- What the circuit breaker and libvirt answer during one `Adapter.StopVM`. -/
structure LibvirtStop where
  breaker : GoError
  lookupDomainByName : GoError
  destroy : GoError
  shutdown : GoError
  deriving Repr

/-- `Adapter.stopVMInternal`: look the domain up, then power it off (`force`) or ask the guest to
shut down. -/
def Adapter.stopVMInternal (lv : LibvirtStop) (_id : String) (force : Bool) : GoError :=
  match lv.lookupDomainByName with
  | .nil =>
    if force then
      match lv.destroy with
      | .nil => .nil
      | err => .wrap "failed to force stop domain" err
    else
      match lv.shutdown with
      | .nil => .nil
      | err => .wrap "failed to shutdown domain" err
  | err => .wrap "failed to lookup domain" err

/-- `Adapter.StopVM`: `stopVMInternal` run through the circuit breaker; any error is wrapped in a
hypervisor error. -/
def Adapter.StopVM (lv : LibvirtStop) (id : String) (force : Bool) : Except AppError Unit :=
  let err : GoError :=
    match lv.breaker with
    | .nil => Adapter.stopVMInternal lv id force
    | e => e
  match err with
  | .nil => .ok ()
  | e => .error ((New .ErrCodeHypervisor "failed to stop VM" e).WithContext "vm_id" (.str id))

/-- `Adapter.mapLibvirtState`. -/
def Adapter.mapLibvirtState (state : DomainState) : VMStatus :=
  match state with
  | .DOMAIN_RUNNING => VMStatusRunning
  | .DOMAIN_SHUTOFF => VMStatusStopped
  | .DOMAIN_PAUSED => VMStatusPaused
  | _ => VMStatusError

/-- What libvirt answers for one domain of a listing: the results of `GetName` and `GetState`. -/
structure LibvirtDomain where
  getName : Except GoError String
  getState : Except GoError DomainState
  deriving Repr

/-- What libvirt answers during one `Adapter.ListVMs`: the result of `ListAllDomains` over the
active and inactive domains. -/
structure LibvirtList where
  listAllDomains : Except GoError (List LibvirtDomain)
  deriving Repr

/-- The state read by `state, _, _ := domain.GetState()`: on an error the zero value. -/
def stateOrZero (r : Except GoError DomainState) : DomainState :=
  match r with
  | .ok state => state
  | .error _ => .DOMAIN_NOSTATE

/-- The record `Adapter.ListVMs` builds for one domain: ID, name and mapped state; every other
field keeps its zero value. -/
def Adapter.listedVM (domain : LibvirtDomain) : VM :=
  { ID := orEmpty domain.getName
    Name := orEmpty domain.getName
    VCPU := 0
    RAMGB := 0
    DiskGB := 0
    Status := Adapter.mapLibvirtState (stateOrZero domain.getState)
    IP := ""
    Template := ""
    DiskPath := ""
    CreatedAt := 0
    UpdatedAt := 0 }

/-- `Adapter.ListVMs`: one record per domain libvirt lists, in the order listed. -/
def Adapter.ListVMs (lv : LibvirtList) : Except AppError (List VM) :=
  match lv.listAllDomains with
  | .error err => .error (New .ErrCodeHypervisor "failed to list domains" err)
  | .ok domains => .ok (domains.map Adapter.listedVM)

/-! ## `internal/application/usecase` -/

/-- The two repositories shared by the use cases (both are created once in `main`). -/
structure State where
  vmRepo : PersistentVMRepository
  resourceRepo : InMemoryResourceRepository
  deriving Repr

/-- A call made by a use case on one of the repositories or services it holds. -/
inductive Call where
  | vmRepoExists (id : String)
  | vmRepoFindByID (id : String)
  | vmRepoSave (vm : VM)
  | vmRepoDelete (id : String)
  | resourceRepoGetAvailable
  | resourceRepoUpdate (resource : Resource)
  | storageGetImage (template : String)
  | storageCreateDisk (vmID : String) (baseImage : String) (sizeGB : Int)
  | storageDeleteDisk (vmID : String)
  | hypervisorCreateVM (spec : VMSpec)
  | hypervisorDeleteVM (id : String)
  | hypervisorStartVM (id : String)
  | hypervisorStopVM (id : String) (force : Bool)
  | hypervisorListVMs
  | networkGetVMIP (vmID : String)
  deriving DecidableEq, Repr

/-- Whether the call goes to the storage service. -/
def Call.isStorage : Call → Bool
  | .storageGetImage _ => true
  | .storageCreateDisk _ _ _ => true
  | .storageDeleteDisk _ => true
  | _ => false

/-- Whether the call goes to the hypervisor service. -/
def Call.isHypervisor : Call → Bool
  | .hypervisorCreateVM _ => true
  | .hypervisorDeleteVM _ => true
  | .hypervisorStartVM _ => true
  | .hypervisorStopVM _ _ => true
  | .hypervisorListVMs => true
  | _ => false

/-- What a use case hands back: the returned value or error, the repositories after the call, and
the calls made, in order. -/
structure Outcome (α : Type) where
  result : Except AppError α
  state : State
  calls : List Call

/-- Whether the use case returned without an error. -/
def Outcome.isOk {α : Type} (o : Outcome α) : Bool :=
  match o.result with
  | .ok _ => true
  | .error _ => false

/-- The code of the returned error, if any. -/
def Outcome.errCode {α : Type} (o : Outcome α) : Option ErrorCode :=
  match o.result with
  | .ok _ => none
  | .error e => some e.Code

/-- The answers of the outside world during one `CreateVMUseCase.Execute`: the storage service
(`GetImage`, `CreateDisk`, `DeleteDisk`), libvirt behind the hypervisor adapter, the network
service (`GetVMIP`) and the file system under the VM repository. -/
structure CreateEnv where
  getImage : Except GoError String
  createDisk : Except GoError String
  deleteDisk : GoError
  libvirt : LibvirtCreate
  getVMIP : Except GoError String
  persist : PersistEnv
  deriving Repr

/-- `CreateVMUseCase.Execute`. -/
def CreateVMUseCase.Execute (validator : Validate) (env : CreateEnv) (st : State)
    (req : CreateVMRequest) : Outcome CreateVMResponse :=
  -- 1. Validate input
  match validator.StructCreate req with
  | fe :: fes =>
    { result := .error ((New .ErrCodeValidation "invalid request" (.validation (fe :: fes))).WithContext
        "vm_name" (.str req.Name))
      state := st
      calls := [] }
  | [] =>
    -- 2. Check if VM already exists
    match st.vmRepo.Exists req.Name with
    | .error err =>
      { result := .error ((New .ErrCodeInternal "failed to check VM existence" err).WithContext
          "vm_name" (.str req.Name))
        state := st
        calls := [.vmRepoExists req.Name] }
    | .ok true =>
      { result := .error ((New .ErrCodeConflict "VM already exists" .nil).WithContext
          "vm_name" (.str req.Name))
        state := st
        calls := [.vmRepoExists req.Name] }
    | .ok false =>
      -- 3. Check available resources
      match st.resourceRepo.GetAvailable with
      | .error err =>
        { result := .error (New .ErrCodeInternal "failed to check resources" err)
          state := st
          calls := [.vmRepoExists req.Name, .resourceRepoGetAvailable] }
      | .ok resources =>
        if !resources.CanAllocate req.VCPU req.RAMGB req.DiskGB then
          { result := .error
              (((((((New .ErrCodeResourceLimit "insufficient resources" .nil).WithContext
                "requested_vcpu" (.int req.VCPU)).WithContext
                "requested_ram_gb" (.int req.RAMGB)).WithContext
                "requested_disk_gb" (.int req.DiskGB)).WithContext
                "available_vcpu" (.int resources.AvailableCPU)).WithContext
                "available_ram_gb" (.int resources.AvailableRAMGB)).WithContext
                "available_disk_gb" (.int resources.AvailableDiskGB))
            state := st
            calls := [.vmRepoExists req.Name, .resourceRepoGetAvailable] }
        else
          -- 4. Get base image
          match env.getImage with
          | .error err =>
            { result := .error ((New .ErrCodeStorage "failed to get base image" err).WithContext
                "template" (.str req.Template))
              state := st
              calls := [.vmRepoExists req.Name, .resourceRepoGetAvailable,
                .storageGetImage req.Template] }
          | .ok baseImage =>
            -- 5. Create disk
            match env.createDisk with
            | .error err =>
              { result := .error ((New .ErrCodeStorage "failed to create disk" err).WithContext
                  "vm_name" (.str req.Name))
                state := st
                calls := [.vmRepoExists req.Name, .resourceRepoGetAvailable,
                  .storageGetImage req.Template,
                  .storageCreateDisk req.Name baseImage req.DiskGB] }
            | .ok diskPath =>
              -- 6. Create VM in hypervisor
              let vmSpec : VMSpec :=
                { Name := req.Name
                  VCPU := req.VCPU
                  RAMGB := req.RAMGB
                  DiskGB := req.DiskGB
                  Template := req.Template
                  DiskPath := diskPath
                  IP := "" }
              match Adapter.CreateVM env.libvirt vmSpec with
              | .error err =>
                -- Cleanup disk on failure
                { result := .error ((New .ErrCodeHypervisor "failed to create VM"
                    err.toError).WithContext "vm_name" (.str req.Name))
                  state := st
                  calls := [.vmRepoExists req.Name, .resourceRepoGetAvailable,
                    .storageGetImage req.Template,
                    .storageCreateDisk req.Name baseImage req.DiskGB,
                    .hypervisorCreateVM vmSpec, .storageDeleteDisk req.Name] }
              | .ok vm0 =>
                -- 7. Get IP address
                let ip := orEmpty env.getVMIP
                let vm : VM := { vm0 with IP := ip }
                -- 8. Save VM to repository (an error is logged, not returned)
                let vmRepo1 := (st.vmRepo.Save env.persist vm).1
                -- 9. Update resource allocation
                let resources1 := resources.Allocate req.VCPU req.RAMGB req.DiskGB
                let resourceRepo1 := (st.resourceRepo.Update resources1).1
                { result := .ok { VMID := vm.ID, IPAddress := vm.IP, Status := vm.Status }
                  state := { vmRepo := vmRepo1, resourceRepo := resourceRepo1 }
                  calls := [.vmRepoExists req.Name, .resourceRepoGetAvailable,
                    .storageGetImage req.Template,
                    .storageCreateDisk req.Name baseImage req.DiskGB,
                    .hypervisorCreateVM vmSpec, .networkGetVMIP vm0.ID, .vmRepoSave vm,
                    .resourceRepoUpdate resources1] }

/-- The answers of the outside world during one `DeleteVMUseCase.Execute`. -/
structure DeleteEnv where
  libvirt : LibvirtDelete
  deleteDisk : GoError
  persist : PersistEnv
  deriving Repr

/-- `DeleteVMUseCase.Execute`. -/
def DeleteVMUseCase.Execute (validator : Validate) (env : DeleteEnv) (st : State)
    (req : DeleteVMRequest) : Outcome DeleteVMResponse :=
  -- 1. Validate input
  match validator.StructDelete req with
  | fe :: fes =>
    { result := .error (New .ErrCodeValidation "invalid request" (.validation (fe :: fes)))
      state := st
      calls := [] }
  | [] =>
    -- 2. Get VM from repository
    match st.vmRepo.FindByID req.VMID with
    | .error err =>
      { result := .error ((New .ErrCodeNotFound "VM not found" err.toError).WithContext
          "vm_id" (.str req.VMID))
        state := st
        calls := [.vmRepoFindByID req.VMID] }
    | .ok vm =>
      -- 3. Delete VM from hypervisor
      match Adapter.DeleteVM env.libvirt req.VMID with
      | .error err =>
        { result := .error ((New .ErrCodeHypervisor "failed to delete VM" err.toError).WithContext
            "vm_id" (.str req.VMID))
          state := st
          calls := [.vmRepoFindByID req.VMID, .hypervisorDeleteVM req.VMID] }
      | .ok _ =>
        -- 4. Delete disk (an error is logged, not returned)
        -- 5. Remove from repository (an error is logged, not returned)
        let vmRepo1 := (st.vmRepo.Delete env.persist req.VMID).1
        -- 6. Release resources
        match st.resourceRepo.GetAvailable with
        | .ok resources =>
          let resources1 := resources.Release vm.VCPU vm.RAMGB vm.DiskGB
          let resourceRepo1 := (st.resourceRepo.Update resources1).1
          { result := .ok { Success := true }
            state := { vmRepo := vmRepo1, resourceRepo := resourceRepo1 }
            calls := [.vmRepoFindByID req.VMID, .hypervisorDeleteVM req.VMID,
              .storageDeleteDisk req.VMID, .vmRepoDelete req.VMID, .resourceRepoGetAvailable,
              .resourceRepoUpdate resources1] }
        | .error _ =>
          { result := .ok { Success := true }
            state := { vmRepo := vmRepo1, resourceRepo := st.resourceRepo }
            calls := [.vmRepoFindByID req.VMID, .hypervisorDeleteVM req.VMID,
              .storageDeleteDisk req.VMID, .vmRepoDelete req.VMID, .resourceRepoGetAvailable] }

/-- The answers of the outside world during one `StartVMUseCase.Execute`. -/
structure StartEnv where
  libvirt : LibvirtStart
  deriving Repr

/-- `StartVMUseCase.Execute`.  The use case holds the hypervisor service only, no repository: the
state is handed back as it was given. -/
def StartVMUseCase.Execute (validator : Validate) (env : StartEnv) (st : State)
    (req : StartVMRequest) : Outcome StartVMResponse :=
  -- 1. Validate input
  match validator.StructStart req with
  | fe :: fes =>
    { result := .error (New .ErrCodeValidation "invalid request" (.validation (fe :: fes)))
      state := st
      calls := [] }
  | [] =>
    -- 2. Start VM
    match Adapter.StartVM env.libvirt req.VMID with
    | .error err =>
      { result := .error ((New .ErrCodeHypervisor "failed to start VM" err.toError).WithContext
          "vm_id" (.str req.VMID))
        state := st
        calls := [.hypervisorStartVM req.VMID] }
    | .ok _ =>
      { result := .ok { Status := "running" }
        state := st
        calls := [.hypervisorStartVM req.VMID] }

/-- The answers of the outside world during one `StopVMUseCase.Execute`. -/
structure StopEnv where
  libvirt : LibvirtStop
  deriving Repr

/-- `StopVMUseCase.Execute`.  The use case holds the hypervisor service only, no repository: the
state is handed back as it was given. -/
def StopVMUseCase.Execute (validator : Validate) (env : StopEnv) (st : State)
    (req : StopVMRequest) : Outcome StopVMResponse :=
  -- 1. Validate input
  match validator.StructStop req with
  | fe :: fes =>
    { result := .error (New .ErrCodeValidation "invalid request" (.validation (fe :: fes)))
      state := st
      calls := [] }
  | [] =>
    -- 2. Stop VM
    match Adapter.StopVM env.libvirt req.VMID req.Force with
    | .error err =>
      { result := .error ((New .ErrCodeHypervisor "failed to stop VM" err.toError).WithContext
          "vm_id" (.str req.VMID))
        state := st
        calls := [.hypervisorStopVM req.VMID req.Force] }
    | .ok _ =>
      { result := .ok { Status := "stopped" }
        state := st
        calls := [.hypervisorStopVM req.VMID req.Force] }

/-- The answers of the outside world during one `ListVMsUseCase.Execute`: libvirt's listing and,
per VM id, the result of the network service's `GetVMIP`. -/
structure ListEnv where
  libvirt : LibvirtList
  getVMIP : String → Except GoError String

/-- The entry `ListVMsUseCase.Execute` builds for one VM of the hypervisor's listing: the address
from `GetVMIP`, or the VM's own `IP` field when the lookup fails. -/
def ListVMsUseCase.vmInfo (env : ListEnv) (vm : VM) : VMInfo :=
  let ip :=
    match env.getVMIP vm.ID with
    | .ok ip => ip
    | .error _ => vm.IP
  { VMID := vm.ID, Name := vm.Name, Status := vm.Status, IPAddress := ip }

/-- `ListVMsUseCase.Execute`.  The use case holds the hypervisor and network services only, no
repository: the state is handed back as it was given. -/
def ListVMsUseCase.Execute (env : ListEnv) (st : State) (_req : ListVMsRequest) :
    Outcome ListVMsResponse :=
  -- 1. Get all VMs from hypervisor
  match Adapter.ListVMs env.libvirt with
  | .error err =>
    { result := .error (New .ErrCodeHypervisor "failed to list VMs" err.toError)
      state := st
      calls := [.hypervisorListVMs] }
  | .ok vms =>
    -- 2. Build response
    { result := .ok { VMs := vms.map (ListVMsUseCase.vmInfo env) }
      state := st
      calls := .hypervisorListVMs :: vms.map (fun vm => .networkGetVMIP vm.ID) }

/-! ## `internal/presentation/grpc/server/server.go` -/

/-- The gRPC status codes (`google.golang.org/grpc/codes`). -/
inductive Codes where
  | OK
  | Canceled
  | Unknown
  | InvalidArgument
  | DeadlineExceeded
  | NotFound
  | AlreadyExists
  | PermissionDenied
  | ResourceExhausted
  | FailedPrecondition
  | Aborted
  | OutOfRange
  | Unimplemented
  | Internal
  | Unavailable
  | DataLoss
  | Unauthenticated
  deriving DecidableEq, Repr

/-- A gRPC status as built by `status.Error(code, message)`. -/
structure Status where
  code : Codes
  message : String
  deriving DecidableEq, Repr

/-- `errors.As(err, &appErr)`: the first `*AppError` met in the chain of `err`.  The error itself
is tried first, then what it wraps. -/
def asAppError : GoError → Option AppError
  | .app code message err context =>
    some { Code := code, Message := message, Err := err, Context := context }
  | .wrap _ inner => asAppError inner
  | .nil => none
  | .plain _ => none
  | .validation _ => none

/-- `toGRPCError`: converts a domain error to a gRPC status. -/
def toGRPCError (err : GoError) : Status :=
  match asAppError err with
  | none => { code := .Internal, message := "internal server error" }
  | some appErr =>
    match appErr.Code with
    | .ErrCodeValidation => { code := .InvalidArgument, message := appErr.Message }
    | .ErrCodeNotFound => { code := .NotFound, message := appErr.Message }
    | .ErrCodeConflict => { code := .AlreadyExists, message := appErr.Message }
    | .ErrCodeResourceLimit => { code := .ResourceExhausted, message := appErr.Message }
    | _ => { code := .Internal, message := appErr.Message }

/-- The protobuf message `agentpb.CreateVMRequest`; its three numeric fields are 32-bit. -/
structure agentpb.CreateVMRequest where
  Name : String
  Vcpu : Int
  RamGb : Int
  DiskGb : Int
  Template : String
  Metadata : List (String × String)
  deriving DecidableEq, Repr

/-- The protobuf message `agentpb.CreateVMResponse`. -/
structure agentpb.CreateVMResponse where
  VmId : String
  IpAddress : String
  Status : String
  deriving DecidableEq, Repr

/-- `Server.CreateVM`: the request is converted to the DTO, the use case is run, and an error is
converted by `toGRPCError`.  Logging and metrics are left out. -/
def Server.CreateVM (validator : Validate) (env : CreateEnv) (st : State)
    (req : agentpb.CreateVMRequest) : Except Status agentpb.CreateVMResponse × State :=
  let dtoReq : CreateVMRequest :=
    { Name := req.Name
      VCPU := req.Vcpu
      RAMGB := req.RamGb
      DiskGB := req.DiskGb
      Template := req.Template
      Metadata := req.Metadata }
  let out := CreateVMUseCase.Execute validator env st dtoReq
  match out.result with
  | .error err => (.error (toGRPCError err.toError), out.state)
  | .ok resp =>
    (.ok { VmId := resp.VMID, IpAddress := resp.IPAddress, Status := resp.Status }, out.state)

/-! ## `internal/infrastructure/config/config.go` -/

/-- The section `ResourceConfig` of the configuration. -/
structure ResourceConfig where
  ReservedCPU : Int
  ReservedRAMGB : Int
  ReservedDiskGB : Int
  deriving DecidableEq, Repr

/-- `validator.Struct` on the `ResourceConfig` section: each of the three fields carries the tag
`min=0`. -/
def Validate.StructResourceConfig (_v : Validate) (cfg : ResourceConfig) : List FieldError :=
  checkField "ReservedCPU" [("min", decide (0 ≤ cfg.ReservedCPU))] ++
    checkField "ReservedRAMGB" [("min", decide (0 ≤ cfg.ReservedRAMGB))] ++
    checkField "ReservedDiskGB" [("min", decide (0 ≤ cfg.ReservedDiskGB))]

/-! ## `cmd/ghost-agent/main.go`: the repositories at startup, and runs of calls -/

/-- The repositories as `main` builds them: the VM repository opened on the data directory, the
ledger from the host's CPU count and the configured reservations.  An error of
`NewPersistentVMRepository` is fatal. -/
def startup (dataDir : DataDir) (numCPU : Int) (cfg : ResourceConfig) : Except GoError State :=
  match NewPersistentVMRepository dataDir with
  | .error err => .error err
  | .ok vmRepo =>
    .ok
      { vmRepo := vmRepo
        resourceRepo :=
          NewInMemoryResourceRepository numCPU cfg.ReservedCPU cfg.ReservedRAMGB
            cfg.ReservedDiskGB }

/-- A freshly constructed ledger next to an empty registry (no `vms.json` yet). -/
def freshState (numCPU : Int) (cfg : ResourceConfig) : State :=
  { vmRepo := { vms := [], file := .notExist }
    resourceRepo :=
      NewInMemoryResourceRepository numCPU cfg.ReservedCPU cfg.ReservedRAMGB cfg.ReservedDiskGB }

/-- One Create or Delete call together with what the outside world answers during it. -/
inductive Op where
  | create (env : CreateEnv) (req : CreateVMRequest)
  | delete (env : DeleteEnv) (req : DeleteVMRequest)

/-- The repositories after one call. -/
def Op.apply (validator : Validate) (st : State) : Op → State
  | .create env req => (CreateVMUseCase.Execute validator env st req).state
  | .delete env req => (DeleteVMUseCase.Execute validator env st req).state

/-- The repositories after a sequence of calls, one after the other. -/
def runOps (validator : Validate) (st : State) (ops : List Op) : State :=
  ops.foldl (Op.apply validator) st

/-- The states passed through by a sequence of calls: the initial one and the one after every
call. -/
def traceOps (validator : Validate) (st : State) : List Op → List State
  | [] => [st]
  | op :: ops => st :: traceOps validator (Op.apply validator st op) ops

/-- Sum of the CPU counts of the records of a map. -/
def VMMap.sumVCPU (m : VMMap) : Int :=
  (m.map (fun kv => kv.2.VCPU)).sum

/-- Sum of the RAM sizes of the records of a map. -/
def VMMap.sumRAMGB (m : VMMap) : Int :=
  (m.map (fun kv => kv.2.RAMGB)).sum

/-- Sum of the disk sizes of the records of a map. -/
def VMMap.sumDiskGB (m : VMMap) : Int :=
  (m.map (fun kv => kv.2.DiskGB)).sum

/-- The records of a map that are not in the `error` state. -/
def VMMap.nonError (m : VMMap) : VMMap :=
  m.filter (fun kv => kv.2.Status != VMStatusError)

/-! ## Runs of mutations on the VM repository -/

/-- The record map decoded from the on-disk `vms.json`, when the file is there and decodes. -/
def VMFile.records : VMFile → Option VMMap
  | .decoded m => some m
  | _ => none

/-- A repository reopened on the data directory of `r`: `NewPersistentVMRepository` on the
directory (which exists) with the file `r` left there. -/
def reopen (r : PersistentVMRepository) : Except GoError PersistentVMRepository :=
  NewPersistentVMRepository { mkdirAll := .nil, file := r.file }

/-- One mutation of the VM repository together with what the file system answers during it. -/
inductive RepoOp where
  | save (env : PersistEnv) (vm : VM)
  | delete (env : PersistEnv) (id : String)

/-- The repository after one mutation, and the error the mutation returns. -/
def RepoOp.apply (r : PersistentVMRepository) : RepoOp → PersistentVMRepository × GoError
  | .save env vm => r.Save env vm
  | .delete env id => r.Delete env id

/-- The repository after a sequence of mutations, one after the other. -/
def runRepoOps (r : PersistentVMRepository) (ops : List RepoOp) : PersistentVMRepository :=
  ops.foldl (fun r1 op => (RepoOp.apply r1 op).1) r

/-- The last persisted state of a run of mutations: the in-memory map as it was when the last
mutation that returned no error returned; `none` when every mutation of the run returned an
error. -/
def lastPersisted (r : PersistentVMRepository) : List RepoOp → Option VMMap
  | [] => none
  | op :: ops =>
    match lastPersisted (RepoOp.apply r op).1 ops with
    | some m => some m
    | none => if (RepoOp.apply r op).2.isNil then some (RepoOp.apply r op).1.vms else none

/-! ## The invariants of the data model -/

/-- Invariant I3: the footprint of the non-error records sums to the ledger's allocated totals
(total minus reserved minus available), per resource. -/
def invariantI3 (st : State) : Prop :=
  st.resourceRepo.resource.TotalCPU - st.resourceRepo.resource.ReservedCPU -
        st.resourceRepo.resource.AvailableCPU = (VMMap.nonError st.vmRepo.vms).sumVCPU ∧
    st.resourceRepo.resource.TotalRAMGB - st.resourceRepo.resource.ReservedRAMGB -
        st.resourceRepo.resource.AvailableRAMGB = (VMMap.nonError st.vmRepo.vms).sumRAMGB ∧
    st.resourceRepo.resource.TotalDiskGB - st.resourceRepo.resource.ReservedDiskGB -
        st.resourceRepo.resource.AvailableDiskGB = (VMMap.nonError st.vmRepo.vms).sumDiskGB

/-- Invariant I5: available = total − reserved − the sum over the records of the registry, per
resource. -/
def invariantI5 (st : State) : Prop :=
  st.resourceRepo.resource.AvailableCPU =
      st.resourceRepo.resource.TotalCPU - st.resourceRepo.resource.ReservedCPU -
        st.vmRepo.vms.sumVCPU ∧
    st.resourceRepo.resource.AvailableRAMGB =
      st.resourceRepo.resource.TotalRAMGB - st.resourceRepo.resource.ReservedRAMGB -
        st.vmRepo.vms.sumRAMGB ∧
    st.resourceRepo.resource.AvailableDiskGB =
      st.resourceRepo.resource.TotalDiskGB - st.resourceRepo.resource.ReservedDiskGB -
        st.vmRepo.vms.sumDiskGB

/-- Invariant I6: no available amount is negative. -/
def invariantI6 (st : State) : Prop :=
  0 ≤ st.resourceRepo.resource.AvailableCPU ∧ 0 ≤ st.resourceRepo.resource.AvailableRAMGB ∧
    0 ≤ st.resourceRepo.resource.AvailableDiskGB

/-- No key is bound twice. -/
def VMMap.keysNodup (m : VMMap) : Prop :=
  (m.map (fun kv => kv.1)).Nodup

/-! ## Concrete inputs: the host and the requests of the end-to-end scenarios -/

/-- A create environment in which every outside call succeeds. -/
def envAllOk : CreateEnv :=
  { getImage := .ok "/var/lib/ghost/images/ubuntu-22.04.qcow2"
    createDisk := .ok "/var/lib/ghost/images/disks/vm-a.qcow2"
    deleteDisk := .nil
    libvirt :=
      { breaker := .nil
        defineXML := .nil
        domainCreate := .nil
        waitForIP := .ok "192.168.122.10"
        createdAt := 100
        updatedAt := 100 }
    getVMIP := .ok "192.168.122.10"
    persist := { writeFile := .nil, rename := .nil } }

/-- A delete environment in which every outside call succeeds. -/
def delAllOk : DeleteEnv :=
  { libvirt :=
      { breaker := .nil
        lookupDomainByName := .nil
        getState := .ok .DOMAIN_RUNNING
        destroy := .nil
        undefine := .nil }
    deleteDisk := .nil
    persist := { writeFile := .nil, rename := .nil } }

/-- The reservations of the scenario host. -/
def scenarioConfig : ResourceConfig :=
  { ReservedCPU := 4, ReservedRAMGB := 16, ReservedDiskGB := 300 }

/-- The host of the end-to-end scenarios: a fresh agent on 12 cores reserving 4 cores, 16 GiB of
RAM and 300 GiB of disk, hence with available CPU 8, RAM 16 and disk 200 and an empty registry. -/
def scenarioState : State :=
  freshState 12 scenarioConfig

/-- The request of scenario 1. -/
def requestVmA : CreateVMRequest :=
  { Name := "vm-a", VCPU := 2, RAMGB := 4, DiskGB := 50, Template := "ubuntu-22.04", Metadata := [] }

/-- A create environment in which the circuit breaker of the hypervisor adapter is open. -/
def envBreakerOpen : CreateEnv :=
  { envAllOk with libvirt := { envAllOk.libvirt with breaker := .plain "circuit breaker is open" } }

/-- The record that scenario 1 leaves in `vms.json`. -/
def recordVmA : VM :=
  { ID := "vm-a"
    Name := "vm-a"
    VCPU := 2
    RAMGB := 4
    DiskGB := 50
    Status := VMStatusRunning
    IP := "192.168.122.10"
    Template := "ubuntu-22.04"
    DiskPath := "/var/lib/ghost/images/disks/vm-a.qcow2"
    CreatedAt := 100
    UpdatedAt := 100 }

/-- A configuration that reserves more RAM than the host total of 32. -/
def overReservedConfig : ResourceConfig :=
  { ReservedCPU := 0, ReservedRAMGB := 64, ReservedDiskGB := 0 }

/-- The request of scenario 4: the disk size is 10000. -/
def requestDisk10000 : agentpb.CreateVMRequest :=
  { Name := "vm-a", Vcpu := 2, RamGb := 4, DiskGb := 10000, Template := "ubuntu-22.04",
    Metadata := [] }

/-- A request for 16 GiB of disk more than the scenario host has available (but less than its
total of 500). -/
def requestDisk216 : CreateVMRequest :=
  { Name := "vm-b", VCPU := 2, RAMGB := 4, DiskGB := 216, Template := "debian-12", Metadata := [] }

/-- A data directory whose `vms.json` holds the record of scenario 1. -/
def dataDirWithVmA : DataDir :=
  { mkdirAll := .nil, file := .decoded [("vm-a", recordVmA)] }

/-- A data directory without `vms.json`. -/
def dataDirEmpty : DataDir :=
  { mkdirAll := .nil, file := .notExist }

/-- The state of the scenario host after scenario 1: `vm-a` is registered and running. -/
def stateWithVmA : State :=
  (CreateVMUseCase.Execute defaultValidate envAllOk scenarioState requestVmA).state

/-- File-system answers of a `persist` that succeeds. -/
def persistOk : PersistEnv :=
  { writeFile := .nil, rename := .nil }

/-- File-system answers of a `persist` whose write of the temporary file fails. -/
def persistFails : PersistEnv :=
  { writeFile := .plain "write vms.json.tmp: no space left on device", rename := .nil }

/-- A create environment in which the lease lookup and the write of the registry file fail. -/
def envLeaseAndSaveFail : CreateEnv :=
  { envAllOk with getVMIP := .error (.plain "no IP address found"), persist := persistFails }

/-- A delete environment in which libvirt does not find the domain. -/
def delDomainNotFound : DeleteEnv :=
  { delAllOk with
    libvirt :=
      { delAllOk.libvirt with
        lookupDomainByName := .plain "Domain not found: no domain with matching name" } }

/-- A delete environment in which the hypervisor step succeeds while the removal of the overlay
disk and the write of the registry file fail. -/
def delDiskAndRegistryFail : DeleteEnv :=
  { delAllOk with deleteDisk := .plain "remove vm-a.qcow2: permission denied"
                  persist := persistFails }

/-- A start environment in which every outside call succeeds. -/
def startAllOk : StartEnv :=
  { libvirt := { breaker := .nil, lookupDomainByName := .nil, domainCreate := .nil } }

/-- A stop environment in which every outside call succeeds. -/
def stopAllOk : StopEnv :=
  { libvirt := { breaker := .nil, lookupDomainByName := .nil, destroy := .nil, shutdown := .nil } }

/-- A list environment in which the hypervisor knows no domain. -/
def listNoDomains : ListEnv :=
  { libvirt := { listAllDomains := .ok [] }
    getVMIP := fun _ => .error (.plain "VM not found") }

/-- A list environment in which the hypervisor knows one domain, `vm-x`, shut off and without a
lease. -/
def listOneDomain : ListEnv :=
  { libvirt :=
      { listAllDomains := .ok [{ getName := .ok "vm-x", getState := .ok .DOMAIN_SHUTOFF }] }
    getVMIP := fun _ => .error (.plain "no IP address found") }

/-- A second record, for runs of mutations on the repository. -/
def recordVmB : VM :=
  { recordVmA with ID := "vm-b", Name := "vm-b" }

/-- A repository opened on a data directory without `vms.json`. -/
def emptyRepo : PersistentVMRepository :=
  { vms := [], file := .notExist }

/-! ## Properties carried from call to call -/

/-- What the I5 argument carries from call to call: no key is bound twice and I5 holds. -/
def ledgerMatchesRegistry (st : State) : Prop :=
  VMMap.keysNodup st.vmRepo.vms ∧ invariantI5 st

/-- What the I6 argument carries from call to call: I6 holds and no record of the registry has a
negative footprint. -/
def ledgerNonneg (st : State) : Prop :=
  invariantI6 st ∧
    ∀ kv ∈ st.vmRepo.vms, 0 ≤ kv.2.VCPU ∧ 0 ≤ kv.2.RAMGB ∧ 0 ≤ kv.2.DiskGB

/-! ## The hypervisor adapter seen from the libvirt connection -/

/-- A call on the libvirt connection (`conn...`) or on a domain handle obtained from it
(`domain...`). -/
inductive LibvirtCall where
  | connDomainDefineXML (name : String)
  | connLookupDomainByName (name : String)
  | connListAllDomains
  | connGetVersion
  | domainCreate (name : String)
  | domainDestroy (name : String)
  | domainShutdown (name : String)
  | domainUndefine (name : String)
  | domainGetState (name : String)
  | domainListAllInterfaceAddresses (name : String)
  | domainFree (name : String)
  deriving DecidableEq, Repr

/-- The libvirt calls of one adapter operation, in order, each with whether it succeeded.  The
lease polling of `waitForIP` (one `ListAllInterfaceAddresses` every two seconds, each of which may
succeed without showing an address) is recorded as a single entry, flagged with whether the wait
ended with an address. -/
abbrev LibvirtTrace := List (LibvirtCall × Bool)

/-- The domains defined on the host after a libvirt call: a successful `DomainDefineXML` defines
the domain, a successful `Undefine` removes it, every other call leaves the set as it is. -/
def definedAfterCall (domains : List String) : LibvirtCall × Bool → List String
  | (.connDomainDefineXML name, true) => name :: domains.filter (fun d => d != name)
  | (.domainUndefine name, true) => domains.filter (fun d => d != name)
  | _ => domains

/-- The domains defined on the host after a sequence of libvirt calls. -/
def definedAfter (domains : List String) (trace : LibvirtTrace) : List String :=
  trace.foldl definedAfterCall domains

/-- The libvirt calls made by `Adapter.createVMInternal`: define; then start; then, only after a
successful start, the polling for an address (one entry for the whole wait, however many queries
it takes, flagged with the outcome of the wait); the handle is freed on return (`defer`). -/
def Adapter.createVMInternalCalls (lv : LibvirtCreate) (spec : VMSpec) : LibvirtTrace :=
  match lv.defineXML with
  | .nil =>
    match lv.domainCreate with
    | .nil =>
      [(.connDomainDefineXML spec.Name, true), (.domainCreate spec.Name, true),
        (.domainListAllInterfaceAddresses spec.Name, lv.waitForIP.toBool),
        (.domainFree spec.Name, true)]
    | _ =>
      [(.connDomainDefineXML spec.Name, true), (.domainCreate spec.Name, false),
        (.domainFree spec.Name, true)]
  | _ => [(.connDomainDefineXML spec.Name, false)]

/-- The libvirt calls made by `Adapter.CreateVM`: those of `createVMInternal` when the circuit
breaker lets the request through, none when it rejects it. -/
def Adapter.CreateVMCalls (lv : LibvirtCreate) (spec : VMSpec) : LibvirtTrace :=
  match lv.breaker with
  | .nil => Adapter.createVMInternalCalls lv spec
  | _ => []

/-- The libvirt calls made by `Adapter.deleteVMInternal`. -/
def Adapter.deleteVMInternalCalls (lv : LibvirtDelete) (id : String) : LibvirtTrace :=
  match lv.lookupDomainByName with
  | .nil =>
    match lv.getState with
    | .error _ => [(.connLookupDomainByName id, true), (.domainGetState id, false),
        (.domainFree id, true)]
    | .ok state =>
      if state = .DOMAIN_RUNNING then
        match lv.destroy with
        | .nil =>
          [(.connLookupDomainByName id, true), (.domainGetState id, true),
            (.domainDestroy id, true), (.domainUndefine id, lv.undefine.isNil),
            (.domainFree id, true)]
        | _ =>
          [(.connLookupDomainByName id, true), (.domainGetState id, true),
            (.domainDestroy id, false), (.domainFree id, true)]
      else
        [(.connLookupDomainByName id, true), (.domainGetState id, true),
          (.domainUndefine id, lv.undefine.isNil), (.domainFree id, true)]
  | _ => [(.connLookupDomainByName id, false)]

/-- The libvirt calls made by `Adapter.DeleteVM`. -/
def Adapter.DeleteVMCalls (lv : LibvirtDelete) (id : String) : LibvirtTrace :=
  match lv.breaker with
  | .nil => Adapter.deleteVMInternalCalls lv id
  | _ => []

/-- The libvirt calls made by `Adapter.startVMInternal`. -/
def Adapter.startVMInternalCalls (lv : LibvirtStart) (id : String) : LibvirtTrace :=
  match lv.lookupDomainByName with
  | .nil =>
    [(.connLookupDomainByName id, true), (.domainCreate id, lv.domainCreate.isNil),
      (.domainFree id, true)]
  | _ => [(.connLookupDomainByName id, false)]

/-- The libvirt calls made by `Adapter.StartVM`. -/
def Adapter.StartVMCalls (lv : LibvirtStart) (id : String) : LibvirtTrace :=
  match lv.breaker with
  | .nil => Adapter.startVMInternalCalls lv id
  | _ => []

/-- The libvirt calls made by `Adapter.stopVMInternal`. -/
def Adapter.stopVMInternalCalls (lv : LibvirtStop) (id : String) (force : Bool) : LibvirtTrace :=
  match lv.lookupDomainByName with
  | .nil =>
    if force then
      [(.connLookupDomainByName id, true), (.domainDestroy id, lv.destroy.isNil),
        (.domainFree id, true)]
    else
      [(.connLookupDomainByName id, true), (.domainShutdown id, lv.shutdown.isNil),
        (.domainFree id, true)]
  | _ => [(.connLookupDomainByName id, false)]

/-- The libvirt calls made by `Adapter.StopVM`. -/
def Adapter.StopVMCalls (lv : LibvirtStop) (id : String) (force : Bool) : LibvirtTrace :=
  match lv.breaker with
  | .nil => Adapter.stopVMInternalCalls lv id force
  | _ => []

/-- The struct `VMStatusInfo`.  The three usage fields are only ever given the constant 0 (their
computation is a TODO in the source), so the two `float32` fields are kept as integers. -/
structure VMStatusInfo where
  Status : VMStatus
  UptimeSeconds : Int
  CPUUsagePercent : Int
  RAMUsagePercent : Int
  deriving DecidableEq, Repr

/-- What the adapter meets during one `Adapter.GetVMStatus`: the answer the circuit breaker would
give if it were asked (`nil`: closed), and libvirt's answers. -/
structure LibvirtStatus where
  breaker : GoError
  lookupDomainByName : GoError
  getState : Except GoError DomainState
  deriving Repr

/-- `Adapter.GetVMStatus`: look the domain up, read its state and map it.  The method calls the
connection directly; the circuit breaker is not asked. -/
def Adapter.GetVMStatus (lv : LibvirtStatus) (id : String) : Except GoError VMStatusInfo :=
  match lv.lookupDomainByName with
  | .nil =>
    match lv.getState with
    | .error err => .error (.wrap "failed to get domain state" err)
    | .ok state =>
      .ok
        { Status := Adapter.mapLibvirtState state
          UptimeSeconds := 0
          CPUUsagePercent := 0
          RAMUsagePercent := 0 }
  | err =>
    .error ((New .ErrCodeNotFound "VM not found" err).WithContext "vm_id" (.str id)).toError

/-- The libvirt calls made by `Adapter.GetVMStatus`. -/
def Adapter.GetVMStatusCalls (lv : LibvirtStatus) (id : String) : LibvirtTrace :=
  match lv.lookupDomainByName with
  | .nil =>
    [(.connLookupDomainByName id, true), (.domainGetState id, lv.getState.toBool),
      (.domainFree id, true)]
  | _ => [(.connLookupDomainByName id, false)]

/-- What the adapter meets during one `Adapter.ListVMs`, with the answer the circuit breaker would
give if it were asked. -/
structure LibvirtListing where
  breaker : GoError
  libvirt : LibvirtList
  deriving Repr

/-- The libvirt calls made by `Adapter.ListVMs`: the listing, then `GetName`, `GetState` and
`Free` on every domain listed (recorded per domain by its state query and its release). -/
def Adapter.ListVMsCalls (lv : LibvirtListing) : LibvirtTrace :=
  match lv.libvirt.listAllDomains with
  | .error _ => [(.connListAllDomains, false)]
  | .ok domains =>
    (.connListAllDomains, true) ::
      (domains.map (fun d =>
        [(LibvirtCall.domainGetState (orEmpty d.getName), d.getState.toBool),
          (LibvirtCall.domainFree (orEmpty d.getName), true)])).flatten

/-- What the adapter meets during one `Adapter.Ping`. -/
structure LibvirtPing where
  breaker : GoError
  getVersion : GoError
  deriving Repr

/-- `Adapter.Ping`: asks the connection for its version.  The circuit breaker is not asked. -/
def Adapter.Ping (lv : LibvirtPing) : GoError :=
  match lv.getVersion with
  | .nil => .nil
  | err => .wrap "libvirt connection is down" err

/-- The libvirt calls made by `Adapter.Ping`. -/
def Adapter.PingCalls (lv : LibvirtPing) : LibvirtTrace :=
  [(.connGetVersion, lv.getVersion.isNil)]

/-- The error gobreaker returns while the breaker is open. -/
def ErrOpenState : GoError :=
  .plain "circuit breaker is open"

/-! ## `internal/infrastructure/network/nat_adapter.go` and the lease scan of the hypervisor adapter -/

/-- `libvirt.DomainIPAddress` (`AddrType` stands for its field `Type`). -/
structure DomainIPAddress where
  AddrType : Int
  Addr : String
  Prefix : Nat
  deriving DecidableEq, Repr

/-- `libvirt.DomainInterface`. -/
structure DomainInterface where
  Name : String
  Hwaddr : String
  Addrs : List DomainIPAddress
  deriving DecidableEq, Repr

/-- What libvirt answers during one `NATAdapter.GetVMIP`: the lookup of the domain and the lease
query `ListAllInterfaceAddresses`. -/
structure LeaseEnv where
  lookupDomainByName : GoError
  listAllInterfaceAddresses : Except GoError (List DomainInterface)
  deriving Repr

/-- `NATAdapter.GetVMIP`: the first address of the first interface of the lease query. -/
def NATAdapter.GetVMIP (env : LeaseEnv) (vmID : String) : Except AppError String :=
  match env.lookupDomainByName with
  | .nil =>
    match env.listAllInterfaceAddresses with
    | .error err =>
      .error ((New .ErrCodeNetwork "failed to get interfaces" err).WithContext "vm_id"
        (.str vmID))
    | .ok ifaces =>
      -- len(ifaces) == 0 || len(ifaces[0].Addrs) == 0
      match ifaces with
      | [] =>
        .error ((New .ErrCodeNetwork "no IP address found" .nil).WithContext "vm_id"
          (.str vmID))
      | iface0 :: _ =>
        match iface0.Addrs with
        | [] =>
          .error ((New .ErrCodeNetwork "no IP address found" .nil).WithContext "vm_id"
            (.str vmID))
        | addr0 :: _ => .ok addr0.Addr
  | err =>
    .error ((New .ErrCodeNotFound "VM not found" err).WithContext "vm_id" (.str vmID))

/-- `NATAdapter.waitForDHCPLease`: `polls` holds libvirt's answers to the successive queries made
before the deadline, two seconds apart; the first query that yields a non-empty address ends the
wait, and when none does the wait times out. -/
def NATAdapter.waitForDHCPLease (polls : List LeaseEnv) (vmID : String) : Except GoError String :=
  match polls with
  | [] => .error (.plain "timeout waiting for DHCP lease")
  | env :: rest =>
    match NATAdapter.GetVMIP env vmID with
    | .ok ip => if ip != "" then .ok ip else NATAdapter.waitForDHCPLease rest vmID
    | .error _ => NATAdapter.waitForDHCPLease rest vmID

/-- `NATAdapter.AssignIP`: waits for the lease; a timeout becomes a network error. -/
def NATAdapter.AssignIP (polls : List LeaseEnv) (vmID : String) : Except AppError String :=
  match NATAdapter.waitForDHCPLease polls vmID with
  | .error err =>
    .error ((New .ErrCodeNetwork "failed to get DHCP lease" err).WithContext "vm_id" (.str vmID))
  | .ok ip => .ok ip

/-- The scan inside `Adapter.waitForIP` of the hypervisor adapter: the first address of the first
interface that has one. -/
def Adapter.firstLeaseAddress : List DomainInterface → Option String
  | [] => none
  | iface :: rest =>
    match iface.Addrs with
    | addr0 :: _ => some addr0.Addr
    | [] => Adapter.firstLeaseAddress rest

/-- `Adapter.waitForIP` of the hypervisor adapter: `polls` holds libvirt's answers to the
successive lease queries made before the deadline. -/
def Adapter.waitForIP (polls : List (Except GoError (List DomainInterface))) :
    Except GoError String :=
  match polls with
  | [] => .error (.plain "timeout waiting for IP address")
  | poll :: rest =>
    match poll with
    | .ok ifaces =>
      match Adapter.firstLeaseAddress ifaces with
      | some addr => .ok addr
      | none => Adapter.waitForIP rest
    | .error _ => Adapter.waitForIP rest

/-! ## The two halves of `CreateVMUseCase.Execute`, before and after admission -/

/-- Steps 1 to 3 of `CreateVMUseCase.Execute`: validation, uniqueness, and the admission check on
the copy of the ledger that `GetAvailable` returns.  On success the result is that copy, which the
rest of the call keeps using.  Nothing is written: the state is handed back as it was. -/
def CreateVMUseCase.admission (validator : Validate) (st : State) (req : CreateVMRequest) :
    Outcome Resource :=
  match validator.StructCreate req with
  | fe :: fes =>
    { result := .error ((New .ErrCodeValidation "invalid request" (.validation (fe :: fes))).WithContext
        "vm_name" (.str req.Name))
      state := st
      calls := [] }
  | [] =>
    match st.vmRepo.Exists req.Name with
    | .error err =>
      { result := .error ((New .ErrCodeInternal "failed to check VM existence" err).WithContext
          "vm_name" (.str req.Name))
        state := st
        calls := [.vmRepoExists req.Name] }
    | .ok true =>
      { result := .error ((New .ErrCodeConflict "VM already exists" .nil).WithContext
          "vm_name" (.str req.Name))
        state := st
        calls := [.vmRepoExists req.Name] }
    | .ok false =>
      match st.resourceRepo.GetAvailable with
      | .error err =>
        { result := .error (New .ErrCodeInternal "failed to check resources" err)
          state := st
          calls := [.vmRepoExists req.Name, .resourceRepoGetAvailable] }
      | .ok resources =>
        if !resources.CanAllocate req.VCPU req.RAMGB req.DiskGB then
          { result := .error
              (((((((New .ErrCodeResourceLimit "insufficient resources" .nil).WithContext
                "requested_vcpu" (.int req.VCPU)).WithContext
                "requested_ram_gb" (.int req.RAMGB)).WithContext
                "requested_disk_gb" (.int req.DiskGB)).WithContext
                "available_vcpu" (.int resources.AvailableCPU)).WithContext
                "available_ram_gb" (.int resources.AvailableRAMGB)).WithContext
                "available_disk_gb" (.int resources.AvailableDiskGB))
            state := st
            calls := [.vmRepoExists req.Name, .resourceRepoGetAvailable] }
        else
          { result := .ok resources
            state := st
            calls := [.vmRepoExists req.Name, .resourceRepoGetAvailable] }

/-- Steps 4 to 9 of `CreateVMUseCase.Execute`, run on the repositories as they are at that time
(`st`) with the copy `resources` of the ledger taken at step 3: image, disk, hypervisor, lease,
`Save`, and the `Update` of the ledger to `resources` after `Allocate`. -/
def CreateVMUseCase.afterAdmission (env : CreateEnv) (st : State) (req : CreateVMRequest)
    (resources : Resource) : Outcome CreateVMResponse :=
  match env.getImage with
  | .error err =>
    { result := .error ((New .ErrCodeStorage "failed to get base image" err).WithContext
        "template" (.str req.Template))
      state := st
      calls := [.storageGetImage req.Template] }
  | .ok baseImage =>
    match env.createDisk with
    | .error err =>
      { result := .error ((New .ErrCodeStorage "failed to create disk" err).WithContext
          "vm_name" (.str req.Name))
        state := st
        calls := [.storageGetImage req.Template,
          .storageCreateDisk req.Name baseImage req.DiskGB] }
    | .ok diskPath =>
      let vmSpec : VMSpec :=
        { Name := req.Name
          VCPU := req.VCPU
          RAMGB := req.RAMGB
          DiskGB := req.DiskGB
          Template := req.Template
          DiskPath := diskPath
          IP := "" }
      match Adapter.CreateVM env.libvirt vmSpec with
      | .error err =>
        { result := .error ((New .ErrCodeHypervisor "failed to create VM"
            err.toError).WithContext "vm_name" (.str req.Name))
          state := st
          calls := [.storageGetImage req.Template,
            .storageCreateDisk req.Name baseImage req.DiskGB,
            .hypervisorCreateVM vmSpec, .storageDeleteDisk req.Name] }
      | .ok vm0 =>
        let ip := orEmpty env.getVMIP
        let vm : VM := { vm0 with IP := ip }
        let vmRepo1 := (st.vmRepo.Save env.persist vm).1
        let resources1 := resources.Allocate req.VCPU req.RAMGB req.DiskGB
        let resourceRepo1 := (st.resourceRepo.Update resources1).1
        { result := .ok { VMID := vm.ID, IPAddress := vm.IP, Status := vm.Status }
          state := { vmRepo := vmRepo1, resourceRepo := resourceRepo1 }
          calls := [.storageGetImage req.Template,
            .storageCreateDisk req.Name baseImage req.DiskGB,
            .hypervisorCreateVM vmSpec, .networkGetVMIP vm0.ID, .vmRepoSave vm,
            .resourceRepoUpdate resources1] }

/-- One call of `CreateVMUseCase.Execute` as its two halves in a row. -/
def CreateVMUseCase.inTwoHalves (validator : Validate) (env : CreateEnv) (st : State)
    (req : CreateVMRequest) : Outcome CreateVMResponse :=
  match (CreateVMUseCase.admission validator st req).result with
  | .error err =>
    { result := .error err
      state := st
      calls := (CreateVMUseCase.admission validator st req).calls }
  | .ok resources =>
    { result := (CreateVMUseCase.afterAdmission env st req resources).result
      state := (CreateVMUseCase.afterAdmission env st req resources).state
      calls := (CreateVMUseCase.admission validator st req).calls ++
        (CreateVMUseCase.afterAdmission env st req resources).calls }

/-- Two concurrent calls of `CreateVMUseCase.Execute`, A and B, in the interleaving in which both
pass admission before either goes on.  Every repository method runs under the repository's mutex
and so as a whole; the calls of A and B on the repositories come in the order: admission of A,
admission of B (both on `st`, as admission writes nothing), rest of A, rest of B. -/
structure TwoCreates where
  resultA : Except AppError CreateVMResponse
  resultB : Except AppError CreateVMResponse
  state : State

/-- The interleaving described at `TwoCreates`. -/
def CreateVMUseCase.bothAdmittedFirst (validator : Validate) (envA envB : CreateEnv) (st : State)
    (reqA reqB : CreateVMRequest) : TwoCreates :=
  match (CreateVMUseCase.admission validator st reqA).result,
      (CreateVMUseCase.admission validator st reqB).result with
  | .ok resourcesA, .ok resourcesB =>
    { resultA := (CreateVMUseCase.afterAdmission envA st reqA resourcesA).result
      resultB :=
        (CreateVMUseCase.afterAdmission envB
          (CreateVMUseCase.afterAdmission envA st reqA resourcesA).state reqB resourcesB).result
      state :=
        (CreateVMUseCase.afterAdmission envB
          (CreateVMUseCase.afterAdmission envA st reqA resourcesA).state reqB resourcesB).state }
  | .ok resourcesA, .error errB =>
    { resultA := (CreateVMUseCase.afterAdmission envA st reqA resourcesA).result
      resultB := .error errB
      state := (CreateVMUseCase.afterAdmission envA st reqA resourcesA).state }
  | .error errA, .ok resourcesB =>
    { resultA := .error errA
      resultB := (CreateVMUseCase.afterAdmission envB st reqB resourcesB).result
      state := (CreateVMUseCase.afterAdmission envB st reqB resourcesB).state }
  | .error errA, .error errB =>
    { resultA := .error errA, resultB := .error errB, state := st }

/-! ## `internal/infrastructure/storage/adapter.go`, `image_repository.go`, `entity/image.go` -/

/-- The entity `Image`. -/
structure Image where
  Name : String
  Path : String
  URL : String
  Checksum : String
  SizeBytes : Int
  CachedAt : Nat
  deriving DecidableEq, Repr

/-- `Image.IsValid`. -/
def Image.IsValid (i : Image) (actualChecksum : String) : Bool :=
  i.Checksum == actualChecksum

/-- A Go `map[string]*entity.Image` as a list of bindings. -/
abbrev ImageMap := List (String × Image)

/-- `InMemoryImageRepository`. -/
structure InMemoryImageRepository where
  images : ImageMap
  deriving DecidableEq, Repr

/-- `NewInMemoryImageRepository`. -/
def NewInMemoryImageRepository : InMemoryImageRepository :=
  { images := [] }

/-- Map lookup `image, ok := r.images[name]`. -/
def ImageMap.get (m : ImageMap) (name : String) : Option Image :=
  (m.find? (fun kv => kv.1 == name)).map (fun kv => kv.2)

/-- `InMemoryImageRepository.Get`. -/
def InMemoryImageRepository.Get (r : InMemoryImageRepository) (name : String) :
    Except AppError Image :=
  match ImageMap.get r.images name with
  | none =>
    .error ((New .ErrCodeNotFound "image not found" .nil).WithContext "image_name" (.str name))
  | some image => .ok image

/-- `InMemoryImageRepository.Save`: `r.images[image.Name] = image`; the error is always nil. -/
def InMemoryImageRepository.Save (r : InMemoryImageRepository) (image : Image) :
    InMemoryImageRepository × GoError :=
  ({ images := (image.Name, image) :: r.images.filter (fun kv => kv.1 != image.Name) }, .nil)

/-- `InMemoryImageRepository.Exists`; the error is always nil. -/
def InMemoryImageRepository.Exists (r : InMemoryImageRepository) (name : String) :
    Except GoError Bool :=
  .ok (ImageMap.get r.images name).isSome

/-- `InMemoryImageRepository.Delete`; the error is always nil. -/
def InMemoryImageRepository.Delete (r : InMemoryImageRepository) (name : String) :
    InMemoryImageRepository × GoError :=
  ({ images := r.images.filter (fun kv => kv.1 != name) }, .nil)

/-- The content of a file, as bytes. -/
abbrev Content := List Nat

/-- The files of the host as the storage adapter reads them: for a path, the content of the file
or the error met when opening or reading it (for instance because it does not exist). -/
abbrev Files := String → Except GoError Content

/-- The file system with the file at `path` replaced. -/
def Files.update (files : Files) (path : String) (now : Except GoError Content) : Files :=
  fun p => if p = path then now else files p

/-- The storage `Adapter`.  Outside the repository and taken as parameters: the SHA-256 digest in
hexadecimal (`crypto/sha256` with `fmt.Sprintf("%x", ...)`) and the two path computations
`filepath.Join(a.imageCache, template + ".qcow2")` and
`filepath.Join(a.imageCache, "disks", vmID + ".qcow2")`. -/
structure storage.Adapter where
  imageCache : String
  sha256Hex : Content → String
  imagePath : String → String
  diskPath : String → String
  imageRepo : InMemoryImageRepository

/-- The table `imageTemplates` built by `NewAdapter`: template name to download URL. -/
def imageTemplates : List (String × String) :=
  [("ubuntu-22.04",
      "https://cloud-images.ubuntu.com/releases/22.04/release/ubuntu-22.04-server-cloudimg-amd64.img"),
    ("ubuntu-20.04",
      "https://cloud-images.ubuntu.com/releases/20.04/release/ubuntu-20.04-server-cloudimg-amd64.img"),
    ("debian-12",
      "https://cloud.debian.org/images/cloud/bookworm/latest/debian-12-generic-amd64.qcow2"),
    ("debian-11",
      "https://cloud.debian.org/images/cloud/bullseye/latest/debian-11-generic-amd64.qcow2")]

/-- Map lookup `url, ok := a.imageTemplates[template]`. -/
def templateURL (template : String) : Option String :=
  (imageTemplates.find? (fun kv => kv.1 == template)).map (fun kv => kv.2)

/-- `Adapter.calculateChecksum`: the digest of the file at the path, or the error of opening or
reading it. -/
def storage.Adapter.calculateChecksum (a : storage.Adapter) (files : Files) (filePath : String) :
    Except GoError String :=
  match files filePath with
  | .error err => .error err
  | .ok content => .ok (a.sha256Hex content)

/-- What the outside world answers during one `Adapter.downloadImage`: the error it returns
(`nil` on success) and what reading the destination file gives afterwards (after a failure: a
partial file, no file, or the former file). -/
structure DownloadEnv where
  download : GoError
  destinationAfter : Except GoError Content

/-- What `Adapter.GetImage` hands back: the path or the error, the adapter (with its image
repository), the files, and the downloads made (URL and destination). -/
structure GetImageOutcome where
  result : Except AppError String
  adapter : storage.Adapter
  files : Files
  downloads : List (String × String)

/-- The second half of `Adapter.GetImage`: resolve the URL, download, hash the downloaded file and
store the record. -/
def storage.Adapter.fetchImage (a : storage.Adapter) (env : DownloadEnv) (files : Files)
    (template : String) : GetImageOutcome :=
  match templateURL template with
  | none =>
    { result := .error ((New .ErrCodeValidation "unknown template" .nil).WithContext "template"
        (.str template))
      adapter := a
      files := files
      downloads := [] }
  | some url =>
    let imagePath := a.imagePath template
    let files1 := Files.update files imagePath env.destinationAfter
    match env.download with
    | .nil =>
      match a.calculateChecksum files1 imagePath with
      | .error err =>
        { result := .error ((New .ErrCodeStorage "failed to calculate checksum" err).WithContext
            "path" (.str imagePath))
          adapter := a
          files := files1
          downloads := [(url, imagePath)] }
      | .ok checksum =>
        let image : Image :=
          { Name := template
            Path := imagePath
            URL := url
            Checksum := checksum
            SizeBytes := 0
            CachedAt := 0 }
        { result := .ok imagePath
          adapter := { a with imageRepo := (a.imageRepo.Save image).1 }
          files := files1
          downloads := [(url, imagePath)] }
    | err =>
      { result := .error (((New .ErrCodeStorage "failed to download image" err).WithContext
          "template" (.str template)).WithContext "url" (.str url))
        adapter := a
        files := files1
        downloads := [(url, imagePath)] }

/-- `Adapter.GetImage`: a cached record is returned when the file at its path hashes to its
checksum; in every other case the image is fetched. -/
def storage.Adapter.GetImage (a : storage.Adapter) (env : DownloadEnv) (files : Files)
    (template : String) : GetImageOutcome :=
  match a.imageRepo.Exists template with
  | .error err =>
    { result := .error ((New .ErrCodeStorage "failed to check image cache" err).WithContext
        "template" (.str template))
      adapter := a
      files := files
      downloads := [] }
  | .ok false => a.fetchImage env files template
  | .ok true =>
    match a.imageRepo.Get template with
    | .error err =>
      { result := .error ((New .ErrCodeStorage "failed to get cached image"
          err.toError).WithContext "template" (.str template))
        adapter := a
        files := files
        downloads := [] }
    | .ok image =>
      match a.calculateChecksum files image.Path with
      | .ok actualChecksum =>
        if image.IsValid actualChecksum then
          { result := .ok image.Path, adapter := a, files := files, downloads := [] }
        else a.fetchImage env files template
      | .error _ => a.fetchImage env files template

/-- `Adapter.DeleteDisk`: removes the overlay file of the VM.  `removeError` is the error of
`os.Remove` when the file is there (`nil`: removed); a file that is not there is not an error.
The result is the overlay files left (by VM id) and the error returned. -/
def storage.Adapter.DeleteDisk (a : storage.Adapter) (overlays : List String)
    (removeError : GoError) (vmID : String) : List String × GoError :=
  if overlays.contains vmID then
    match removeError with
    | .nil => (overlays.filter (fun d => d != vmID), .nil)
    | err =>
      (overlays,
        ((New .ErrCodeStorage "failed to delete disk" err).WithContext "path"
          (.str (a.diskPath vmID))).toError)
  else (overlays, .nil)

/-! ## `internal/infrastructure/storage/vm_repository.go` and the two repositories side by side -/

/-- `InMemoryVMRepository`. -/
structure InMemoryVMRepository where
  vms : VMMap
  deriving DecidableEq, Repr

/-- `NewInMemoryVMRepository`. -/
def NewInMemoryVMRepository : InMemoryVMRepository :=
  { vms := [] }

/-- `InMemoryVMRepository.Save`; the error is always nil. -/
def InMemoryVMRepository.Save (r : InMemoryVMRepository) (vm : VM) :
    InMemoryVMRepository × GoError :=
  ({ vms := VMMap.set r.vms vm.ID vm }, .nil)

/-- `InMemoryVMRepository.FindByID`. -/
def InMemoryVMRepository.FindByID (r : InMemoryVMRepository) (id : String) : Except AppError VM :=
  match VMMap.get r.vms id with
  | none => .error ((New .ErrCodeNotFound "VM not found" .nil).WithContext "vm_id" (.str id))
  | some vm => .ok vm

/-- The loop `for _, vm := range m { if vm.Name == name { return vm } }`.  Go leaves the order of
the iteration open; here the map is walked in the order of its list of bindings. -/
def VMMap.findByName (m : VMMap) (name : String) : Option VM :=
  (m.find? (fun kv => kv.2.Name == name)).map (fun kv => kv.2)

/-- `InMemoryVMRepository.FindByName`. -/
def InMemoryVMRepository.FindByName (r : InMemoryVMRepository) (name : String) :
    Except AppError VM :=
  match VMMap.findByName r.vms name with
  | some vm => .ok vm
  | none => .error ((New .ErrCodeNotFound "VM not found" .nil).WithContext "vm_name" (.str name))

/-- `InMemoryVMRepository.FindAll`: the records of the map (in the order of its list of
bindings); the error is always nil. -/
def InMemoryVMRepository.FindAll (r : InMemoryVMRepository) : Except GoError (List VM) :=
  .ok (r.vms.map (fun kv => kv.2))

/-- `InMemoryVMRepository.Delete`; the error is always nil. -/
def InMemoryVMRepository.Delete (r : InMemoryVMRepository) (id : String) :
    InMemoryVMRepository × GoError :=
  ({ vms := VMMap.delete r.vms id }, .nil)

/-- `InMemoryVMRepository.Exists`; the error is always nil. -/
def InMemoryVMRepository.Exists (r : InMemoryVMRepository) (id : String) : Except GoError Bool :=
  .ok (VMMap.get r.vms id).isSome

/-- `PersistentVMRepository.FindByName`. -/
def PersistentVMRepository.FindByName (r : PersistentVMRepository) (name : String) :
    Except AppError VM :=
  match VMMap.findByName r.vms name with
  | some vm => .ok vm
  | none => .error ((New .ErrCodeNotFound "VM not found" .nil).WithContext "vm_name" (.str name))

/-- `PersistentVMRepository.FindAll`; the error is always nil. -/
def PersistentVMRepository.FindAll (r : PersistentVMRepository) : Except GoError (List VM) :=
  .ok (r.vms.map (fun kv => kv.2))

/-- A call of one of the six methods of the interface `VMRepository`. -/
inductive VMRepositoryCall where
  | Save (vm : VM)
  | FindByID (id : String)
  | FindByName (name : String)
  | FindAll
  | Delete (id : String)
  | Exists (id : String)
  deriving DecidableEq, Repr

/-- What a call of a `VMRepository` method returns. -/
inductive VMRepositoryResult where
  | error (err : GoError)
  | vm (found : Except AppError VM)
  | vms (all : Except GoError (List VM))
  | exists (ok : Except GoError Bool)

/-- One call on an `InMemoryVMRepository`: the repository afterwards and what the call returns. -/
def InMemoryVMRepository.call (r : InMemoryVMRepository) :
    VMRepositoryCall → InMemoryVMRepository × VMRepositoryResult
  | .Save vm => ((r.Save vm).1, .error (r.Save vm).2)
  | .FindByID id => (r, .vm (r.FindByID id))
  | .FindByName name => (r, .vm (r.FindByName name))
  | .FindAll => (r, .vms r.FindAll)
  | .Delete id => ((r.Delete id).1, .error (r.Delete id).2)
  | .Exists id => (r, .exists (r.Exists id))

/-- One call on a `PersistentVMRepository`, with what the file system answers if the call writes
to disk: the repository afterwards and what the call returns. -/
def PersistentVMRepository.call (r : PersistentVMRepository) (env : PersistEnv) :
    VMRepositoryCall → PersistentVMRepository × VMRepositoryResult
  | .Save vm => ((r.Save env vm).1, .error (r.Save env vm).2)
  | .FindByID id => (r, .vm (r.FindByID id))
  | .FindByName name => (r, .vm (r.FindByName name))
  | .FindAll => (r, .vms r.FindAll)
  | .Delete id => ((r.Delete env id).1, .error (r.Delete env id).2)
  | .Exists id => (r, .exists (r.Exists id))

/-- A sequence of calls on an `InMemoryVMRepository`: the repository at the end and the results in
order. -/
def InMemoryVMRepository.run (r : InMemoryVMRepository) :
    List VMRepositoryCall → InMemoryVMRepository × List VMRepositoryResult
  | [] => (r, [])
  | c :: cs => (((r.call c).1.run cs).1, (r.call c).2 :: ((r.call c).1.run cs).2)

/-- A sequence of calls on a `PersistentVMRepository`, each with the answers of the file system:
the repository at the end and the results in order. -/
def PersistentVMRepository.run (r : PersistentVMRepository) :
    List (VMRepositoryCall × PersistEnv) → PersistentVMRepository × List VMRepositoryResult
  | [] => (r, [])
  | c :: cs =>
    (((r.call c.2 c.1).1.run cs).1, (r.call c.2 c.1).2 :: ((r.call c.2 c.1).1.run cs).2)

/-! ## The repository's map as a Go value: the nil map -/

/-- A Go value of type `map[string]*entity.VM`: `none` is the nil map, which reads like an empty
map and cannot be assigned to.  `PersistentVMRepository` above describes the repository while its
map is not nil, as `make` creates it; the document `null` in `vms.json` is what makes it nil. -/
abbrev GoVMMap := Option VMMap

/-- A `vms.json` that `json.Unmarshal` accepts for the map type: the document `null`, or an object
of records. -/
inductive VMDocument where
  | null
  | object (m : VMMap)
  deriving DecidableEq, Repr

/-- `json.Unmarshal(data, &r.vms)` in `load`, on the empty map made by the constructor: `null`
sets the map to nil, an object fills it with its records. -/
def loadDocument : VMDocument → GoVMMap
  | .null => none
  | .object m => some m

/-- `NewPersistentVMRepository` on a data directory whose `vms.json` is the document: `load`
returns nil, so the repository is returned without an error, with the map `load` left. -/
def NewPersistentVMRepositoryOn (doc : VMDocument) : Except GoError GoVMMap :=
  .ok (loadDocument doc)

/-- The result of a method that can panic. -/
inductive MayPanic (α : Type) where
  | panic (msg : String)
  | returned (value : α)

/-- `PersistentVMRepository.Save` on the Go map: the assignment `r.vms[vm.ID] = vm` panics on the
nil map; on any other map the method is `PersistentVMRepository.Save`. -/
def PersistentVMRepository.SaveOnGoMap (vms : GoVMMap) (file : VMFile) (env : PersistEnv)
    (vm : VM) : MayPanic (PersistentVMRepository × GoError) :=
  match vms with
  | none => .panic "assignment to entry in nil map"
  | some m => .returned (PersistentVMRepository.Save { vms := m, file := file } env vm)

/-! ## The circuit breaker's trip predicate -/

/-- `gobreaker.Counts`; the five fields are `uint32`. -/
structure Counts where
  Requests : Nat
  TotalSuccesses : Nat
  TotalFailures : Nat
  ConsecutiveSuccesses : Nat
  ConsecutiveFailures : Nat
  deriving DecidableEq, Repr

/-- A `float64` value, as far as the trip predicate can meet one: a finite number, +Inf (a
positive count divided by zero) or NaN (zero divided by zero). -/
inductive Float64 where
  | finite (q : ℚ)
  | posInf
  | nan

/-- Rounding of a rational to the nearest integer, ties to the even one. -/
def roundHalfEven (q : ℚ) : ℤ :=
  if q - ⌊q⌋ < 1 / 2 then ⌊q⌋
  else if 1 / 2 < q - ⌊q⌋ then ⌊q⌋ + 1
  else if ⌊q⌋ % 2 = 0 then ⌊q⌋ else ⌊q⌋ + 1

/-- The `float64` nearest to a rational `q ≥ 0` in the normal range (which holds every quotient of
two `uint32`): 53 significant bits, ties to even. -/
def nearestFloat64 (q : ℚ) : ℚ :=
  if q ≤ 0 then 0
  else (roundHalfEven (q / 2 ^ (Int.log 2 q - 52)) : ℚ) * 2 ^ (Int.log 2 q - 52)

/-- The quotient `float64(a) / float64(b)` of two `uint32` counts: the conversions are exact, the
division is rounded to the nearest `float64`. -/
def Float64.divCounts (a b : Nat) : Float64 :=
  if b = 0 then (if a = 0 then .nan else .posInf)
  else .finite (nearestFloat64 ((a : ℚ) / (b : ℚ)))

/-- The comparison `x >= c` of a `float64` with a finite constant: false for NaN. -/
def Float64.ge (x : Float64) (c : ℚ) : Bool :=
  match x with
  | .finite q => decide (c ≤ q)
  | .posInf => true
  | .nan => false

/-- The function `ReadyToTrip` of the breaker built in `NewAdapter`; the constant `0.6` is the
`float64` nearest to 6/10. -/
def ReadyToTrip (counts : Counts) : Bool :=
  let failureRatio := Float64.divCounts counts.TotalFailures counts.Requests
  decide (counts.Requests ≥ 3) && failureRatio.ge (nearestFloat64 (6 / 10))

/-! ## Concrete inputs for the adapters -/

/-- A second request for the scenario host: `vm-b` with the footprint of `vm-a`. -/
def requestVmB : CreateVMRequest :=
  { Name := "vm-b", VCPU := 2, RAMGB := 4, DiskGB := 50, Template := "debian-12", Metadata := [] }

/-- A create environment for `vm-b` in which every outside call succeeds. -/
def envAllOkB : CreateEnv :=
  { envAllOk with
    getImage := .ok "/var/lib/ghost/images/debian-12.qcow2"
    createDisk := .ok "/var/lib/ghost/images/disks/vm-b.qcow2" }

/-- The spec handed to the hypervisor adapter by the create of scenario 1. -/
def specVmA : VMSpec :=
  { Name := "vm-a"
    VCPU := 2
    RAMGB := 4
    DiskGB := 50
    Template := "ubuntu-22.04"
    DiskPath := "/var/lib/ghost/images/disks/vm-a.qcow2"
    IP := "" }

/-- Answers of libvirt to a create in which the domain is defined and its start fails. -/
def libvirtStartFails : LibvirtCreate :=
  { envAllOk.libvirt with domainCreate := .plain "internal error: process exited while connecting" }

/-- A create environment in which the domain is defined and its start fails. -/
def envStartFails : CreateEnv :=
  { envAllOk with libvirt := libvirtStartFails }

/-- A lease query answering two interfaces: the first without an address, the second with one. -/
def leaseOnSecondInterface : LeaseEnv :=
  { lookupDomainByName := .nil
    listAllInterfaceAddresses :=
      .ok
        [{ Name := "vnet0", Hwaddr := "52:54:00:aa:00:01", Addrs := [] },
          { Name := "vnet1", Hwaddr := "52:54:00:aa:00:02",
            Addrs := [{ AddrType := 0, Addr := "192.168.122.10", Prefix := 24 }] }] }

/-- A lease query answering one interface with one address. -/
def leaseOnFirstInterface : LeaseEnv :=
  { lookupDomainByName := .nil
    listAllInterfaceAddresses :=
      .ok
        [{ Name := "vnet0", Hwaddr := "52:54:00:aa:00:01",
            Addrs := [{ AddrType := 0, Addr := "192.168.122.10", Prefix := 24 }] }] }

/-- Answers met by `GetVMStatus` for a running domain while the circuit breaker is open. -/
def statusWhileBreakerOpen : LibvirtStatus :=
  { breaker := ErrOpenState, lookupDomainByName := .nil, getState := .ok .DOMAIN_RUNNING }

/-- A file system without any file. -/
def noFiles : Files :=
  fun _ => .error (.plain "no such file or directory")

/-- A storage adapter with an empty image repository.  The digest is a stand-in that spells the
bytes out, enough to tell the contents used below apart. -/
def cacheAdapter : storage.Adapter :=
  { imageCache := "/var/lib/ghost/images"
    sha256Hex := fun content => String.join (content.map (fun b => toString b))
    imagePath := fun template => "/var/lib/ghost/images/" ++ template ++ ".qcow2"
    diskPath := fun vmID => "/var/lib/ghost/images/disks/" ++ vmID ++ ".qcow2"
    imageRepo := NewInMemoryImageRepository }

/-- A download that succeeds and leaves a file of three bytes at the destination. -/
def downloadOk : DownloadEnv :=
  { download := .nil, destinationAfter := .ok [1, 2, 3] }

/-- A download that succeeds and leaves other bytes at the destination. -/
def downloadOkAgain : DownloadEnv :=
  { download := .nil, destinationAfter := .ok [4, 5, 6] }

/-- Counts of a window with three requests that all failed. -/
def threeFailures : Counts :=
  { Requests := 3
    TotalSuccesses := 0
    TotalFailures := 3
    ConsecutiveSuccesses := 0
    ConsecutiveFailures := 3 }

/-- Counts of a window without a request. -/
def noRequests : Counts :=
  { Requests := 0
    TotalSuccesses := 0
    TotalFailures := 0
    ConsecutiveSuccesses := 0
    ConsecutiveFailures := 0 }

/-- The request for `vm-a` with five virtual CPUs, of the eight the scenario host has available. -/
def requestFiveCpuA : CreateVMRequest :=
  { requestVmA with VCPU := 5 }

/-- The request for `vm-b` with five virtual CPUs. -/
def requestFiveCpuB : CreateVMRequest :=
  { requestVmB with VCPU := 5 }

/-- The storage adapter after `debian-12` was fetched once into an empty cache. -/
def cacheWithDebian : storage.Adapter :=
  (cacheAdapter.GetImage downloadOk noFiles "debian-12").adapter

/-! ## The values the process holds: the range of `int` and nil pointers -/

/-- Whether an integer is a value of Go's `int` on the 64-bit platforms the agent is built for
(−2^63 to 2^63 − 1). -/
def inIntRange (x : Int) : Bool :=
  decide (-9223372036854775808 ≤ x) && decide (x < 9223372036854775808)

/-- The value an `int` holds after an addition whose mathematical result is `x`: Go wraps around,
so it is `x` brought into the range of `int` modulo 2^64. -/
def wrapInt (x : Int) : Int :=
  (x + 9223372036854775808) % 18446744073709551616 - 9223372036854775808

/-- `Resource.Release` as the machine computes it: each `+=` wraps around.  It gives the ledger
of `Resource.Release` whenever the three sums are in the range of `int`. -/
def Resource.ReleaseWrapping (r : Resource) (vcpu ramGB diskGB : Int) : Resource :=
  { r with
    AvailableCPU := wrapInt (r.AvailableCPU + vcpu)
    AvailableRAMGB := wrapInt (r.AvailableRAMGB + ramGB)
    AvailableDiskGB := wrapInt (r.AvailableDiskGB + diskGB) }

/-- How a call ends: it returns, or it panics after the service calls listed. -/
inductive Ended (α : Type) where
  | returned (outcome : α)
  | panicked (msg : String) (calls : List Call)

/-- `DeleteVMUseCase.Execute` on everything the registry map of the process can hold.  `VMMap`
holds the bindings to records; `nilKeys` are the keys the map binds to the nil pointer, which an
entry `"id": null` of `vms.json` leaves there (`json.Unmarshal` keeps the key and stores nil).  For
such a key `FindByID` returns the nil pointer with a nil error, and the call goes on until step 6
reads `vm.VCPU`.  For a record the sums of `Release` wrap around.  With no nil key and sums within
the range of `int` this is `DeleteVMUseCase.Execute`. -/
def DeleteVMUseCase.ExecuteOnGoValues (validator : Validate) (env : DeleteEnv) (st : State)
    (nilKeys : List String) (req : DeleteVMRequest) : Ended (Outcome DeleteVMResponse) :=
  -- 1. Validate input
  match validator.StructDelete req with
  | fe :: fes =>
    .returned
      { result := .error (New .ErrCodeValidation "invalid request" (.validation (fe :: fes)))
        state := st
        calls := [] }
  | [] =>
    -- 2. Get VM from repository: `vm, ok := r.vms[id]`, and `vm` is returned when `ok`
    let found : Except AppError (Option VM) :=
      if nilKeys.contains req.VMID then .ok none
      else
        match st.vmRepo.FindByID req.VMID with
        | .error err => .error err
        | .ok vm => .ok (some vm)
    match found with
    | .error err =>
      .returned
        { result := .error ((New .ErrCodeNotFound "VM not found" err.toError).WithContext
            "vm_id" (.str req.VMID))
          state := st
          calls := [.vmRepoFindByID req.VMID] }
    | .ok pointer =>
      -- 3. Delete VM from hypervisor
      match Adapter.DeleteVM env.libvirt req.VMID with
      | .error err =>
        .returned
          { result := .error ((New .ErrCodeHypervisor "failed to delete VM"
              err.toError).WithContext "vm_id" (.str req.VMID))
            state := st
            calls := [.vmRepoFindByID req.VMID, .hypervisorDeleteVM req.VMID] }
      | .ok _ =>
        -- 4. Delete disk, 5. Remove from repository (errors are logged, not returned)
        let vmRepo1 := (st.vmRepo.Delete env.persist req.VMID).1
        -- 6. Release resources
        match st.resourceRepo.GetAvailable with
        | .ok resources =>
          match pointer with
          | none =>
            -- `resources.Release(vm.VCPU, vm.RAMGB, vm.DiskGB)` with `vm == nil`
            .panicked "runtime error: invalid memory address or nil pointer dereference"
              [.vmRepoFindByID req.VMID, .hypervisorDeleteVM req.VMID,
                .storageDeleteDisk req.VMID, .vmRepoDelete req.VMID, .resourceRepoGetAvailable]
          | some vm =>
            let resources1 := resources.ReleaseWrapping vm.VCPU vm.RAMGB vm.DiskGB
            let resourceRepo1 := (st.resourceRepo.Update resources1).1
            .returned
              { result := .ok { Success := true }
                state := { vmRepo := vmRepo1, resourceRepo := resourceRepo1 }
                calls := [.vmRepoFindByID req.VMID, .hypervisorDeleteVM req.VMID,
                  .storageDeleteDisk req.VMID, .vmRepoDelete req.VMID,
                  .resourceRepoGetAvailable, .resourceRepoUpdate resources1] }
        | .error _ =>
          .returned
            { result := .ok { Success := true }
              state := { vmRepo := vmRepo1, resourceRepo := st.resourceRepo }
              calls := [.vmRepoFindByID req.VMID, .hypervisorDeleteVM req.VMID,
                .storageDeleteDisk req.VMID, .vmRepoDelete req.VMID,
                .resourceRepoGetAvailable] }

/-- The overlay files, by VM id, after a `CreateVMUseCase.Execute` that made the service calls
`calls`, from the overlay files before it: a `CreateDisk` that succeeds leaves the overlay of its
VM, and a `DeleteDisk` is `storage.Adapter.DeleteDisk`, with `removeError` the answer of
`os.Remove` on a file that is there. -/
def CreateVMUseCase.overlaysAfter (a : storage.Adapter) (env : CreateEnv) (removeError : GoError)
    (overlays : List String) (calls : List Call) : List String :=
  calls.foldl
    (fun files call =>
      match call with
      | .storageCreateDisk vmID _ _ =>
        match env.createDisk with
        | .ok _ => vmID :: files.filter (fun d => d != vmID)
        | .error _ => files
      | .storageDeleteDisk vmID => (a.DeleteDisk files removeError vmID).1
      | _ => files)
    overlays

/-- A record as `vms.json` can hold it: `vm-a` with the largest `int` as its CPU count. -/
def recordOversized : VM :=
  { recordVmA with VCPU := 9223372036854775807 }

/-- A data directory whose `vms.json` holds `recordOversized`. -/
def dataDirWithOversizedRecord : DataDir :=
  { mkdirAll := .nil, file := .decoded [("vm-a", recordOversized)] }

/-- A request for everything the scenario host has available. -/
def requestWholeHost : CreateVMRequest :=
  { requestVmB with VCPU := 8, RAMGB := 16, DiskGB := 200 }

/-- A listing of three domains: one running, one paused, one whose state query fails. -/
def listThreeDomains : LibvirtList :=
  { listAllDomains :=
      .ok
        [{ getName := .ok "vm-a", getState := .ok .DOMAIN_RUNNING },
          { getName := .ok "vm-b", getState := .ok .DOMAIN_PAUSED },
          { getName := .ok "vm-c", getState := .error (.plain "domain is not running") }] }

/-! ## Lemmas on validation -/

theorem checkField_eq_nil (field : String) (tags : List (String × Bool)) :
    checkField field tags = [] ↔ ∀ t ∈ tags, t.2 = true := by
  unfold checkField
  split
  · rename_i t ht
    have h1 := List.find?_some ht
    have h2 := List.mem_of_find?_eq_some ht
    simp only [List.cons_ne_nil, false_iff, not_forall]
    exact ⟨t, h2, by simpa using h1⟩
  · rename_i ht
    simp only [true_iff]
    intro t hmem
    have := List.find?_eq_none.mp ht t hmem
    simpa using this

/-- The accepted create requests, field by field. -/
theorem StructCreate_eq_nil (v : Validate) (req : CreateVMRequest) :
    v.StructCreate req = [] ↔
      (3 ≤ req.Name.length ∧ req.Name.length ≤ 63 ∧ v.hostname req.Name = true) ∧
        (1 ≤ req.VCPU ∧ req.VCPU ≤ 32) ∧ (1 ≤ req.RAMGB ∧ req.RAMGB ≤ 128) ∧
        (10 ≤ req.DiskGB ∧ req.DiskGB ≤ 1000) ∧ req.Template ∈ templateOneOf := by
  unfold Validate.StructCreate
  simp only [List.append_eq_nil, checkField_eq_nil, List.mem_cons, List.mem_singleton,
    forall_eq_or_imp, forall_eq, List.not_mem_nil, false_imp_iff, implies_true, and_true,
    decide_eq_true_eq, bne_iff_ne, ne_eq, List.elem_eq_mem]
  constructor
  · rintro ⟨⟨⟨⟨⟨_, h1, h2, h3⟩, _, h4, h5⟩, _, h6, h7⟩, _, h8, h9⟩, _, h10⟩
    exact ⟨⟨h1, h2, h3⟩, ⟨h4, h5⟩, ⟨h6, h7⟩, ⟨h8, h9⟩, h10⟩
  · rintro ⟨⟨h1, h2, h3⟩, ⟨h4, h5⟩, ⟨h6, h7⟩, ⟨h8, h9⟩, h10⟩
    refine ⟨⟨⟨⟨⟨?_, h1, h2, h3⟩, ?_, h4, h5⟩, ?_, h6, h7⟩, ?_, h8, h9⟩, ?_, h10⟩
    · intro h
      rw [h] at h1
      simp at h1
    · omega
    · omega
    · omega
    · intro h
      rw [h] at h10
      simp [templateOneOf] at h10

/-! ## Lemmas on the record map -/

theorem VMMap.get_cons (kv : String × VM) (m : VMMap) (id : String) :
    VMMap.get (kv :: m) id = if kv.1 = id then some kv.2 else VMMap.get m id := by
  unfold VMMap.get
  by_cases h : kv.1 = id <;> simp [List.find?_cons, h]

theorem VMMap.get_set_self (m : VMMap) (id : String) (vm : VM) :
    VMMap.get (VMMap.set m id vm) id = some vm := by
  simp [VMMap.set, VMMap.get_cons]

theorem VMMap.get_delete_self (m : VMMap) (id : String) :
    VMMap.get (VMMap.delete m id) id = none := by
  induction m with
  | nil => rfl
  | cons kv m ih =>
    by_cases h : kv.1 = id
    · simpa [VMMap.delete, List.filter_cons, h] using ih
    · have : VMMap.delete (kv :: m) id = kv :: VMMap.delete m id := by
        simp [VMMap.delete, List.filter_cons, h]
      rw [this, VMMap.get_cons, if_neg h, ih]

theorem VMMap.delete_of_get_none (m : VMMap) (id : String) (h : VMMap.get m id = none) :
    VMMap.delete m id = m := by
  induction m with
  | nil => rfl
  | cons kv m ih =>
    rw [VMMap.get_cons] at h
    by_cases hk : kv.1 = id
    · simp [hk] at h
    · rw [if_neg hk] at h
      have : VMMap.delete (kv :: m) id = kv :: VMMap.delete m id := by
        simp [VMMap.delete, List.filter_cons, hk]
      rw [this, ih h]

theorem VMMap.set_of_get_none (m : VMMap) (id : String) (vm : VM) (h : VMMap.get m id = none) :
    VMMap.set m id vm = (id, vm) :: m := by
  have := VMMap.delete_of_get_none m id h
  unfold VMMap.delete at this
  simp [VMMap.set, this]

theorem VMMap.get_none_of_not_mem_keys (m : VMMap) (id : String)
    (h : id ∉ m.map (fun kv => kv.1)) : VMMap.get m id = none := by
  induction m with
  | nil => rfl
  | cons kv m ih =>
    simp only [List.map_cons, List.mem_cons, not_or] at h
    rw [VMMap.get_cons, if_neg (fun e => h.1 e.symm), ih h.2]

theorem VMMap.not_mem_keys_of_get_none (m : VMMap) (id : String)
    (h : VMMap.get m id = none) : id ∉ m.map (fun kv => kv.1) := by
  induction m with
  | nil => simp
  | cons kv m ih =>
    rw [VMMap.get_cons] at h
    by_cases hk : kv.1 = id
    · simp [hk] at h
    · rw [if_neg hk] at h
      simp only [List.map_cons, List.mem_cons, not_or]
      exact ⟨fun e => hk e.symm, ih h⟩

theorem VMMap.keysNodup_delete (m : VMMap) (id : String) (h : VMMap.keysNodup m) :
    VMMap.keysNodup (VMMap.delete m id) := by
  unfold VMMap.keysNodup VMMap.delete at *
  exact (List.Nodup.sublist (List.Sublist.map _ (List.filter_sublist m)) h)

theorem VMMap.keysNodup_set (m : VMMap) (id : String) (vm : VM) (h : VMMap.keysNodup m) :
    VMMap.keysNodup (VMMap.set m id vm) := by
  have hd := VMMap.keysNodup_delete m id h
  have hn := VMMap.not_mem_keys_of_get_none _ _ (VMMap.get_delete_self m id)
  unfold VMMap.keysNodup VMMap.set
  unfold VMMap.keysNodup VMMap.delete at hd
  unfold VMMap.delete at hn
  simp only [List.map_cons, List.nodup_cons]
  exact ⟨hn, hd⟩

theorem VMMap.get_mem (m : VMMap) (id : String) (vm : VM) (h : VMMap.get m id = some vm) :
    (id, vm) ∈ m := by
  induction m with
  | nil => simp [VMMap.get] at h
  | cons kv m ih =>
    rw [VMMap.get_cons] at h
    by_cases hk : kv.1 = id
    · rw [if_pos hk] at h
      simp only [Option.some.injEq] at h
      rw [← hk, ← h]
      exact List.mem_cons_self _ _
    · rw [if_neg hk] at h
      exact List.mem_cons_of_mem _ (ih h)

/-- Summing a field over the map after deleting a bound key of a map without repeated keys. -/
theorem VMMap.sum_delete (f : VM → Int) (m : VMMap) (id : String) (vm : VM)
    (hn : VMMap.keysNodup m) (h : VMMap.get m id = some vm) :
    ((VMMap.delete m id).map (fun kv => f kv.2)).sum = (m.map (fun kv => f kv.2)).sum - f vm := by
  induction m with
  | nil => simp [VMMap.get] at h
  | cons kv m ih =>
    unfold VMMap.keysNodup at hn
    simp only [List.map_cons, List.nodup_cons] at hn
    rw [VMMap.get_cons] at h
    by_cases hk : kv.1 = id
    · rw [if_pos hk] at h
      simp only [Option.some.injEq] at h
      have hnone : VMMap.get m id = none :=
        VMMap.get_none_of_not_mem_keys m id (hk ▸ hn.1)
      have hdel : VMMap.delete (kv :: m) id = m := by
        have := VMMap.delete_of_get_none m id hnone
        unfold VMMap.delete at this ⊢
        simp [List.filter_cons, hk, this]
      rw [hdel, ← h]
      simp
    · rw [if_neg hk] at h
      have hdel : VMMap.delete (kv :: m) id = kv :: VMMap.delete m id := by
        simp [VMMap.delete, List.filter_cons, hk]
      rw [hdel]
      simp only [List.map_cons, List.sum_cons]
      rw [ih hn.2 h]
      ring

/-! ## Lemmas on the adapters and repositories -/

theorem persist_vms (r : PersistentVMRepository) (env : PersistEnv) :
    (r.persist env).1.vms = r.vms := by
  unfold PersistentVMRepository.persist
  repeat' split
  all_goals rfl

theorem Save_vms (r : PersistentVMRepository) (env : PersistEnv) (vm : VM) :
    (r.Save env vm).1.vms = VMMap.set r.vms vm.ID vm := by
  simp [PersistentVMRepository.Save, persist_vms]

theorem Delete_vms (r : PersistentVMRepository) (env : PersistEnv) (id : String) :
    (r.Delete env id).1.vms = VMMap.delete r.vms id := by
  simp [PersistentVMRepository.Delete, persist_vms]

theorem Exists_ok_iff (r : PersistentVMRepository) (id : String) (b : Bool) :
    r.Exists id = .ok b ↔ (VMMap.get r.vms id).isSome = b := by
  simp [PersistentVMRepository.Exists]

theorem FindByID_ok_iff (r : PersistentVMRepository) (id : String) (vm : VM) :
    r.FindByID id = .ok vm ↔ VMMap.get r.vms id = some vm := by
  unfold PersistentVMRepository.FindByID
  split <;> simp_all

theorem GetAvailable_ok_iff (r : InMemoryResourceRepository) (res : Resource) :
    r.GetAvailable = .ok res ↔ res = r.resource := by
  simp [InMemoryResourceRepository.GetAvailable, eq_comm]

theorem GetAvailable_ne_error (r : InMemoryResourceRepository) (err : GoError) :
    r.GetAvailable ≠ .error err := by
  simp [InMemoryResourceRepository.GetAvailable]

theorem Adapter.CreateVM_ok (lv : LibvirtCreate) (spec : VMSpec) (vm : VM)
    (h : Adapter.CreateVM lv spec = .ok vm) :
    vm.ID = spec.Name ∧ vm.VCPU = spec.VCPU ∧ vm.RAMGB = spec.RAMGB ∧ vm.DiskGB = spec.DiskGB ∧
      vm.Status = VMStatusRunning := by
  unfold Adapter.CreateVM at h
  dsimp only at h
  split at h
  · simp at h
  · rename_i vm1 hres
    simp only [Except.ok.injEq] at h
    subst h
    split at hres
    · unfold Adapter.createVMInternal at hres
      repeat' split at hres
      all_goals simp_all
      all_goals (subst hres; simp)
    · simp at hres

theorem create_error_state (validator : Validate) (env : CreateEnv) (st : State)
    (req : CreateVMRequest)
    (h : (CreateVMUseCase.Execute validator env st req).isOk = false) :
    (CreateVMUseCase.Execute validator env st req).state = st := by
  generalize hO : CreateVMUseCase.Execute validator env st req = o at h ⊢
  unfold CreateVMUseCase.Execute at hO
  repeat' split at hO
  all_goals try dsimp only at hO
  all_goals repeat' split at hO
  all_goals (subst hO; simp_all [Outcome.isOk])

theorem create_ok_inv (validator : Validate) (env : CreateEnv) (st : State)
    (req : CreateVMRequest)
    (h : (CreateVMUseCase.Execute validator env st req).isOk = true) :
    validator.StructCreate req = [] ∧ VMMap.get st.vmRepo.vms req.Name = none ∧
      st.resourceRepo.resource.CanAllocate req.VCPU req.RAMGB req.DiskGB = true ∧
      ∃ vm : VM, vm.ID = req.Name ∧ vm.VCPU = req.VCPU ∧ vm.RAMGB = req.RAMGB ∧
        vm.DiskGB = req.DiskGB ∧
        (CreateVMUseCase.Execute validator env st req).state =
          { vmRepo := (st.vmRepo.Save env.persist vm).1
            resourceRepo :=
              { resource := st.resourceRepo.resource.Allocate req.VCPU req.RAMGB req.DiskGB } } := by
  generalize hO : CreateVMUseCase.Execute validator env st req = o at h ⊢
  unfold CreateVMUseCase.Execute at hO
  repeat' split at hO
  all_goals try dsimp only at hO
  all_goals repeat' split at hO
  all_goals
    (subst hO
     simp_all [Outcome.isOk, Exists_ok_iff, GetAvailable_ok_iff, InMemoryResourceRepository.Update])
  obtain ⟨h1, h2, h3, h4, _⟩ := Adapter.CreateVM_ok _ _ _ (by assumption)
  refine ⟨_, ?_, ?_, ?_, ?_, rfl⟩
  · exact h1
  · exact h2
  · exact h3
  · exact h4

theorem delete_error_state (validator : Validate) (env : DeleteEnv) (st : State)
    (req : DeleteVMRequest)
    (h : (DeleteVMUseCase.Execute validator env st req).isOk = false) :
    (DeleteVMUseCase.Execute validator env st req).state = st := by
  generalize hO : DeleteVMUseCase.Execute validator env st req = o at h ⊢
  unfold DeleteVMUseCase.Execute at hO
  repeat' split at hO
  all_goals (subst hO; simp_all [Outcome.isOk])

theorem delete_ok_inv (validator : Validate) (env : DeleteEnv) (st : State)
    (req : DeleteVMRequest)
    (h : (DeleteVMUseCase.Execute validator env st req).isOk = true) :
    ∃ vm : VM, VMMap.get st.vmRepo.vms req.VMID = some vm ∧
      (DeleteVMUseCase.Execute validator env st req).state =
        { vmRepo := (st.vmRepo.Delete env.persist req.VMID).1
          resourceRepo :=
            { resource := st.resourceRepo.resource.Release vm.VCPU vm.RAMGB vm.DiskGB } } := by
  generalize hO : DeleteVMUseCase.Execute validator env st req = o at h ⊢
  unfold DeleteVMUseCase.Execute at hO
  repeat' split at hO
  all_goals
    (subst hO
     simp_all [Outcome.isOk, FindByID_ok_iff, GetAvailable_ok_iff, GetAvailable_ne_error,
       InMemoryResourceRepository.Update])

theorem Exists_ne_error (r : PersistentVMRepository) (id : String) (err : GoError) :
    r.Exists id ≠ .error err := by
  simp [PersistentVMRepository.Exists]

theorem CanAllocate_iff (r : Resource) (vcpu ramGB diskGB : Int) :
    r.CanAllocate vcpu ramGB diskGB = true ↔
      vcpu ≤ r.AvailableCPU ∧ ramGB ≤ r.AvailableRAMGB ∧ diskGB ≤ r.AvailableDiskGB := by
  simp [Resource.CanAllocate, and_assoc]

theorem Resource.Release_Allocate (r : Resource) (vcpu ramGB diskGB : Int) :
    (r.Allocate vcpu ramGB diskGB).Release vcpu ramGB diskGB = r := by
  cases r
  simp [Resource.Allocate, Resource.Release]

/-! ## Lemmas on the branches of `CreateVMUseCase.Execute` -/

/-- Execute on a request that fails validation. -/
theorem create_invalid (validator : Validate) (env : CreateEnv) (st : State)
    (req : CreateVMRequest) (h : validator.StructCreate req ≠ []) :
    (CreateVMUseCase.Execute validator env st req) =
      { result := .error ((New .ErrCodeValidation "invalid request"
          (.validation (validator.StructCreate req))).WithContext "vm_name" (.str req.Name))
        state := st
        calls := [] } := by
  unfold CreateVMUseCase.Execute
  split
  · rename_i fe fes heq
    rw [heq]
  · rename_i heq
    exact absurd heq h

/-- Execute on an accepted request whose name is bound in the registry. -/
theorem create_existing (validator : Validate) (env : CreateEnv) (st : State)
    (req : CreateVMRequest) (hvalid : validator.StructCreate req = [])
    (hex : (VMMap.get st.vmRepo.vms req.Name).isSome = true) :
    (CreateVMUseCase.Execute validator env st req) =
      { result := .error ((New .ErrCodeConflict "VM already exists" .nil).WithContext
          "vm_name" (.str req.Name))
        state := st
        calls := [.vmRepoExists req.Name] } := by
  unfold CreateVMUseCase.Execute
  simp [hvalid, PersistentVMRepository.Exists, hex]

/-- Execute on an accepted request with a fresh name that does not fit the available amounts. -/
theorem create_insufficient (validator : Validate) (env : CreateEnv) (st : State)
    (req : CreateVMRequest) (hvalid : validator.StructCreate req = [])
    (hfree : VMMap.get st.vmRepo.vms req.Name = none)
    (hcan : st.resourceRepo.resource.CanAllocate req.VCPU req.RAMGB req.DiskGB = false) :
    ∃ e : AppError, e.Code = .ErrCodeResourceLimit ∧ e.Message = "insufficient resources" ∧
      (CreateVMUseCase.Execute validator env st req) =
        { result := .error e
          state := st
          calls := [.vmRepoExists req.Name, .resourceRepoGetAvailable] } := by
  unfold CreateVMUseCase.Execute
  simp [hvalid, PersistentVMRepository.Exists, hfree, InMemoryResourceRepository.GetAvailable,
    hcan, New, AppError.WithContext]

/-- Execute on an accepted request with a fresh name that fits the available amounts: the call
goes on to the storage service, and whatever happens there it does not report a resource limit. -/
theorem create_admitted (validator : Validate) (env : CreateEnv) (st : State)
    (req : CreateVMRequest) (hvalid : validator.StructCreate req = [])
    (hfree : VMMap.get st.vmRepo.vms req.Name = none)
    (hcan : st.resourceRepo.resource.CanAllocate req.VCPU req.RAMGB req.DiskGB = true) :
    (CreateVMUseCase.Execute validator env st req).errCode ≠ some .ErrCodeResourceLimit ∧
      Call.storageGetImage req.Template ∈ (CreateVMUseCase.Execute validator env st req).calls := by
  generalize hO : CreateVMUseCase.Execute validator env st req = o
  unfold CreateVMUseCase.Execute at hO
  repeat' split at hO
  all_goals try dsimp only at hO
  all_goals repeat' split at hO
  all_goals
    (subst hO
     simp_all [Outcome.errCode, Exists_ok_iff, Exists_ne_error, GetAvailable_ok_iff,
       GetAvailable_ne_error, New, AppError.WithContext])

/-! ## Lemmas on startup and on runs of calls -/

theorem startup_ok (dataDir : DataDir) (numCPU : Int) (cfg : ResourceConfig) (st : State)
    (h : startup dataDir numCPU cfg = .ok st) :
    st.resourceRepo =
        NewInMemoryResourceRepository numCPU cfg.ReservedCPU cfg.ReservedRAMGB
          cfg.ReservedDiskGB ∧
      ∀ m, dataDir.file = .decoded m → st.vmRepo.vms = m := by
  unfold startup at h
  split at h
  · simp at h
  · rename_i repo hrepo
    simp only [Except.ok.injEq] at h
    subst h
    refine ⟨rfl, ?_⟩
    intro m hm
    unfold NewPersistentVMRepository at hrepo
    split at hrepo
    · simp only [PersistentVMRepository.load, hm] at hrepo
      simp only [Except.ok.injEq] at hrepo
      rw [← hrepo]
    · simp at hrepo

theorem ledgerMatchesRegistry_fresh (numCPU : Int) (cfg : ResourceConfig) :
    ledgerMatchesRegistry (freshState numCPU cfg) := by
  simp [ledgerMatchesRegistry, VMMap.keysNodup, invariantI5, freshState,
    NewInMemoryResourceRepository, VMMap.sumVCPU, VMMap.sumRAMGB, VMMap.sumDiskGB]

theorem ledgerMatchesRegistry_create (validator : Validate) (env : CreateEnv) (st : State)
    (req : CreateVMRequest) (h : ledgerMatchesRegistry st) :
    ledgerMatchesRegistry (CreateVMUseCase.Execute validator env st req).state := by
  cases hok : (CreateVMUseCase.Execute validator env st req).isOk with
  | false => rw [create_error_state validator env st req hok]; exact h
  | true =>
    obtain ⟨_, hnone, _, vm, hid, hv, hr, hd, hst⟩ := create_ok_inv validator env st req hok
    obtain ⟨hnd, h1, h2, h3⟩ := h
    rw [hst]
    refine ⟨?_, ?_, ?_, ?_⟩
    · simp only [Save_vms]
      exact VMMap.keysNodup_set _ _ _ hnd
    all_goals
      simp only [Save_vms, hid, VMMap.set_of_get_none _ _ _ hnone, Resource.Allocate,
        VMMap.sumVCPU, VMMap.sumRAMGB, VMMap.sumDiskGB, List.map_cons, List.sum_cons, hv, hr, hd]
      simp only [VMMap.sumVCPU, VMMap.sumRAMGB, VMMap.sumDiskGB] at h1 h2 h3
      omega

theorem ledgerMatchesRegistry_delete (validator : Validate) (env : DeleteEnv) (st : State)
    (req : DeleteVMRequest) (h : ledgerMatchesRegistry st) :
    ledgerMatchesRegistry (DeleteVMUseCase.Execute validator env st req).state := by
  cases hok : (DeleteVMUseCase.Execute validator env st req).isOk with
  | false => rw [delete_error_state validator env st req hok]; exact h
  | true =>
    obtain ⟨vm, hget, hst⟩ := delete_ok_inv validator env st req hok
    obtain ⟨hnd, h1, h2, h3⟩ := h
    rw [hst]
    refine ⟨?_, ?_, ?_, ?_⟩
    · simp only [Delete_vms]
      exact VMMap.keysNodup_delete _ _ hnd
    all_goals
      simp only [Delete_vms, Resource.Release, VMMap.sumVCPU, VMMap.sumRAMGB, VMMap.sumDiskGB]
      simp only [VMMap.sumVCPU, VMMap.sumRAMGB, VMMap.sumDiskGB] at h1 h2 h3
    · rw [VMMap.sum_delete (fun vm => vm.VCPU) _ _ _ hnd hget]; omega
    · rw [VMMap.sum_delete (fun vm => vm.RAMGB) _ _ _ hnd hget]; omega
    · rw [VMMap.sum_delete (fun vm => vm.DiskGB) _ _ _ hnd hget]; omega

/-- A property kept by every call holds after any sequence of calls. -/
theorem runOps_induction (validator : Validate) (P : State → Prop)
    (hstep : ∀ st op, P st → P (Op.apply validator st op)) (ops : List Op) :
    ∀ st, P st → P (runOps validator st ops) := by
  induction ops with
  | nil => intro st h; exact h
  | cons op ops ih =>
    intro st h
    exact ih _ (hstep st op h)

/-- A property kept by every call holds in every state a sequence of calls passes through. -/
theorem traceOps_induction (validator : Validate) (P : State → Prop)
    (hstep : ∀ st op, P st → P (Op.apply validator st op)) (ops : List Op) :
    ∀ st, P st → ∀ st1 ∈ traceOps validator st ops, P st1 := by
  induction ops with
  | nil =>
    intro st h st1 hmem
    simp only [traceOps, List.mem_singleton] at hmem
    rw [hmem]; exact h
  | cons op ops ih =>
    intro st h st1 hmem
    simp only [traceOps, List.mem_cons] at hmem
    rcases hmem with hmem | hmem
    · rw [hmem]; exact h
    · exact ih _ (hstep st op h) st1 hmem

theorem ledgerMatchesRegistry_apply (validator : Validate) (st : State) (op : Op)
    (h : ledgerMatchesRegistry st) : ledgerMatchesRegistry (Op.apply validator st op) := by
  cases op with
  | create env req => exact ledgerMatchesRegistry_create validator env st req h
  | delete env req => exact ledgerMatchesRegistry_delete validator env st req h

theorem ledgerNonneg_create (validator : Validate) (env : CreateEnv) (st : State)
    (req : CreateVMRequest) (h : ledgerNonneg st) :
    ledgerNonneg (CreateVMUseCase.Execute validator env st req).state := by
  cases hok : (CreateVMUseCase.Execute validator env st req).isOk with
  | false => rw [create_error_state validator env st req hok]; exact h
  | true =>
    obtain ⟨hvalid, hnone, hcan, vm, hid, hv, hr, hd, hst⟩ :=
      create_ok_inv validator env st req hok
    obtain ⟨_, hv1, hr1, hd1, _⟩ := (StructCreate_eq_nil validator req).mp hvalid
    obtain ⟨hc1, hc2, hc3⟩ := (CanAllocate_iff _ _ _ _).mp hcan
    rw [hst]
    refine ⟨⟨?_, ?_, ?_⟩, ?_⟩
    · simp only [Resource.Allocate]; omega
    · simp only [Resource.Allocate]; omega
    · simp only [Resource.Allocate]; omega
    · intro kv hkv
      simp only [Save_vms, hid, VMMap.set_of_get_none _ _ _ hnone, List.mem_cons] at hkv
      rcases hkv with hkv | hkv
      · subst hkv
        simp only [hv, hr, hd]
        omega
      · exact h.2 kv hkv

theorem ledgerNonneg_delete (validator : Validate) (env : DeleteEnv) (st : State)
    (req : DeleteVMRequest) (h : ledgerNonneg st) :
    ledgerNonneg (DeleteVMUseCase.Execute validator env st req).state := by
  cases hok : (DeleteVMUseCase.Execute validator env st req).isOk with
  | false => rw [delete_error_state validator env st req hok]; exact h
  | true =>
    obtain ⟨vm, hget, hst⟩ := delete_ok_inv validator env st req hok
    obtain ⟨⟨h1, h2, h3⟩, hrec⟩ := h
    obtain ⟨hv, hr, hd⟩ := hrec _ (VMMap.get_mem _ _ _ hget)
    simp only at hv hr hd
    rw [hst]
    refine ⟨⟨?_, ?_, ?_⟩, ?_⟩
    · simp only [Resource.Release]; omega
    · simp only [Resource.Release]; omega
    · simp only [Resource.Release]; omega
    · intro kv hkv
      simp only [Delete_vms, VMMap.delete] at hkv
      exact hrec kv (List.mem_of_mem_filter hkv)

theorem ledgerNonneg_apply (validator : Validate) (st : State) (op : Op)
    (h : ledgerNonneg st) : ledgerNonneg (Op.apply validator st op) := by
  cases op with
  | create env req => exact ledgerNonneg_create validator env st req h
  | delete env req => exact ledgerNonneg_delete validator env st req h

/-! ## Lemmas on `toGRPCError` and on the branches of `DeleteVMUseCase.Execute` -/

theorem asAppError_toError (a : AppError) : asAppError a.toError = some a := by
  cases a
  rfl

theorem StructDelete_eq_nil (v : Validate) (req : DeleteVMRequest) :
    v.StructDelete req = [] ↔ req.VMID ≠ "" := by
  unfold Validate.StructDelete
  simp [checkField_eq_nil]

/-- Execute on a non-empty id that is not bound in the registry. -/
theorem delete_unknown (validator : Validate) (env : DeleteEnv) (st : State)
    (req : DeleteVMRequest) (hid : req.VMID ≠ "")
    (hnone : VMMap.get st.vmRepo.vms req.VMID = none) :
    ∃ e : AppError, e.Code = .ErrCodeNotFound ∧ e.Message = "VM not found" ∧
      DeleteVMUseCase.Execute validator env st req =
        { result := .error e, state := st, calls := [.vmRepoFindByID req.VMID] } := by
  unfold DeleteVMUseCase.Execute
  simp [(StructDelete_eq_nil validator req).mpr hid, PersistentVMRepository.FindByID, hnone, New,
    AppError.WithContext]

/-- Execute on a registered id when the hypervisor step fails. -/
theorem delete_hypervisor_fails (validator : Validate) (env : DeleteEnv) (st : State)
    (req : DeleteVMRequest) (vm : VM) (err : AppError) (hid : req.VMID ≠ "")
    (hget : VMMap.get st.vmRepo.vms req.VMID = some vm)
    (hfail : Adapter.DeleteVM env.libvirt req.VMID = .error err) :
    ∃ e : AppError, e.Code = .ErrCodeHypervisor ∧ e.Message = "failed to delete VM" ∧
      DeleteVMUseCase.Execute validator env st req =
        { result := .error e
          state := st
          calls := [.vmRepoFindByID req.VMID, .hypervisorDeleteVM req.VMID] } := by
  unfold DeleteVMUseCase.Execute
  simp [(StructDelete_eq_nil validator req).mpr hid, PersistentVMRepository.FindByID, hget, hfail,
    New, AppError.WithContext]

/-- Execute on a registered id when the hypervisor step succeeds. -/
theorem delete_hypervisor_ok (validator : Validate) (env : DeleteEnv) (st : State)
    (req : DeleteVMRequest) (vm : VM) (hid : req.VMID ≠ "")
    (hget : VMMap.get st.vmRepo.vms req.VMID = some vm)
    (hok : Adapter.DeleteVM env.libvirt req.VMID = .ok ()) :
    DeleteVMUseCase.Execute validator env st req =
      { result := .ok { Success := true }
        state :=
          { vmRepo := (st.vmRepo.Delete env.persist req.VMID).1
            resourceRepo :=
              { resource := st.resourceRepo.resource.Release vm.VCPU vm.RAMGB vm.DiskGB } }
        calls := [.vmRepoFindByID req.VMID, .hypervisorDeleteVM req.VMID,
          .storageDeleteDisk req.VMID, .vmRepoDelete req.VMID, .resourceRepoGetAvailable,
          .resourceRepoUpdate (st.resourceRepo.resource.Release vm.VCPU vm.RAMGB vm.DiskGB)] } := by
  unfold DeleteVMUseCase.Execute
  simp [(StructDelete_eq_nil validator req).mpr hid, PersistentVMRepository.FindByID, hget, hok,
    InMemoryResourceRepository.GetAvailable, InMemoryResourceRepository.Update]

/-- A failed lookup of the domain makes `Adapter.DeleteVM` fail, whatever the reason of the
failure. -/
theorem Adapter.DeleteVM_lookup_fails (lv : LibvirtDelete) (id : String)
    (h : lv.lookupDomainByName.isNil = false) : ∃ err, Adapter.DeleteVM lv id = .error err := by
  have hint : (Adapter.deleteVMInternal lv id).isNil = false := by
    unfold Adapter.deleteVMInternal
    split
    · rename_i heq
      rw [heq] at h
      simp [GoError.isNil] at h
    · rfl
  cases hb : lv.breaker with
  | nil =>
    cases hi : Adapter.deleteVMInternal lv id with
    | nil => rw [hi] at hint; simp [GoError.isNil] at hint
    | _ => simp [Adapter.DeleteVM, hb, hi]
  | _ => simp [Adapter.DeleteVM, hb]

/-! ## Lemmas on a create whose steps all succeed -/

/-- A successful `Adapter.CreateVM` returns the record built from the spec. -/
theorem Adapter.CreateVM_of_ok (lv : LibvirtCreate) (spec : VMSpec) (hb : lv.breaker = .nil)
    (hd : lv.defineXML = .nil) (hs : lv.domainCreate = .nil) :
    Adapter.CreateVM lv spec =
      .ok
        { ID := spec.Name
          Name := spec.Name
          VCPU := spec.VCPU
          RAMGB := spec.RAMGB
          DiskGB := spec.DiskGB
          Status := VMStatusRunning
          IP := orEmpty lv.waitForIP
          Template := spec.Template
          DiskPath := spec.DiskPath
          CreatedAt := lv.createdAt
          UpdatedAt := lv.updatedAt } := by
  simp [Adapter.CreateVM, Adapter.createVMInternal, hb, hd, hs]

/-- Execute when validation, uniqueness, admission, image, disk and the hypervisor succeed. -/
theorem create_all_steps_ok (validator : Validate) (env : CreateEnv) (st : State)
    (req : CreateVMRequest) (baseImage diskPath : String)
    (hvalid : validator.StructCreate req = [])
    (hfree : VMMap.get st.vmRepo.vms req.Name = none)
    (hcan : st.resourceRepo.resource.CanAllocate req.VCPU req.RAMGB req.DiskGB = true)
    (himage : env.getImage = .ok baseImage) (hdisk : env.createDisk = .ok diskPath)
    (hb : env.libvirt.breaker = .nil) (hd : env.libvirt.defineXML = .nil)
    (hs : env.libvirt.domainCreate = .nil) :
    ∃ vm : VM, vm.ID = req.Name ∧ vm.Status = VMStatusRunning ∧ vm.IP = orEmpty env.getVMIP ∧
      (CreateVMUseCase.Execute validator env st req).result =
        .ok { VMID := req.Name, IPAddress := orEmpty env.getVMIP, Status := "running" } ∧
      Call.vmRepoSave vm ∈ (CreateVMUseCase.Execute validator env st req).calls ∧
      (CreateVMUseCase.Execute validator env st req).state.vmRepo =
        (st.vmRepo.Save env.persist vm).1 := by
  unfold CreateVMUseCase.Execute
  simp [hvalid, PersistentVMRepository.Exists, hfree, InMemoryResourceRepository.GetAvailable,
    hcan, himage, hdisk, Adapter.CreateVM_of_ok _ _ hb hd hs, VMStatusRunning]
  exact ⟨_, rfl, rfl, rfl, rfl, rfl⟩

/-! ## Lemmas on `persist` and on runs of mutations -/

theorem persist_file (r : PersistentVMRepository) (env : PersistEnv) :
    (r.persist env).1.file = if (r.persist env).2.isNil then .decoded r.vms else r.file := by
  unfold PersistentVMRepository.persist
  cases hw : env.writeFile <;> cases hr : env.rename <;> simp [GoError.isNil]

theorem RepoOp.apply_file (r : PersistentVMRepository) (op : RepoOp) :
    (RepoOp.apply r op).1.file =
      if (RepoOp.apply r op).2.isNil then .decoded (RepoOp.apply r op).1.vms else r.file := by
  cases op with
  | save env vm =>
    simp only [RepoOp.apply, PersistentVMRepository.Save]
    rw [persist_file, persist_vms]
  | delete env id =>
    simp only [RepoOp.apply, PersistentVMRepository.Delete]
    rw [persist_file, persist_vms]

theorem runRepoOps_cons (r : PersistentVMRepository) (op : RepoOp) (ops : List RepoOp) :
    runRepoOps r (op :: ops) = runRepoOps (RepoOp.apply r op).1 ops := rfl

/-- The file after a run of mutations holds the last persisted state, or is the file before the
run when no mutation got through. -/
theorem runRepoOps_file (ops : List RepoOp) :
    ∀ r : PersistentVMRepository,
      (runRepoOps r ops).file =
        match lastPersisted r ops with
        | some m => .decoded m
        | none => r.file := by
  induction ops with
  | nil => intro r; rfl
  | cons op ops ih =>
    intro r
    rw [runRepoOps_cons, ih, lastPersisted]
    cases hl : lastPersisted (RepoOp.apply r op).1 ops with
    | some m => rfl
    | none =>
      dsimp only
      rw [RepoOp.apply_file]
      cases hn : (RepoOp.apply r op).2.isNil <;> simp

theorem reopen_decoded (r : PersistentVMRepository) (m : VMMap) (h : r.file = .decoded m) :
    reopen r = .ok { vms := m, file := .decoded m } := by
  simp [reopen, NewPersistentVMRepository, PersistentVMRepository.load, h]

/-! ## Lemmas on a create whose hypervisor step fails, and on the two halves of a create -/

/-! ## Lemmas on the two halves of `CreateVMUseCase.Execute` -/

/-- `CreateVMUseCase.Execute` is its two halves run in a row on the same state. -/
theorem CreateVMUseCase.inTwoHalves_eq (validator : Validate) (env : CreateEnv) (st : State)
    (req : CreateVMRequest) :
    CreateVMUseCase.inTwoHalves validator env st req =
      CreateVMUseCase.Execute validator env st req := by
  unfold CreateVMUseCase.inTwoHalves CreateVMUseCase.admission CreateVMUseCase.Execute
    CreateVMUseCase.afterAdmission
  cases hv : validator.StructCreate req with
  | cons fe fes => rfl
  | nil =>
    simp only [PersistentVMRepository.Exists, InMemoryResourceRepository.GetAvailable]
    cases hex : (VMMap.get st.vmRepo.vms req.Name).isSome with
    | true => rfl
    | false =>
      cases hcan : st.resourceRepo.resource.CanAllocate req.VCPU req.RAMGB req.DiskGB with
      | false => simp
      | true =>
        cases hi : env.getImage with
        | error e => simp
        | ok baseImage =>
          cases hd : env.createDisk with
          | error e => simp
          | ok diskPath =>
            simp only [Bool.not_true, Bool.false_eq_true, if_false]
            cases hc : Adapter.CreateVM env.libvirt
                { Name := req.Name
                  VCPU := req.VCPU
                  RAMGB := req.RAMGB
                  DiskGB := req.DiskGB
                  Template := req.Template
                  DiskPath := diskPath
                  IP := "" } with
            | error e => simp
            | ok vm0 => simp

/-- Execute when the hypervisor step fails after image and disk succeeded. -/
theorem create_hypervisor_fails (validator : Validate) (env : CreateEnv) (st : State)
    (req : CreateVMRequest) (baseImage diskPath : String) (err : AppError)
    (hvalid : validator.StructCreate req = [])
    (hfree : VMMap.get st.vmRepo.vms req.Name = none)
    (hcan : st.resourceRepo.resource.CanAllocate req.VCPU req.RAMGB req.DiskGB = true)
    (himage : env.getImage = .ok baseImage) (hdisk : env.createDisk = .ok diskPath)
    (hfail : Adapter.CreateVM env.libvirt
      { Name := req.Name
        VCPU := req.VCPU
        RAMGB := req.RAMGB
        DiskGB := req.DiskGB
        Template := req.Template
        DiskPath := diskPath
        IP := "" } = .error err) :
    ∃ e : AppError, e.Code = .ErrCodeHypervisor ∧ e.Message = "failed to create VM" ∧
      CreateVMUseCase.Execute validator env st req =
        { result := .error e
          state := st
          calls := [.vmRepoExists req.Name, .resourceRepoGetAvailable,
            .storageGetImage req.Template, .storageCreateDisk req.Name baseImage req.DiskGB,
            .hypervisorCreateVM
              { Name := req.Name
                VCPU := req.VCPU
                RAMGB := req.RAMGB
                DiskGB := req.DiskGB
                Template := req.Template
                DiskPath := diskPath
                IP := "" },
            .storageDeleteDisk req.Name] } := by
  unfold CreateVMUseCase.Execute
  simp [hvalid, PersistentVMRepository.Exists, hfree, InMemoryResourceRepository.GetAvailable,
    hcan, himage, hdisk, hfail, New, AppError.WithContext]

/-- `Adapter.CreateVM` fails as soon as the breaker rejects the request, the definition fails or
the start fails. -/
theorem Adapter.CreateVM_fails (lv : LibvirtCreate) (spec : VMSpec)
    (h : lv.breaker.isNil = false ∨ lv.defineXML.isNil = false ∨ lv.domainCreate.isNil = false) :
    ∃ err, Adapter.CreateVM lv spec = .error err := by
  unfold Adapter.CreateVM Adapter.createVMInternal
  cases hb : lv.breaker <;> cases hd : lv.defineXML <;> cases hs : lv.domainCreate <;>
    simp_all [GoError.isNil]

/-! ## Lemmas on the circuit breaker in front of the adapter operations -/

theorem Adapter.CreateVM_breaker_open (lv : LibvirtCreate) (spec : VMSpec)
    (h : lv.breaker.isNil = false) :
    Adapter.CreateVM lv spec =
        .error ((New .ErrCodeHypervisor "failed to create VM" lv.breaker).WithContext "vm_name"
          (.str spec.Name)) ∧
      Adapter.CreateVMCalls lv spec = [] := by
  cases hb : lv.breaker <;> simp_all [Adapter.CreateVM, Adapter.CreateVMCalls, GoError.isNil]

theorem Adapter.DeleteVM_breaker_open (lv : LibvirtDelete) (id : String)
    (h : lv.breaker.isNil = false) :
    Adapter.DeleteVM lv id =
        .error ((New .ErrCodeHypervisor "failed to delete VM" lv.breaker).WithContext "vm_id"
          (.str id)) ∧
      Adapter.DeleteVMCalls lv id = [] := by
  cases hb : lv.breaker <;> simp_all [Adapter.DeleteVM, Adapter.DeleteVMCalls, GoError.isNil]

theorem Adapter.StartVM_breaker_open (lv : LibvirtStart) (id : String)
    (h : lv.breaker.isNil = false) :
    Adapter.StartVM lv id =
        .error ((New .ErrCodeHypervisor "failed to start VM" lv.breaker).WithContext "vm_id"
          (.str id)) ∧
      Adapter.StartVMCalls lv id = [] := by
  cases hb : lv.breaker <;> simp_all [Adapter.StartVM, Adapter.StartVMCalls, GoError.isNil]

theorem Adapter.StopVM_breaker_open (lv : LibvirtStop) (id : String) (force : Bool)
    (h : lv.breaker.isNil = false) :
    Adapter.StopVM lv id force =
        .error ((New .ErrCodeHypervisor "failed to stop VM" lv.breaker).WithContext "vm_id"
          (.str id)) ∧
      Adapter.StopVMCalls lv id force = [] := by
  cases hb : lv.breaker <;> simp_all [Adapter.StopVM, Adapter.StopVMCalls, GoError.isNil]

/-! ## Lemmas on `GetImage` -/

theorem ImageMap.get_Save (r : InMemoryImageRepository) (image : Image) :
    ImageMap.get (r.Save image).1.images image.Name = some image := by
  simp [ImageMap.get, InMemoryImageRepository.Save, List.find?]

theorem storage.Adapter.fetchImage_ok (a : storage.Adapter) (env : DownloadEnv) (files : Files)
    (template path : String) (h : (a.fetchImage env files template).result = .ok path) :
    ∃ url checksum,
      templateURL template = some url ∧ env.download = .nil ∧ path = a.imagePath template ∧
        a.calculateChecksum (Files.update files (a.imagePath template) env.destinationAfter)
          (a.imagePath template) = .ok checksum ∧
        a.fetchImage env files template =
          { result := .ok (a.imagePath template)
            adapter :=
              { a with
                imageRepo :=
                  (a.imageRepo.Save
                    { Name := template
                      Path := a.imagePath template
                      URL := url
                      Checksum := checksum
                      SizeBytes := 0
                      CachedAt := 0 }).1 }
            files := Files.update files (a.imagePath template) env.destinationAfter
            downloads := [(url, a.imagePath template)] } := by
  unfold storage.Adapter.fetchImage at h
  cases hu : templateURL template with
  | none => simp [hu] at h
  | some url =>
    cases hd : env.download with
    | nil =>
      cases hc : a.calculateChecksum (Files.update files (a.imagePath template) env.destinationAfter)
          (a.imagePath template) with
      | error err => simp [hu, hd, hc] at h
      | ok checksum =>
        simp only [hu, hd, hc] at h
        simp only [Except.ok.injEq] at h
        refine ⟨url, checksum, rfl, rfl, h.symm, rfl, ?_⟩
        unfold storage.Adapter.fetchImage
        simp only [hu, hd, hc]
    | plain m => simp [hu, hd] at h
    | wrap m e => simp [hu, hd] at h
    | validation fs => simp [hu, hd] at h
    | app e => simp [hu, hd] at h

theorem storage.Adapter.fetchImage_record (a : storage.Adapter) (env : DownloadEnv)
    (files : Files) (template path : String)
    (h : (a.fetchImage env files template).result = .ok path) :
    ∃ img : Image,
      ImageMap.get (a.fetchImage env files template).adapter.imageRepo.images template = some img ∧
        img.Path = path ∧
        (a.fetchImage env files template).adapter.calculateChecksum
          (a.fetchImage env files template).files path = .ok img.Checksum := by
  obtain ⟨url, checksum, _, _, hpath, hsum, hfetch⟩ :=
    storage.Adapter.fetchImage_ok a env files template path h
  rw [hfetch]
  refine ⟨{ Name := template
            Path := a.imagePath template
            URL := url
            Checksum := checksum
            SizeBytes := 0
            CachedAt := 0 }, ?_, hpath.symm, ?_⟩
  · exact ImageMap.get_Save a.imageRepo _
  · rw [hpath]
    exact hsum

theorem storage.Adapter.GetImage_stale (a : storage.Adapter) (env : DownloadEnv) (files : Files)
    (template : String) (image : Image)
    (hcached : ImageMap.get a.imageRepo.images template = some image)
    (hstale : a.calculateChecksum files image.Path ≠ .ok image.Checksum) :
    a.GetImage env files template = a.fetchImage env files template := by
  unfold storage.Adapter.GetImage
  simp only [InMemoryImageRepository.Exists, InMemoryImageRepository.Get, hcached, Option.isSome_some]
  cases hc : a.calculateChecksum files image.Path with
  | error err => rfl
  | ok actual =>
    have hne : image.Checksum ≠ actual := by
      intro heq
      apply hstale
      rw [hc, heq]
    simp [Image.IsValid, hne]

theorem storage.Adapter.GetImage_record (a : storage.Adapter) (env : DownloadEnv) (files : Files)
    (template path : String) (h : (a.GetImage env files template).result = .ok path) :
    ∃ img : Image,
      ImageMap.get (a.GetImage env files template).adapter.imageRepo.images template = some img ∧
        img.Path = path ∧
        (a.GetImage env files template).adapter.calculateChecksum
          (a.GetImage env files template).files path = .ok img.Checksum := by
  cases hcached : ImageMap.get a.imageRepo.images template with
  | none =>
    have hget : a.GetImage env files template = a.fetchImage env files template := by
      unfold storage.Adapter.GetImage
      simp [InMemoryImageRepository.Exists, hcached]
    rw [hget] at h ⊢
    exact storage.Adapter.fetchImage_record a env files template path h
  | some image =>
    by_cases hvalid : a.calculateChecksum files image.Path = .ok image.Checksum
    · have hget : a.GetImage env files template =
          { result := .ok image.Path, adapter := a, files := files, downloads := [] } := by
        unfold storage.Adapter.GetImage
        simp [InMemoryImageRepository.Exists, InMemoryImageRepository.Get, hcached, hvalid,
          Image.IsValid]
      rw [hget] at h ⊢
      simp only [Except.ok.injEq] at h
      exact ⟨image, hcached, h, by rw [← h]; exact hvalid⟩
    · rw [storage.Adapter.GetImage_stale a env files template image hcached hvalid] at h ⊢
      exact storage.Adapter.fetchImage_record a env files template path h

/-! ## Lemmas on the two VM repositories -/

theorem persist_ok_error (r : PersistentVMRepository) (env : PersistEnv)
    (hw : env.writeFile = .nil) (hr : env.rename = .nil) : (r.persist env).2 = .nil := by
  simp [PersistentVMRepository.persist, hw, hr]

theorem call_refines (p : PersistentVMRepository) (r : InMemoryVMRepository) (env : PersistEnv)
    (c : VMRepositoryCall) (hvms : p.vms = r.vms) (hw : env.writeFile = .nil)
    (hr : env.rename = .nil) :
    (p.call env c).2 = (r.call c).2 ∧ (p.call env c).1.vms = (r.call c).1.vms := by
  cases c with
  | Save vm =>
    simp [PersistentVMRepository.call, InMemoryVMRepository.call, persist_vms,
      InMemoryVMRepository.Save, PersistentVMRepository.Save, persist_ok_error _ env hw hr, hvms]
  | FindByID id =>
    simp [PersistentVMRepository.call, InMemoryVMRepository.call,
      PersistentVMRepository.FindByID, InMemoryVMRepository.FindByID, hvms]
  | FindByName name =>
    simp [PersistentVMRepository.call, InMemoryVMRepository.call,
      PersistentVMRepository.FindByName, InMemoryVMRepository.FindByName, hvms]
  | FindAll =>
    simp [PersistentVMRepository.call, InMemoryVMRepository.call,
      PersistentVMRepository.FindAll, InMemoryVMRepository.FindAll, hvms]
  | Delete id =>
    simp [PersistentVMRepository.call, InMemoryVMRepository.call, persist_vms,
      InMemoryVMRepository.Delete, PersistentVMRepository.Delete, persist_ok_error _ env hw hr,
      hvms]
  | Exists id =>
    simp [PersistentVMRepository.call, InMemoryVMRepository.call,
      PersistentVMRepository.Exists, InMemoryVMRepository.Exists, hvms]

theorem run_refines (cs : List (VMRepositoryCall × PersistEnv)) :
    ∀ (p : PersistentVMRepository) (r : InMemoryVMRepository), p.vms = r.vms →
      (∀ c ∈ cs, c.2.writeFile = .nil ∧ c.2.rename = .nil) →
        (p.run cs).2 = (r.run (cs.map (fun c => c.1))).2 ∧
          (p.run cs).1.vms = (r.run (cs.map (fun c => c.1))).1.vms := by
  induction cs with
  | nil =>
    intro p r hvms _
    exact ⟨rfl, hvms⟩
  | cons c cs ih =>
    intro p r hvms hok
    obtain ⟨hw, hr⟩ := hok c (List.mem_cons_self _ _)
    obtain ⟨hres, hnext⟩ := call_refines p r c.2 c.1 hvms hw hr
    obtain ⟨h1, h2⟩ := ih (p.call c.2 c.1).1 (r.call c.1).1 hnext
      (fun d hd => hok d (List.mem_cons_of_mem _ hd))
    simp only [PersistentVMRepository.run, InMemoryVMRepository.run, List.map_cons]
    exact ⟨by rw [hres, h1], h2⟩

/-! ## Lemmas on the rounding of the failure ratio -/

theorem roundHalfEven_ge (q : ℚ) (N : ℤ) (h : (N : ℚ) ≤ q) : N ≤ roundHalfEven q := by
  have hf : N ≤ ⌊q⌋ := Int.le_floor.mpr h
  unfold roundHalfEven
  split_ifs <;> omega

theorem roundHalfEven_le (q : ℚ) (N : ℤ) (h : q ≤ (N : ℚ)) : roundHalfEven q ≤ N := by
  have hfq : ((⌊q⌋ : ℤ) : ℚ) ≤ q := Int.floor_le q
  have hf : ⌊q⌋ ≤ N := by
    have : ((⌊q⌋ : ℤ) : ℚ) ≤ (N : ℚ) := le_trans hfq h
    exact_mod_cast this
  rcases lt_or_eq_of_le hf with hlt | heq
  · unfold roundHalfEven
    split_ifs <;> omega
  · have hcast : ((⌊q⌋ : ℤ) : ℚ) = (N : ℚ) := by exact_mod_cast heq
    have hfrac : q - ((⌊q⌋ : ℤ) : ℚ) < 1 / 2 := by linarith
    unfold roundHalfEven
    rw [if_pos hfrac]
    exact hf

theorem nearestFloat64_ge (q : ℚ) (hq : 0 < q) (N : ℤ)
    (h : (N : ℚ) * 2 ^ (Int.log 2 q - 52) ≤ q) :
    (N : ℚ) * 2 ^ (Int.log 2 q - 52) ≤ nearestFloat64 q := by
  have hp : (0 : ℚ) < 2 ^ (Int.log 2 q - 52) := zpow_pos (by norm_num) _
  have hN : (N : ℚ) ≤ q / 2 ^ (Int.log 2 q - 52) := (le_div_iff₀ hp).mpr h
  have hr : N ≤ roundHalfEven (q / 2 ^ (Int.log 2 q - 52)) := roundHalfEven_ge _ _ hN
  unfold nearestFloat64
  rw [if_neg (not_le.mpr hq)]
  exact mul_le_mul_of_nonneg_right (by exact_mod_cast hr) hp.le

theorem nearestFloat64_le (q : ℚ) (hq : 0 < q) (N : ℤ)
    (h : q ≤ (N : ℚ) * 2 ^ (Int.log 2 q - 52)) :
    nearestFloat64 q ≤ (N : ℚ) * 2 ^ (Int.log 2 q - 52) := by
  have hp : (0 : ℚ) < 2 ^ (Int.log 2 q - 52) := zpow_pos (by norm_num) _
  have hN : q / 2 ^ (Int.log 2 q - 52) ≤ (N : ℚ) := (div_le_iff₀ hp).mpr h
  have hr : roundHalfEven (q / 2 ^ (Int.log 2 q - 52)) ≤ N := roundHalfEven_le _ _ hN
  unfold nearestFloat64
  rw [if_neg (not_le.mpr hq)]
  exact mul_le_mul_of_nonneg_right (by exact_mod_cast hr) hp.le

theorem log_two_six_tenths : Int.log 2 (6 / 10 : ℚ) = -1 := by
  have h1 : (-1 : ℤ) ≤ Int.log 2 (6 / 10 : ℚ) := by
    rw [← Int.zpow_le_iff_le_log (by norm_num) (by norm_num)]
    norm_num
  have h2 : Int.log 2 (6 / 10 : ℚ) < 0 := by
    rw [← Int.lt_zpow_iff_log_lt (by norm_num) (by norm_num)]
    norm_num
  omega

theorem nearestFloat64_six_tenths :
    nearestFloat64 (6 / 10) = 5404319552844595 / 9007199254740992 := by
  have hfloor : ⌊(6 / 10 : ℚ) / 2 ^ (-1 - 52 : ℤ)⌋ = 5404319552844595 := by
    rw [Int.floor_eq_iff]
    norm_num
  unfold nearestFloat64
  rw [if_neg (by norm_num), log_two_six_tenths]
  unfold roundHalfEven
  rw [hfloor, if_pos (by norm_num)]
  norm_num

theorem nearestFloat64_ge_of_ratio (x : ℚ) (hx : 3 / 5 ≤ x) :
    (5404319552844595 / 9007199254740992 : ℚ) ≤ nearestFloat64 x := by
  have hpos : 0 < x := by linarith
  have hlog : (-1 : ℤ) ≤ Int.log 2 x := by
    rw [← Int.zpow_le_iff_le_log (by norm_num) hpos]
    norm_num
    linarith
  rcases (by omega : Int.log 2 x = -1 ∨ 0 ≤ Int.log 2 x) with he | he
  · have h := nearestFloat64_ge x hpos 5404319552844595 (by
      rw [he]
      norm_num
      linarith)
    rw [he] at h
    norm_num at h
    linarith
  · have hself : ((2 : ℕ) : ℚ) ^ Int.log 2 x ≤ x := Int.zpow_log_le_self (by norm_num) hpos
    have hsplit : ((2 ^ 52 : ℤ) : ℚ) * 2 ^ (Int.log 2 x - 52) = (2 : ℚ) ^ Int.log 2 x := by
      rw [zpow_sub₀ (by norm_num)]
      norm_num
      ring
    have h := nearestFloat64_ge x hpos (2 ^ 52) (by
      rw [hsplit]
      exact_mod_cast hself)
    rw [hsplit] at h
    have hone : (1 : ℚ) ≤ (2 : ℚ) ^ Int.log 2 x := one_le_zpow₀ (by norm_num) he
    linarith

theorem nearestFloat64_lt_of_ratio (x : ℚ) (hx : x ≤ 3 / 5 - 1 / (5 * 2 ^ 32)) :
    nearestFloat64 x < (5404319552844595 / 9007199254740992 : ℚ) := by
  rcases le_or_lt x 0 with hneg | hpos
  · unfold nearestFloat64
    rw [if_pos hneg]
    norm_num
  · have hlog : Int.log 2 x < 0 := by
      rw [← Int.lt_zpow_iff_log_lt (by norm_num) hpos]
      norm_num
      norm_num at hx
      linarith
    rcases (by omega : Int.log 2 x = -1 ∨ Int.log 2 x + 1 ≤ -1) with he | he
    · have h := nearestFloat64_le x hpos 5404319552844594 (by
        rw [he]
        norm_num
        norm_num at hx
        linarith)
      rw [he] at h
      norm_num at h
      linarith
    · have hself : x < ((2 : ℕ) : ℚ) ^ (Int.log 2 x + 1) :=
        Int.lt_zpow_succ_log_self (by norm_num) x
      have hsplit : ((2 ^ 53 : ℤ) : ℚ) * 2 ^ (Int.log 2 x - 52) = (2 : ℚ) ^ (Int.log 2 x + 1) := by
        rw [zpow_sub₀ (by norm_num), zpow_add₀ (by norm_num)]
        norm_num
        ring
      have h := nearestFloat64_le x hpos (2 ^ 53) (by
        rw [hsplit]
        exact_mod_cast hself.le)
      rw [hsplit] at h
      have hhalf : (2 : ℚ) ^ (Int.log 2 x + 1) ≤ 2 ^ (-1 : ℤ) :=
        zpow_le_zpow_right₀ (by norm_num) he
      norm_num at hhalf
      linarith

theorem ReadyToTrip_iff (counts : Counts) (hreq : counts.Requests < 2 ^ 32) :
    ReadyToTrip counts = true ↔
      3 ≤ counts.Requests ∧ 3 * counts.Requests ≤ 5 * counts.TotalFailures := by
  unfold ReadyToTrip
  simp only [Bool.and_eq_true, decide_eq_true_eq, ge_iff_le, nearestFloat64_six_tenths]
  constructor
  · rintro ⟨h3, hge⟩
    refine ⟨h3, ?_⟩
    by_contra hlt
    have hlt1 : 5 * counts.TotalFailures + 1 ≤ 3 * counts.Requests := by omega
    have hR : (0 : ℚ) < counts.Requests := by exact_mod_cast (by omega : 0 < counts.Requests)
    have hRle : (counts.Requests : ℚ) ≤ 2 ^ 32 := by exact_mod_cast hreq.le
    have hcast : (5 : ℚ) * counts.TotalFailures + 1 ≤ 3 * counts.Requests := by
      exact_mod_cast hlt1
    have hx : (counts.TotalFailures : ℚ) / counts.Requests ≤ 3 / 5 - 1 / (5 * 2 ^ 32) := by
      rw [div_le_iff₀ hR]
      have : (1 / (5 * 2 ^ 32) : ℚ) * counts.Requests ≤ 1 / 5 := by
        have := mul_le_mul_of_nonneg_left hRle (by norm_num : (0 : ℚ) ≤ 1 / (5 * 2 ^ 32))
        norm_num at this ⊢
        linarith
      linarith
    have hlow := nearestFloat64_lt_of_ratio _ hx
    unfold Float64.divCounts at hge
    rw [if_neg (by omega)] at hge
    simp only [Float64.ge, decide_eq_true_eq] at hge
    linarith
  · rintro ⟨h3, h5⟩
    refine ⟨h3, ?_⟩
    have hR : (0 : ℚ) < counts.Requests := by exact_mod_cast (by omega : 0 < counts.Requests)
    have hcast : (3 : ℚ) * counts.Requests ≤ 5 * counts.TotalFailures := by exact_mod_cast h5
    have hx : (3 / 5 : ℚ) ≤ (counts.TotalFailures : ℚ) / counts.Requests := by
      rw [le_div_iff₀ hR]
      linarith
    have hhigh := nearestFloat64_ge_of_ratio _ hx
    unfold Float64.divCounts
    rw [if_neg (by omega)]
    simp only [Float64.ge, decide_eq_true_eq]
    exact hhigh

/-! ## Lemmas on the values the process holds, on the overlay files and on the digest -/

theorem wrapInt_of_inIntRange (x : Int) (h : inIntRange x = true) : wrapInt x = x := by
  simp only [inIntRange, Bool.and_eq_true, decide_eq_true_eq] at h
  unfold wrapInt
  omega

theorem Resource.ReleaseWrapping_eq_Release (r : Resource) (vcpu ramGB diskGB : Int)
    (hcpu : inIntRange (r.AvailableCPU + vcpu) = true)
    (hram : inIntRange (r.AvailableRAMGB + ramGB) = true)
    (hdisk : inIntRange (r.AvailableDiskGB + diskGB) = true) :
    r.ReleaseWrapping vcpu ramGB diskGB = r.Release vcpu ramGB diskGB := by
  simp only [Resource.ReleaseWrapping, Resource.Release, wrapInt_of_inIntRange _ hcpu,
    wrapInt_of_inIntRange _ hram, wrapInt_of_inIntRange _ hdisk]

theorem DeleteVMUseCase.ExecuteOnGoValues_record (validator : Validate) (env : DeleteEnv)
    (st : State) (req : DeleteVMRequest) (vm : VM)
    (hget : VMMap.get st.vmRepo.vms req.VMID = some vm)
    (hcpu : inIntRange (st.resourceRepo.resource.AvailableCPU + vm.VCPU) = true)
    (hram : inIntRange (st.resourceRepo.resource.AvailableRAMGB + vm.RAMGB) = true)
    (hdisk : inIntRange (st.resourceRepo.resource.AvailableDiskGB + vm.DiskGB) = true) :
    DeleteVMUseCase.ExecuteOnGoValues validator env st [] req =
      .returned (DeleteVMUseCase.Execute validator env st req) := by
  unfold DeleteVMUseCase.ExecuteOnGoValues DeleteVMUseCase.Execute
  cases hv : validator.StructDelete req with
  | cons fe fes => rfl
  | nil =>
    cases hd : Adapter.DeleteVM env.libvirt req.VMID with
    | error err =>
      simp [PersistentVMRepository.FindByID, hget, hd]
    | ok u =>
      simp [PersistentVMRepository.FindByID, hget, hd, InMemoryResourceRepository.GetAvailable,
        Resource.ReleaseWrapping_eq_Release _ _ _ _ hcpu hram hdisk]

theorem overlaysAfter_failed_create (a : storage.Adapter) (env : CreateEnv)
    (removeError : GoError) (overlays : List String) (name template baseImage diskPath : String)
    (size : Int) (spec : VMSpec) (hdisk : env.createDisk = .ok diskPath) :
    CreateVMUseCase.overlaysAfter a env removeError overlays
        [.vmRepoExists name, .resourceRepoGetAvailable, .storageGetImage template,
          .storageCreateDisk name baseImage size, .hypervisorCreateVM spec,
          .storageDeleteDisk name] =
      if removeError.isNil then overlays.filter (fun d => d != name)
      else name :: overlays.filter (fun d => d != name) := by
  cases removeError <;>
    simp [CreateVMUseCase.overlaysAfter, hdisk, storage.Adapter.DeleteDisk, GoError.isNil,
      List.filter_filter]

theorem storage.Adapter.calculateChecksum_ok_iff (a : storage.Adapter) (files : Files)
    (filePath checksum : String) :
    a.calculateChecksum files filePath = .ok checksum ↔
      ∃ content : Content, files filePath = .ok content ∧ checksum = a.sha256Hex content := by
  unfold storage.Adapter.calculateChecksum
  cases hf : files filePath with
  | error err => simp
  | ok content =>
    simp only [Except.ok.injEq, exists_eq_left']
    exact eq_comm

theorem storage.Adapter.calculateChecksum_stale (a : storage.Adapter) (files : Files)
    (image : Image)
    (hstale : ∀ content : Content, files image.Path = .ok content →
      a.sha256Hex content ≠ image.Checksum) :
    a.calculateChecksum files image.Path ≠ .ok image.Checksum := by
  intro h
  obtain ⟨content, hfile, hsum⟩ := (storage.Adapter.calculateChecksum_ok_iff a files _ _).mp h
  exact hstale content hfile hsum.symm

theorem storage.Adapter.fetchImage_sha256Hex (a : storage.Adapter) (env : DownloadEnv)
    (files : Files) (template : String) :
    (a.fetchImage env files template).adapter.sha256Hex = a.sha256Hex := by
  unfold storage.Adapter.fetchImage
  cases templateURL template with
  | none => rfl
  | some url =>
    dsimp only
    cases env.download <;> try rfl
    cases a.calculateChecksum (Files.update files (a.imagePath template) env.destinationAfter)
      (a.imagePath template) <;> rfl

theorem storage.Adapter.GetImage_sha256Hex (a : storage.Adapter) (env : DownloadEnv)
    (files : Files) (template : String) :
    (a.GetImage env files template).adapter.sha256Hex = a.sha256Hex := by
  unfold storage.Adapter.GetImage
  repeat' split
  all_goals first | rfl | exact storage.Adapter.fetchImage_sha256Hex a env files template

/-! ## The claims -/

/-- Claim C1: whenever `CreateVMUseCase.Execute` returns success, the ledger after the call is the
ledger before the call with the available CPU, RAM and disk lowered by exactly the request's
vcpu, ram and disk; the total and reserved fields are unchanged. -/
theorem create_success_decrements_available (validator : Validate) (env : CreateEnv) (st : State)
    (req : CreateVMRequest)
    (h : (CreateVMUseCase.Execute validator env st req).isOk = true) :
    (CreateVMUseCase.Execute validator env st req).state.resourceRepo.resource =
      { TotalCPU := st.resourceRepo.resource.TotalCPU
        AvailableCPU := st.resourceRepo.resource.AvailableCPU - req.VCPU
        ReservedCPU := st.resourceRepo.resource.ReservedCPU
        TotalRAMGB := st.resourceRepo.resource.TotalRAMGB
        AvailableRAMGB := st.resourceRepo.resource.AvailableRAMGB - req.RAMGB
        ReservedRAMGB := st.resourceRepo.resource.ReservedRAMGB
        TotalDiskGB := st.resourceRepo.resource.TotalDiskGB
        AvailableDiskGB := st.resourceRepo.resource.AvailableDiskGB - req.DiskGB
        ReservedDiskGB := st.resourceRepo.resource.ReservedDiskGB } := by
  obtain ⟨_, _, _, vm, _, _, _, _, hst⟩ := create_ok_inv validator env st req h
  rw [hst]
  rfl

/-- Scenario 1 as an instance of C1: on the host with available CPU 8, RAM 16 and disk 200 the
request (2, 4, 50) succeeds and leaves available CPU 6, RAM 12 and disk 150. -/
theorem create_success_decrements_available_witness :
    (CreateVMUseCase.Execute defaultValidate envAllOk scenarioState requestVmA).isOk = true ∧
      (CreateVMUseCase.Execute defaultValidate envAllOk scenarioState
          requestVmA).state.resourceRepo.resource =
        { TotalCPU := 12
          AvailableCPU := 6
          ReservedCPU := 4
          TotalRAMGB := 32
          AvailableRAMGB := 12
          ReservedRAMGB := 16
          TotalDiskGB := 500
          AvailableDiskGB := 150
          ReservedDiskGB := 300 } :=
  ⟨by decide,
    create_success_decrements_available defaultValidate envAllOk scenarioState requestVmA
      (by decide)⟩

/-- Claim C2: whenever `CreateVMUseCase.Execute` returns an error, and so in particular when it
fails at or after the admission step (insufficient resources, image acquisition, disk creation,
hypervisor), the ledger held by the resource repository after the call is, field for field, the
ledger before the call. -/
theorem create_failure_keeps_ledger (validator : Validate) (env : CreateEnv) (st : State)
    (req : CreateVMRequest)
    (h : (CreateVMUseCase.Execute validator env st req).isOk = false) :
    (CreateVMUseCase.Execute validator env st req).state.resourceRepo.resource =
      st.resourceRepo.resource := by
  rw [create_error_state validator env st req h]

/-- An instance of C2: with the circuit breaker open the create of scenario 1 fails with a
hypervisor error, after admission, image and disk, and the ledger is the one before the call. -/
theorem create_failure_keeps_ledger_witness :
    (CreateVMUseCase.Execute defaultValidate envBreakerOpen scenarioState requestVmA).errCode =
        some .ErrCodeHypervisor ∧
      (CreateVMUseCase.Execute defaultValidate envBreakerOpen scenarioState
          requestVmA).state.resourceRepo.resource = scenarioState.resourceRepo.resource :=
  ⟨by decide,
    create_failure_keeps_ledger defaultValidate envBreakerOpen scenarioState requestVmA
      (by decide)⟩

/-- Claim C3 as stated fails: `vms.json` holds the record `vm-a` with the largest `int` as its
CPU count; the file loads without an error and the ledger starts with 8 CPUs available.  Delete of
`vm-a` returns success, and the available CPU after it is −9223372036854775801: the sum of the 8
before the call and the record's count is not a value of `int`, and the addition wraps around. -/
theorem delete_of_oversized_record_wraps_ledger :
    ∃ st o, startup dataDirWithOversizedRecord 12 scenarioConfig = .ok st ∧
      VMMap.get st.vmRepo.vms "vm-a" = some recordOversized ∧
      st.resourceRepo.resource.AvailableCPU = 8 ∧
      inIntRange recordOversized.VCPU = true ∧
      inIntRange (st.resourceRepo.resource.AvailableCPU + recordOversized.VCPU) = false ∧
      DeleteVMUseCase.ExecuteOnGoValues defaultValidate delAllOk st [] { VMID := "vm-a" } =
        .returned o ∧
      o.result = .ok { Success := true } ∧
      o.state.resourceRepo.resource.AvailableCPU = -9223372036854775801 ∧
      o.state.resourceRepo.resource.AvailableCPU ≠
        st.resourceRepo.resource.AvailableCPU + recordOversized.VCPU :=
  ⟨_, _, rfl, by decide, by decide, by decide, by decide, rfl, rfl, by decide, by decide⟩

/-- Claim C3, amended: whenever `DeleteVMUseCase.Execute` returns success for an id bound in the
registry to a record, and each available amount of the ledger plus the record's amount is within
the range of `int`, the ledger after the call is the ledger before the call with the available
CPU, RAM and disk raised by exactly the stored record's vcpu, ram and disk (and this is the ledger
the machine holds).  Consequently a successful Create followed by a successful Delete of the same
name restores the ledger to its value before the Create and leaves no record under that name. -/
theorem delete_success_releases_record (validator : Validate) :
    (∀ (env : DeleteEnv) (st : State) (req : DeleteVMRequest) (vm : VM),
        VMMap.get st.vmRepo.vms req.VMID = some vm →
        inIntRange (st.resourceRepo.resource.AvailableCPU + vm.VCPU) = true →
        inIntRange (st.resourceRepo.resource.AvailableRAMGB + vm.RAMGB) = true →
        inIntRange (st.resourceRepo.resource.AvailableDiskGB + vm.DiskGB) = true →
        (DeleteVMUseCase.Execute validator env st req).isOk = true →
        DeleteVMUseCase.ExecuteOnGoValues validator env st [] req =
            .returned (DeleteVMUseCase.Execute validator env st req) ∧
          (DeleteVMUseCase.Execute validator env st req).state.resourceRepo.resource =
            { TotalCPU := st.resourceRepo.resource.TotalCPU
              AvailableCPU := st.resourceRepo.resource.AvailableCPU + vm.VCPU
              ReservedCPU := st.resourceRepo.resource.ReservedCPU
              TotalRAMGB := st.resourceRepo.resource.TotalRAMGB
              AvailableRAMGB := st.resourceRepo.resource.AvailableRAMGB + vm.RAMGB
              ReservedRAMGB := st.resourceRepo.resource.ReservedRAMGB
              TotalDiskGB := st.resourceRepo.resource.TotalDiskGB
              AvailableDiskGB := st.resourceRepo.resource.AvailableDiskGB + vm.DiskGB
              ReservedDiskGB := st.resourceRepo.resource.ReservedDiskGB }) ∧
      (∀ (cenv : CreateEnv) (denv : DeleteEnv) (st : State) (req : CreateVMRequest),
        (CreateVMUseCase.Execute validator cenv st req).isOk = true →
        (DeleteVMUseCase.Execute validator denv
            (CreateVMUseCase.Execute validator cenv st req).state { VMID := req.Name }).isOk = true →
        (DeleteVMUseCase.Execute validator denv
              (CreateVMUseCase.Execute validator cenv st req).state
              { VMID := req.Name }).state.resourceRepo.resource = st.resourceRepo.resource ∧
          VMMap.get
              (DeleteVMUseCase.Execute validator denv
                (CreateVMUseCase.Execute validator cenv st req).state
                { VMID := req.Name }).state.vmRepo.vms req.Name = none) := by
  constructor
  · intro env st req vm hget hcpu hram hdisk hok
    refine ⟨DeleteVMUseCase.ExecuteOnGoValues_record validator env st req vm hget hcpu hram hdisk,
      ?_⟩
    obtain ⟨vm1, hget1, hst⟩ := delete_ok_inv validator env st req hok
    rw [hget] at hget1
    cases hget1
    rw [hst]
    rfl
  · intro cenv denv st req hc hd
    obtain ⟨_, _, _, vm, hid, hv, hr, hdk, hst⟩ := create_ok_inv validator cenv st req hc
    obtain ⟨vm1, hget1, hst1⟩ := delete_ok_inv validator denv _ _ hd
    rw [hst1]
    rw [hst] at hget1 ⊢
    simp only [Save_vms, hid, VMMap.get_set_self, Option.some.injEq] at hget1
    subst hget1
    refine ⟨?_, ?_⟩
    · simp only [hv, hr, hdk, Resource.Release_Allocate]
    · simp only [Delete_vms, VMMap.get_delete_self]

/-- Scenarios 1 and 5 as an instance of the amended C3: deleting `vm-a` right after creating it
raises the available amounts by the record's (2, 4, 50), which restores the ledger of the scenario
host, and the registry has no record `vm-a`. -/
theorem delete_success_releases_record_witness :
    (DeleteVMUseCase.Execute defaultValidate delAllOk
          (CreateVMUseCase.Execute defaultValidate envAllOk scenarioState requestVmA).state
          { VMID := "vm-a" }).state.resourceRepo.resource =
        { TotalCPU := 12
          AvailableCPU := 6 + 2
          ReservedCPU := 4
          TotalRAMGB := 32
          AvailableRAMGB := 12 + 4
          ReservedRAMGB := 16
          TotalDiskGB := 500
          AvailableDiskGB := 150 + 50
          ReservedDiskGB := 300 } ∧
      (DeleteVMUseCase.Execute defaultValidate delAllOk
          (CreateVMUseCase.Execute defaultValidate envAllOk scenarioState requestVmA).state
          { VMID := "vm-a" }).state.resourceRepo.resource = scenarioState.resourceRepo.resource ∧
      VMMap.get
          (DeleteVMUseCase.Execute defaultValidate delAllOk
            (CreateVMUseCase.Execute defaultValidate envAllOk scenarioState requestVmA).state
            { VMID := "vm-a" }).state.vmRepo.vms "vm-a" = none :=
  ⟨((delete_success_releases_record defaultValidate).1 delAllOk
      (CreateVMUseCase.Execute defaultValidate envAllOk scenarioState requestVmA).state
      { VMID := "vm-a" } { recordVmA with IP := "192.168.122.10" } (by decide) (by decide)
      (by decide) (by decide) (by decide)).2,
    (delete_success_releases_record defaultValidate).2 envAllOk delAllOk scenarioState requestVmA
      (by decide) (by decide)⟩

/-- Claim C4: in every state reached from a freshly constructed ledger and an empty registry by a
sequence of Create and Delete calls, whatever the outside world answers during them (failures of
the image, disk, hypervisor, lease, and of the registry's writes to disk included), each of
available CPU, RAM and disk equals total − reserved − the sum of that resource over the records
in the registry. -/
theorem reachable_states_satisfy_I5 (validator : Validate) (numCPU : Int) (cfg : ResourceConfig)
    (ops : List Op) : invariantI5 (runOps validator (freshState numCPU cfg) ops) :=
  (runOps_induction validator ledgerMatchesRegistry (ledgerMatchesRegistry_apply validator) ops _
    (ledgerMatchesRegistry_fresh numCPU cfg)).2

/-- Claim C5, the code at the failing input: `vms.json` holds the running record `vm-a` with
footprint (2, 4, 50), persisted by an earlier run.  The state built at startup has that record in
the registry and the ledger of a host without any VM (8, 16, 200 available, allocated totals 0),
so I3 is violated.  From that state a request for the whole of the available amounts is admitted
and succeeds, which puts (10, 20, 250) into the registry against a total minus reserved of
(8, 16, 200); and a Delete of `vm-a` lifts the available amounts to (10, 20, 250). -/
theorem startup_with_persisted_record_violates_I3 :
    ∃ st, startup dataDirWithVmA 12 scenarioConfig = .ok st ∧
      st.vmRepo.vms = [("vm-a", recordVmA)] ∧
      VMMap.nonError st.vmRepo.vms = [("vm-a", recordVmA)] ∧ ¬ invariantI3 st ∧
      st.resourceRepo.resource =
        { TotalCPU := 12
          AvailableCPU := 8
          ReservedCPU := 4
          TotalRAMGB := 32
          AvailableRAMGB := 16
          ReservedRAMGB := 16
          TotalDiskGB := 500
          AvailableDiskGB := 200
          ReservedDiskGB := 300 } ∧
      (CreateVMUseCase.Execute defaultValidate envAllOkB st requestWholeHost).result =
        .ok { VMID := "vm-b", IPAddress := "192.168.122.10", Status := "running" } ∧
      (CreateVMUseCase.Execute defaultValidate envAllOkB st requestWholeHost).state.vmRepo.vms.sumVCPU
        = 10 ∧
      (CreateVMUseCase.Execute defaultValidate envAllOkB st requestWholeHost).state.vmRepo.vms.sumRAMGB
        = 20 ∧
      (CreateVMUseCase.Execute defaultValidate envAllOkB st requestWholeHost).state.vmRepo.vms.sumDiskGB
        = 250 ∧
      (DeleteVMUseCase.Execute defaultValidate delAllOk st { VMID := "vm-a" }).result =
        .ok { Success := true } ∧
      (DeleteVMUseCase.Execute defaultValidate delAllOk st
          { VMID := "vm-a" }).state.resourceRepo.resource =
        { TotalCPU := 12
          AvailableCPU := 10
          ReservedCPU := 4
          TotalRAMGB := 32
          AvailableRAMGB := 20
          ReservedRAMGB := 16
          TotalDiskGB := 500
          AvailableDiskGB := 250
          ReservedDiskGB := 300 } := by
  refine ⟨_, rfl, rfl, by decide, ?_, by decide, rfl, by decide, by decide, by decide, rfl,
    by decide⟩
  unfold invariantI3
  decide

/-- Claim C6 as stated fails: the reservation of 64 GiB of RAM passes config validation, and the
initial state it yields has available RAM −32, which violates I6. -/
theorem accepted_reservation_gives_negative_available :
    defaultValidate.StructResourceConfig overReservedConfig = [] ∧
      ∃ st ∈ traceOps defaultValidate (freshState 12 overReservedConfig) [],
        st.resourceRepo.resource.AvailableRAMGB = -32 ∧ ¬ invariantI6 st := by
  refine ⟨by decide, freshState 12 overReservedConfig, by simp [traceOps], by decide, ?_⟩
  unfold invariantI6
  decide

/-- Claim C6, amended: for every reservation configuration accepted by config validation that
reserves no more than the host totals (CPU count, 32 GiB of RAM, 500 GiB of disk), and every
sequence of Create and Delete calls from the fresh ledger and an empty registry, the available
CPU, RAM and disk are each ≥ 0 in the initial state and after every call. -/
theorem available_nonneg_when_reserved_within_totals (validator : Validate) (numCPU : Int)
    (cfg : ResourceConfig) (ops : List Op)
    (_hcfg : validator.StructResourceConfig cfg = [])
    (hcpu : cfg.ReservedCPU ≤ numCPU) (hram : cfg.ReservedRAMGB ≤ 32)
    (hdisk : cfg.ReservedDiskGB ≤ 500) :
    ∀ st ∈ traceOps validator (freshState numCPU cfg) ops, invariantI6 st := by
  intro st hmem
  refine (traceOps_induction validator ledgerNonneg (ledgerNonneg_apply validator) ops _ ?_ st
    hmem).1
  refine ⟨⟨?_, ?_, ?_⟩, ?_⟩
  · simp only [freshState, NewInMemoryResourceRepository]; omega
  · simp only [freshState, NewInMemoryResourceRepository]; omega
  · simp only [freshState, NewInMemoryResourceRepository]; omega
  · intro kv hkv
    simp [freshState] at hkv

/-- An instance of the amended C6: on the scenario host, I6 holds in the initial state, after the
create of `vm-a` and after its delete. -/
theorem available_nonneg_when_reserved_within_totals_witness :
    invariantI6 (freshState 12 scenarioConfig) ∧
      invariantI6
        (runOps defaultValidate (freshState 12 scenarioConfig) [.create envAllOk requestVmA]) ∧
      invariantI6
        (runOps defaultValidate (freshState 12 scenarioConfig)
          [.create envAllOk requestVmA, .delete delAllOk { VMID := "vm-a" }]) :=
  ⟨available_nonneg_when_reserved_within_totals defaultValidate 12 scenarioConfig
      [.create envAllOk requestVmA, .delete delAllOk { VMID := "vm-a" }] (by decide) (by decide)
      (by decide) (by decide) _ (List.mem_cons_self _ _),
    available_nonneg_when_reserved_within_totals defaultValidate 12 scenarioConfig
      [.create envAllOk requestVmA, .delete delAllOk { VMID := "vm-a" }] (by decide) (by decide)
      (by decide) (by decide) _ (List.mem_cons_of_mem _ (List.mem_cons_self _ _)),
    available_nonneg_when_reserved_within_totals defaultValidate 12 scenarioConfig
      [.create envAllOk requestVmA, .delete delAllOk { VMID := "vm-a" }] (by decide) (by decide)
      (by decide) (by decide) _
      (List.mem_cons_of_mem _ (List.mem_cons_of_mem _ (List.mem_cons_self _ _)))⟩

/-- Claim C7: for every Create request with vcpu outside 1..32, or ram outside 1..128, or disk
outside 10..1000, or a template outside the four enumerated ones, or a name that is not a
hostname of length 3 to 63, `Execute` returns an error with code Validation, makes no call on the
registry, ledger, storage, hypervisor or network services, and leaves the state as it was. -/
theorem create_invalid_request_rejected (validator : Validate) (env : CreateEnv) (st : State)
    (req : CreateVMRequest)
    (h : req.VCPU < 1 ∨ 32 < req.VCPU ∨ req.RAMGB < 1 ∨ 128 < req.RAMGB ∨ req.DiskGB < 10 ∨
      1000 < req.DiskGB ∨ req.Template ∉ templateOneOf ∨
      ¬ (validator.hostname req.Name = true ∧ 3 ≤ req.Name.length ∧ req.Name.length ≤ 63)) :
    (CreateVMUseCase.Execute validator env st req).errCode = some .ErrCodeValidation ∧
      (CreateVMUseCase.Execute validator env st req).calls = [] ∧
      (CreateVMUseCase.Execute validator env st req).state = st := by
  have hne : validator.StructCreate req ≠ [] := by
    intro hnil
    obtain ⟨⟨h1, h2, h3⟩, ⟨h4, h5⟩, ⟨h6, h7⟩, ⟨h8, h9⟩, h10⟩ :=
      (StructCreate_eq_nil validator req).mp hnil
    rcases h with h | h | h | h | h | h | h | h
    · omega
    · omega
    · omega
    · omega
    · omega
    · omega
    · exact h h10
    · exact h ⟨h3, h1, h2⟩
  rw [create_invalid validator env st req hne]
  exact ⟨rfl, rfl, rfl⟩

/-- Scenario 3 as an instance of C7: the request of scenario 1 with vcpu 99 is a validation
error, with no service call and no change of state. -/
theorem create_invalid_request_rejected_witness :
    (CreateVMUseCase.Execute defaultValidate envAllOk scenarioState
          { requestVmA with VCPU := 99 }).errCode = some .ErrCodeValidation ∧
      (CreateVMUseCase.Execute defaultValidate envAllOk scenarioState
          { requestVmA with VCPU := 99 }).calls = [] ∧
      (CreateVMUseCase.Execute defaultValidate envAllOk scenarioState
          { requestVmA with VCPU := 99 }).state = scenarioState :=
  create_invalid_request_rejected defaultValidate envAllOk scenarioState
    { requestVmA with VCPU := 99 } (Or.inr (Or.inl (by decide)))

/-- Claim C8: for every valid Create request whose name is a key of the registry, `Execute`
returns an error with code Conflict, which `toGRPCError` maps to AlreadyExists, and leaves the
ledger and the registry unchanged; in particular, repeating a Create that succeeded returns
Conflict and changes nothing. -/
theorem create_existing_name_conflict (validator : Validate) :
    (∀ (env : CreateEnv) (st : State) (req : CreateVMRequest),
        validator.StructCreate req = [] →
        (VMMap.get st.vmRepo.vms req.Name).isSome = true →
        (∃ e : AppError, (CreateVMUseCase.Execute validator env st req).result = .error e ∧
            e.Code = .ErrCodeConflict ∧
            toGRPCError e.toError = { code := .AlreadyExists, message := "VM already exists" }) ∧
          (CreateVMUseCase.Execute validator env st req).state = st) ∧
      (∀ (env1 env2 : CreateEnv) (st : State) (req : CreateVMRequest),
        (CreateVMUseCase.Execute validator env1 st req).isOk = true →
        (CreateVMUseCase.Execute validator env2
            (CreateVMUseCase.Execute validator env1 st req).state req).errCode =
            some .ErrCodeConflict ∧
          (CreateVMUseCase.Execute validator env2
            (CreateVMUseCase.Execute validator env1 st req).state req).state =
            (CreateVMUseCase.Execute validator env1 st req).state) := by
  constructor
  · intro env st req hvalid hex
    rw [create_existing validator env st req hvalid hex]
    exact ⟨⟨_, rfl, rfl, rfl⟩, rfl⟩
  · intro env1 env2 st req hok
    obtain ⟨hvalid, _, _, vm, hid, _, _, _, hst⟩ := create_ok_inv validator env1 st req hok
    have hex : (VMMap.get (CreateVMUseCase.Execute validator env1 st req).state.vmRepo.vms
        req.Name).isSome = true := by
      rw [hst]
      simp only [Save_vms, hid, VMMap.get_set_self, Option.isSome_some]
    rw [create_existing validator env2 _ req hvalid hex]
    exact ⟨rfl, rfl⟩

/-- Scenario 2 as an instance of C8: the request of scenario 1, repeated after it succeeded, is a
Conflict mapped to AlreadyExists, and the state stays the one after the first create. -/
theorem create_existing_name_conflict_witness :
    ((∃ e : AppError,
          (CreateVMUseCase.Execute defaultValidate envAllOk
              (CreateVMUseCase.Execute defaultValidate envAllOk scenarioState requestVmA).state
              requestVmA).result = .error e ∧
            e.Code = .ErrCodeConflict ∧
            toGRPCError e.toError = { code := .AlreadyExists, message := "VM already exists" }) ∧
        (CreateVMUseCase.Execute defaultValidate envAllOk
            (CreateVMUseCase.Execute defaultValidate envAllOk scenarioState requestVmA).state
            requestVmA).state =
          (CreateVMUseCase.Execute defaultValidate envAllOk scenarioState requestVmA).state) ∧
      (CreateVMUseCase.Execute defaultValidate envAllOk
          (CreateVMUseCase.Execute defaultValidate envAllOk scenarioState requestVmA).state
          requestVmA).errCode = some .ErrCodeConflict :=
  ⟨(create_existing_name_conflict defaultValidate).1 envAllOk
      (CreateVMUseCase.Execute defaultValidate envAllOk scenarioState requestVmA).state requestVmA
      (by decide) (by decide),
    ((create_existing_name_conflict defaultValidate).2 envAllOk envAllOk scenarioState requestVmA
      (by decide)).1⟩

/-- Claim C9: for every valid Create request whose name is not in the registry, if at least one
of vcpu, ram, disk exceeds the ledger's available value then `Execute` returns an error with code
ResourceLimit (`RESOURCE_LIMIT_EXCEEDED`, gRPC ResourceExhausted) after calling only the registry's
`Exists` and the ledger's `GetAvailable` (no storage or hypervisor call), and leaves the ledger
and registry unchanged; conversely the call gets past admission (no ResourceLimit error;
`CanAllocate` is true) exactly when all three requested amounts are ≤ the available amounts. -/
theorem create_insufficient_resources_rejected (validator : Validate) (env : CreateEnv)
    (st : State) (req : CreateVMRequest) (hvalid : validator.StructCreate req = [])
    (hfree : VMMap.get st.vmRepo.vms req.Name = none) :
    ((st.resourceRepo.resource.AvailableCPU < req.VCPU ∨
          st.resourceRepo.resource.AvailableRAMGB < req.RAMGB ∨
          st.resourceRepo.resource.AvailableDiskGB < req.DiskGB) →
        (∃ e : AppError, (CreateVMUseCase.Execute validator env st req).result = .error e ∧
            e.Code = .ErrCodeResourceLimit ∧ e.Code.text = "RESOURCE_LIMIT_EXCEEDED" ∧
            (toGRPCError e.toError).code = .ResourceExhausted) ∧
          (CreateVMUseCase.Execute validator env st req).calls =
            [.vmRepoExists req.Name, .resourceRepoGetAvailable] ∧
          (∀ c ∈ (CreateVMUseCase.Execute validator env st req).calls,
            c.isStorage = false ∧ c.isHypervisor = false) ∧
          (CreateVMUseCase.Execute validator env st req).state = st) ∧
      ((CreateVMUseCase.Execute validator env st req).errCode ≠ some .ErrCodeResourceLimit ↔
        req.VCPU ≤ st.resourceRepo.resource.AvailableCPU ∧
          req.RAMGB ≤ st.resourceRepo.resource.AvailableRAMGB ∧
          req.DiskGB ≤ st.resourceRepo.resource.AvailableDiskGB) ∧
      (st.resourceRepo.resource.CanAllocate req.VCPU req.RAMGB req.DiskGB = true ↔
        req.VCPU ≤ st.resourceRepo.resource.AvailableCPU ∧
          req.RAMGB ≤ st.resourceRepo.resource.AvailableRAMGB ∧
          req.DiskGB ≤ st.resourceRepo.resource.AvailableDiskGB) := by
  have hiff := CanAllocate_iff st.resourceRepo.resource req.VCPU req.RAMGB req.DiskGB
  refine ⟨?_, ?_, hiff⟩
  · intro hex
    have hcan : st.resourceRepo.resource.CanAllocate req.VCPU req.RAMGB req.DiskGB = false := by
      rw [Bool.eq_false_iff]
      intro hc
      have := hiff.mp hc
      omega
    obtain ⟨e, hcode, _, hexec⟩ := create_insufficient validator env st req hvalid hfree hcan
    rw [hexec]
    refine ⟨⟨e, rfl, hcode, ?_, ?_⟩, rfl, ?_, rfl⟩
    · rw [hcode]; rfl
    · simp [toGRPCError, asAppError, AppError.toError, hcode]
    · intro c hc
      simp only [List.mem_cons, List.mem_singleton, List.not_mem_nil, or_false] at hc
      rcases hc with hc | hc <;> subst hc <;> exact ⟨rfl, rfl⟩
  · constructor
    · intro hne
      by_contra hnot
      have hcan : st.resourceRepo.resource.CanAllocate req.VCPU req.RAMGB req.DiskGB = false := by
        rw [Bool.eq_false_iff]
        exact fun hc => hnot (hiff.mp hc)
      obtain ⟨e, hcode, _, hexec⟩ := create_insufficient validator env st req hvalid hfree hcan
      apply hne
      rw [hexec]
      simp [Outcome.errCode, hcode]
    · intro hall
      exact (create_admitted validator env st req hvalid hfree (hiff.mpr hall)).1

/-- An instance of C9: on the scenario host (available disk 200 of a total of 500) a valid request
for 216 GiB of disk is rejected with ResourceLimit after the two repository reads, with no
storage or hypervisor call and no change of state. -/
theorem create_insufficient_resources_rejected_witness :
    (∃ e : AppError,
        (CreateVMUseCase.Execute defaultValidate envAllOk scenarioState requestDisk216).result =
            .error e ∧
          e.Code = .ErrCodeResourceLimit ∧ e.Code.text = "RESOURCE_LIMIT_EXCEEDED" ∧
          (toGRPCError e.toError).code = .ResourceExhausted) ∧
      (CreateVMUseCase.Execute defaultValidate envAllOk scenarioState requestDisk216).calls =
        [.vmRepoExists "vm-b", .resourceRepoGetAvailable] ∧
      (∀ c ∈ (CreateVMUseCase.Execute defaultValidate envAllOk scenarioState requestDisk216).calls,
        c.isStorage = false ∧ c.isHypervisor = false) ∧
      (CreateVMUseCase.Execute defaultValidate envAllOk scenarioState requestDisk216).state =
        scenarioState :=
  (create_insufficient_resources_rejected defaultValidate envAllOk scenarioState requestDisk216
    (by decide) (by decide)).1 (Or.inr (Or.inr (by decide)))

/-- Claim C10 as stated fails: on the host with available CPU 8, RAM 16 and disk 200, the request
with disk 10000 is answered by `Server.CreateVM` with the gRPC code InvalidArgument, and the use
case's error code is not ResourceLimit. -/
theorem create_disk_10000_is_validation_error :
    (Server.CreateVM defaultValidate envAllOk scenarioState requestDisk10000).1 =
        .error { code := .InvalidArgument, message := "invalid request" } ∧
      scenarioState.resourceRepo.resource.AvailableCPU = 8 ∧
      scenarioState.resourceRepo.resource.AvailableRAMGB = 16 ∧
      scenarioState.resourceRepo.resource.AvailableDiskGB = 200 ∧
      (CreateVMUseCase.Execute defaultValidate envAllOk scenarioState
          { Name := "vm-a", VCPU := 2, RAMGB := 4, DiskGB := 10000, Template := "ubuntu-22.04",
            Metadata := [] }).errCode ≠ some .ErrCodeResourceLimit := by
  refine ⟨rfl, rfl, rfl, rfl, ?_⟩
  decide

/-- Claim C10, amended: on a host whose ledger has available CPU 8, RAM 16 and disk 200, the
request Create(name "vm-a", vcpu 2, ram 4, disk 10000, template "ubuntu-22.04") is rejected by
validation (disk is above the maximum of 1000): `Server.CreateVM` returns the gRPC code
InvalidArgument and leaves the ledger, with the rest of the state, unchanged. -/
theorem create_disk_10000_rejected_by_validation (validator : Validate) (env : CreateEnv)
    (st : State)
    (_h : st.resourceRepo.resource.AvailableCPU = 8 ∧
      st.resourceRepo.resource.AvailableRAMGB = 16 ∧
      st.resourceRepo.resource.AvailableDiskGB = 200) :
    Server.CreateVM validator env st requestDisk10000 =
      (.error { code := .InvalidArgument, message := "invalid request" }, st) := by
  have hne : validator.StructCreate
      { Name := requestDisk10000.Name
        VCPU := requestDisk10000.Vcpu
        RAMGB := requestDisk10000.RamGb
        DiskGB := requestDisk10000.DiskGb
        Template := requestDisk10000.Template
        Metadata := requestDisk10000.Metadata } ≠ [] := by
    intro hnil
    have := ((StructCreate_eq_nil validator _).mp hnil).2.2.2.1.2
    simp [requestDisk10000] at this
  unfold Server.CreateVM
  simp only [create_invalid validator env st _ hne]
  rfl

/-- Scenario 4 as an instance of the amended C10, on the scenario host. -/
theorem create_disk_10000_rejected_by_validation_witness :
    Server.CreateVM defaultValidate envAllOk scenarioState requestDisk10000 =
      (.error { code := .InvalidArgument, message := "invalid request" }, scenarioState) :=
  create_disk_10000_rejected_by_validation defaultValidate envAllOk scenarioState
    ⟨rfl, rfl, rfl⟩

/-- Claim C11 as stated fails: an error that is not a domain error, here one with the message
"connection refused", is answered with the code Internal and the fixed message
"internal server error", not with its own message. -/
theorem toGRPCError_hides_foreign_message :
    toGRPCError (.plain "connection refused") =
        { code := .Internal, message := "internal server error" } ∧
      (toGRPCError (.plain "connection refused")).message ≠ "connection refused" := by
  refine ⟨rfl, ?_⟩
  decide

/-- Claim C11, amended: for a domain error, `toGRPCError` gives InvalidArgument for Validation,
NotFound for NotFound, AlreadyExists for Conflict, ResourceExhausted for ResourceLimit and
Internal for every other code, each time with the error's `Message` field as status message; an
error wrapping a domain error is answered like the domain error; every error that neither is nor
wraps a domain error is answered with Internal and the fixed message
"internal server error". -/
theorem toGRPCError_code_and_message :
    (∀ (m : String) (err : GoError) (ctx : List (String × CtxValue)),
        toGRPCError (.app .ErrCodeValidation m err ctx) = { code := .InvalidArgument, message := m } ∧
        toGRPCError (.app .ErrCodeNotFound m err ctx) = { code := .NotFound, message := m } ∧
        toGRPCError (.app .ErrCodeConflict m err ctx) = { code := .AlreadyExists, message := m } ∧
        toGRPCError (.app .ErrCodeResourceLimit m err ctx) =
          { code := .ResourceExhausted, message := m } ∧
        toGRPCError (.app .ErrCodeHypervisor m err ctx) = { code := .Internal, message := m } ∧
        toGRPCError (.app .ErrCodeNetwork m err ctx) = { code := .Internal, message := m } ∧
        toGRPCError (.app .ErrCodeStorage m err ctx) = { code := .Internal, message := m } ∧
        toGRPCError (.app .ErrCodeInternal m err ctx) = { code := .Internal, message := m }) ∧
      (∀ a : AppError, (toGRPCError a.toError).message = a.Message) ∧
      (∀ (msg : String) (inner : GoError), toGRPCError (.wrap msg inner) = toGRPCError inner) ∧
      (∀ e : GoError, asAppError e = none →
        toGRPCError e = { code := .Internal, message := "internal server error" }) := by
  refine ⟨?_, ?_, ?_, ?_⟩
  · intro m err ctx
    exact ⟨rfl, rfl, rfl, rfl, rfl, rfl, rfl, rfl⟩
  · intro a
    unfold toGRPCError
    rw [asAppError_toError]
    dsimp only
    split <;> rfl
  · intro msg inner
    rfl
  · intro e h
    unfold toGRPCError
    rw [h]

/-- An instance of the amended C11: a hypervisor error wrapped by `fmt.Errorf` keeps its `Message`
under the code Internal, and the nil error is answered with the fixed message. -/
theorem toGRPCError_code_and_message_witness :
    toGRPCError (.wrap "create" (New .ErrCodeHypervisor "failed to create VM" .nil).toError) =
        { code := .Internal, message := "failed to create VM" } ∧
      toGRPCError .nil = { code := .Internal, message := "internal server error" } :=
  ⟨(toGRPCError_code_and_message.2.2.1 "create"
      (New .ErrCodeHypervisor "failed to create VM" .nil).toError).trans
      (toGRPCError_code_and_message.1 "failed to create VM" .nil []).2.2.2.2.1,
    toGRPCError_code_and_message.2.2.2 .nil rfl⟩

/-- Claim C12: for every non-empty VM id that is not a key of the registry,
`DeleteVMUseCase.Execute` returns an error with code NotFound after the single call
`FindByID` on the registry: no hypervisor or storage call is made, and the registry and the
ledger are unchanged. -/
theorem delete_unknown_id_not_found (validator : Validate) (env : DeleteEnv) (st : State)
    (req : DeleteVMRequest) (hid : req.VMID ≠ "")
    (hnone : VMMap.get st.vmRepo.vms req.VMID = none) :
    (DeleteVMUseCase.Execute validator env st req).errCode = some .ErrCodeNotFound ∧
      (DeleteVMUseCase.Execute validator env st req).calls = [.vmRepoFindByID req.VMID] ∧
      (∀ c ∈ (DeleteVMUseCase.Execute validator env st req).calls,
        c.isHypervisor = false ∧ c.isStorage = false) ∧
      (DeleteVMUseCase.Execute validator env st req).state = st := by
  obtain ⟨e, hcode, _, hexec⟩ := delete_unknown validator env st req hid hnone
  rw [hexec]
  refine ⟨?_, rfl, ?_, rfl⟩
  · simp [Outcome.errCode, hcode]
  · intro c hc
    simp only [List.mem_singleton] at hc
    subst hc
    exact ⟨rfl, rfl⟩

/-- An instance of C12: deleting `vm-b` on the host where only `vm-a` is registered. -/
theorem delete_unknown_id_not_found_witness :
    (DeleteVMUseCase.Execute defaultValidate delAllOk stateWithVmA { VMID := "vm-b" }).errCode =
        some .ErrCodeNotFound ∧
      (DeleteVMUseCase.Execute defaultValidate delAllOk stateWithVmA { VMID := "vm-b" }).calls =
        [.vmRepoFindByID "vm-b"] ∧
      (∀ c ∈ (DeleteVMUseCase.Execute defaultValidate delAllOk stateWithVmA
            { VMID := "vm-b" }).calls,
        c.isHypervisor = false ∧ c.isStorage = false) ∧
      (DeleteVMUseCase.Execute defaultValidate delAllOk stateWithVmA { VMID := "vm-b" }).state =
        stateWithVmA :=
  delete_unknown_id_not_found defaultValidate delAllOk stateWithVmA { VMID := "vm-b" }
    (by decide) (by decide)

/-- Claim C13 as stated fails: with `vm-a` registered and libvirt answering that the domain is
not found, Delete does not return success but a Hypervisor error; the record stays in the
registry and nothing is released to the ledger. -/
theorem delete_domain_not_found_is_error :
    VMMap.get stateWithVmA.vmRepo.vms "vm-a" = some recordVmA ∧
      (DeleteVMUseCase.Execute defaultValidate delDomainNotFound stateWithVmA
          { VMID := "vm-a" }).isOk = false ∧
      (DeleteVMUseCase.Execute defaultValidate delDomainNotFound stateWithVmA
          { VMID := "vm-a" }).errCode = some .ErrCodeHypervisor ∧
      VMMap.get
          (DeleteVMUseCase.Execute defaultValidate delDomainNotFound stateWithVmA
            { VMID := "vm-a" }).state.vmRepo.vms "vm-a" = some recordVmA ∧
      (DeleteVMUseCase.Execute defaultValidate delDomainNotFound stateWithVmA
          { VMID := "vm-a" }).state.resourceRepo.resource = stateWithVmA.resourceRepo.resource := by
  refine ⟨by decide, by decide, by decide, by decide, by decide⟩

/-- Claim C13, amended: for every non-empty VM id present in the registry, every failure of the
hypervisor step, the hypervisor reporting the domain as not found included, makes Delete return a
Hypervisor error after the calls `FindByID` and `DeleteVM` only: the registry and the ledger are
unchanged and the overlay disk is not touched. -/
theorem delete_hypervisor_failure_changes_nothing (validator : Validate) (env : DeleteEnv)
    (st : State) (req : DeleteVMRequest) (vm : VM) (hid : req.VMID ≠ "")
    (hget : VMMap.get st.vmRepo.vms req.VMID = some vm) :
    (env.libvirt.lookupDomainByName.isNil = false →
        ∃ err, Adapter.DeleteVM env.libvirt req.VMID = .error err) ∧
      ((∃ err, Adapter.DeleteVM env.libvirt req.VMID = .error err) →
        (DeleteVMUseCase.Execute validator env st req).errCode = some .ErrCodeHypervisor ∧
          (DeleteVMUseCase.Execute validator env st req).calls =
            [.vmRepoFindByID req.VMID, .hypervisorDeleteVM req.VMID] ∧
          (∀ c ∈ (DeleteVMUseCase.Execute validator env st req).calls, c.isStorage = false) ∧
          (DeleteVMUseCase.Execute validator env st req).state = st) := by
  refine ⟨Adapter.DeleteVM_lookup_fails env.libvirt req.VMID, ?_⟩
  rintro ⟨err, hfail⟩
  obtain ⟨e, hcode, _, hexec⟩ := delete_hypervisor_fails validator env st req vm err hid hget hfail
  rw [hexec]
  refine ⟨?_, rfl, ?_, rfl⟩
  · simp [Outcome.errCode, hcode]
  · intro c hc
    simp only [List.mem_cons, List.mem_singleton, List.not_mem_nil, or_false] at hc
    rcases hc with hc | hc <;> subst hc <;> rfl

/-- An instance of the amended C13: `vm-a` registered, the domain not found by libvirt. -/
theorem delete_hypervisor_failure_changes_nothing_witness :
    (DeleteVMUseCase.Execute defaultValidate delDomainNotFound stateWithVmA
          { VMID := "vm-a" }).errCode = some .ErrCodeHypervisor ∧
      (DeleteVMUseCase.Execute defaultValidate delDomainNotFound stateWithVmA
          { VMID := "vm-a" }).calls = [.vmRepoFindByID "vm-a", .hypervisorDeleteVM "vm-a"] ∧
      (∀ c ∈ (DeleteVMUseCase.Execute defaultValidate delDomainNotFound stateWithVmA
            { VMID := "vm-a" }).calls, c.isStorage = false) ∧
      (DeleteVMUseCase.Execute defaultValidate delDomainNotFound stateWithVmA
          { VMID := "vm-a" }).state = stateWithVmA :=
  (delete_hypervisor_failure_changes_nothing defaultValidate delDomainNotFound stateWithVmA
      { VMID := "vm-a" } recordVmA (by decide) (by decide)).2
    ((delete_hypervisor_failure_changes_nothing defaultValidate delDomainNotFound stateWithVmA
      { VMID := "vm-a" } recordVmA (by decide) (by decide)).1 (by decide))

/-- Claim C14, the code at the failing input: `vms.json` binds `vm-a` to `null`, so the registry
map binds the key to the nil pointer.  Delete of `vm-a` finds the key, deletes the domain, calls
`DeleteDisk` and removes the key from the registry, then panics at `vm.VCPU`: no response is
returned and nothing is released.  For a key bound to a record whose amounts keep the sums of
`Release` within the range of `int`, the call returns `Success = true` whatever the removal of the
overlay and the write of the registry file answer, the ledger is updated exactly once, with the
available amounts raised by the record's vcpu, ram and disk, and the record is gone from the
map. -/
theorem delete_of_null_entry_panics :
    DeleteVMUseCase.ExecuteOnGoValues defaultValidate delAllOk scenarioState ["vm-a"]
        { VMID := "vm-a" } =
      .panicked "runtime error: invalid memory address or nil pointer dereference"
        [.vmRepoFindByID "vm-a", .hypervisorDeleteVM "vm-a", .storageDeleteDisk "vm-a",
          .vmRepoDelete "vm-a", .resourceRepoGetAvailable] ∧
      (∀ (validator : Validate) (env : DeleteEnv) (st : State) (req : DeleteVMRequest) (vm : VM),
        req.VMID ≠ "" → VMMap.get st.vmRepo.vms req.VMID = some vm →
        Adapter.DeleteVM env.libvirt req.VMID = .ok () →
        inIntRange (st.resourceRepo.resource.AvailableCPU + vm.VCPU) = true →
        inIntRange (st.resourceRepo.resource.AvailableRAMGB + vm.RAMGB) = true →
        inIntRange (st.resourceRepo.resource.AvailableDiskGB + vm.DiskGB) = true →
        DeleteVMUseCase.ExecuteOnGoValues validator env st [] req =
            .returned (DeleteVMUseCase.Execute validator env st req) ∧
          (DeleteVMUseCase.Execute validator env st req).result = .ok { Success := true } ∧
          (DeleteVMUseCase.Execute validator env st req).state.resourceRepo.resource =
            { TotalCPU := st.resourceRepo.resource.TotalCPU
              AvailableCPU := st.resourceRepo.resource.AvailableCPU + vm.VCPU
              ReservedCPU := st.resourceRepo.resource.ReservedCPU
              TotalRAMGB := st.resourceRepo.resource.TotalRAMGB
              AvailableRAMGB := st.resourceRepo.resource.AvailableRAMGB + vm.RAMGB
              ReservedRAMGB := st.resourceRepo.resource.ReservedRAMGB
              TotalDiskGB := st.resourceRepo.resource.TotalDiskGB
              AvailableDiskGB := st.resourceRepo.resource.AvailableDiskGB + vm.DiskGB
              ReservedDiskGB := st.resourceRepo.resource.ReservedDiskGB } ∧
          (DeleteVMUseCase.Execute validator env st req).calls =
            [.vmRepoFindByID req.VMID, .hypervisorDeleteVM req.VMID,
              .storageDeleteDisk req.VMID, .vmRepoDelete req.VMID, .resourceRepoGetAvailable,
              .resourceRepoUpdate
                (DeleteVMUseCase.Execute validator env st req).state.resourceRepo.resource] ∧
          VMMap.get (DeleteVMUseCase.Execute validator env st req).state.vmRepo.vms req.VMID =
            none) := by
  refine ⟨rfl, ?_⟩
  intro validator env st req vm hid hget hok hcpu hram hdisk
  refine ⟨DeleteVMUseCase.ExecuteOnGoValues_record validator env st req vm hget hcpu hram hdisk,
    ?_⟩
  rw [delete_hypervisor_ok validator env st req vm hid hget hok]
  refine ⟨rfl, rfl, rfl, ?_⟩
  simp only [Delete_vms, VMMap.get_delete_self]

/-- An instance of the second part of C14: deleting the record `vm-a` while the removal of its
overlay disk and the write of the registry file both fail still succeeds and gives the allocation
(2, 4, 50) back, once. -/
theorem delete_of_null_entry_panics_witness :
    (DeleteVMUseCase.Execute defaultValidate delDiskAndRegistryFail stateWithVmA
          { VMID := "vm-a" }).result = .ok { Success := true } ∧
      (DeleteVMUseCase.Execute defaultValidate delDiskAndRegistryFail stateWithVmA
          { VMID := "vm-a" }).state.resourceRepo.resource = scenarioState.resourceRepo.resource ∧
      VMMap.get
          (DeleteVMUseCase.Execute defaultValidate delDiskAndRegistryFail stateWithVmA
            { VMID := "vm-a" }).state.vmRepo.vms "vm-a" = none :=
  ⟨(delete_of_null_entry_panics.2 defaultValidate delDiskAndRegistryFail stateWithVmA
      { VMID := "vm-a" } recordVmA (by decide) (by decide) rfl (by decide) (by decide)
      (by decide)).2.1,
    (delete_of_null_entry_panics.2 defaultValidate delDiskAndRegistryFail stateWithVmA
      { VMID := "vm-a" } recordVmA (by decide) (by decide) rfl (by decide) (by decide)
      (by decide)).2.2.1,
    (delete_of_null_entry_panics.2 defaultValidate delDiskAndRegistryFail stateWithVmA
      { VMID := "vm-a" } recordVmA (by decide) (by decide) rfl (by decide) (by decide)
      (by decide)).2.2.2.2⟩

/-- Claim C15: for every Create in which validation, uniqueness, admission, image acquisition,
disk creation and the hypervisor's define and launch all succeed, `Execute` returns success with
id equal to the request name and state running, whatever the lease lookup and the write of the
registry file answer; the record passed to the registry's `Save` has that id, state running and
the IP of the response, and when the lease lookup fails both IPs are the empty string. -/
theorem create_succeeds_despite_lease_or_save_failure (validator : Validate) (env : CreateEnv)
    (st : State) (req : CreateVMRequest) (baseImage diskPath : String)
    (hvalid : validator.StructCreate req = [])
    (hfree : VMMap.get st.vmRepo.vms req.Name = none)
    (hcan : st.resourceRepo.resource.CanAllocate req.VCPU req.RAMGB req.DiskGB = true)
    (himage : env.getImage = .ok baseImage) (hdisk : env.createDisk = .ok diskPath)
    (hb : env.libvirt.breaker = .nil) (hd : env.libvirt.defineXML = .nil)
    (hs : env.libvirt.domainCreate = .nil) :
    ∃ (resp : CreateVMResponse) (vm : VM),
      (CreateVMUseCase.Execute validator env st req).result = .ok resp ∧
        resp.VMID = req.Name ∧ resp.Status = "running" ∧
        Call.vmRepoSave vm ∈ (CreateVMUseCase.Execute validator env st req).calls ∧
        vm.ID = req.Name ∧ vm.Status = VMStatusRunning ∧ vm.IP = resp.IPAddress ∧
        (∀ ip, env.getVMIP = .ok ip → resp.IPAddress = ip) ∧
        (∀ err, env.getVMIP = .error err → resp.IPAddress = "" ∧ vm.IP = "") := by
  obtain ⟨vm, hid, hst, hip, hres, hcall, _⟩ :=
    create_all_steps_ok validator env st req baseImage diskPath hvalid hfree hcan himage hdisk hb
      hd hs
  refine ⟨_, vm, hres, rfl, rfl, hcall, hid, hst, hip, ?_, ?_⟩
  · intro ip h
    simp [h, orEmpty]
  · intro err h
    simp [hip, h, orEmpty]

/-- An instance of C15: on the scenario host, with the lease lookup and the write of the registry
file failing, the create of `vm-a` succeeds with state running and an empty IP. -/
theorem create_succeeds_despite_lease_or_save_failure_witness :
    ∃ (resp : CreateVMResponse) (vm : VM),
      (CreateVMUseCase.Execute defaultValidate envLeaseAndSaveFail scenarioState
          requestVmA).result = .ok resp ∧
        resp.VMID = "vm-a" ∧ resp.Status = "running" ∧
        Call.vmRepoSave vm ∈
          (CreateVMUseCase.Execute defaultValidate envLeaseAndSaveFail scenarioState
            requestVmA).calls ∧
        vm.ID = "vm-a" ∧ vm.Status = VMStatusRunning ∧ vm.IP = resp.IPAddress ∧
        (∀ ip, envLeaseAndSaveFail.getVMIP = .ok ip → resp.IPAddress = ip) ∧
        (∀ err, envLeaseAndSaveFail.getVMIP = .error err → resp.IPAddress = "" ∧ vm.IP = "") :=
  create_succeeds_despite_lease_or_save_failure defaultValidate envLeaseAndSaveFail scenarioState
    requestVmA "/var/lib/ghost/images/ubuntu-22.04.qcow2"
    "/var/lib/ghost/images/disks/vm-a.qcow2" (by decide) (by decide) (by decide) rfl rfl rfl rfl
    rfl

/-- Claim C16 as stated fails: with `vm-a` registered by scenario 1, a successful Stop of `vm-a`
leaves the registry record in the state running, not stopped. -/
theorem stop_leaves_registry_record_running :
    (StopVMUseCase.Execute defaultValidate stopAllOk stateWithVmA
          { VMID := "vm-a", Force := false }).result = .ok { Status := "stopped" } ∧
      (VMMap.get
          (StopVMUseCase.Execute defaultValidate stopAllOk stateWithVmA
            { VMID := "vm-a", Force := false }).state.vmRepo.vms "vm-a").map (fun vm => vm.Status) =
        some VMStatusRunning ∧
      (VMMap.get
          (StopVMUseCase.Execute defaultValidate stopAllOk stateWithVmA
            { VMID := "vm-a", Force := false }).state.vmRepo.vms "vm-a").map (fun vm => vm.Status) ≠
        some VMStatusStopped := by
  refine ⟨rfl, by decide, by decide⟩

/-- Claim C16, amended: `StartVMUseCase.Execute` and `StopVMUseCase.Execute` change neither the
registry nor the ledger, so the registry record of the id keeps the state it had before the call;
when they return success they have made exactly one hypervisor call, and the response carries
the status running (Start) or stopped (Stop). -/
theorem start_stop_change_no_state (validator : Validate) (st : State) :
    (∀ (env : StartEnv) (req : StartVMRequest),
        (StartVMUseCase.Execute validator env st req).state = st ∧
          ((StartVMUseCase.Execute validator env st req).isOk = true →
            (StartVMUseCase.Execute validator env st req).result = .ok { Status := "running" } ∧
              (StartVMUseCase.Execute validator env st req).calls =
                [.hypervisorStartVM req.VMID])) ∧
      (∀ (env : StopEnv) (req : StopVMRequest),
        (StopVMUseCase.Execute validator env st req).state = st ∧
          ((StopVMUseCase.Execute validator env st req).isOk = true →
            (StopVMUseCase.Execute validator env st req).result = .ok { Status := "stopped" } ∧
              (StopVMUseCase.Execute validator env st req).calls =
                [.hypervisorStopVM req.VMID req.Force])) := by
  constructor
  · intro env req
    generalize hO : StartVMUseCase.Execute validator env st req = o
    unfold StartVMUseCase.Execute at hO
    repeat' split at hO
    all_goals (subst hO; simp [Outcome.isOk])
  · intro env req
    generalize hO : StopVMUseCase.Execute validator env st req = o
    unfold StopVMUseCase.Execute at hO
    repeat' split at hO
    all_goals (subst hO; simp [Outcome.isOk])

/-- An instance of the amended C16: Start and Stop of `vm-a` succeed and leave the state after
scenario 1 as it was. -/
theorem start_stop_change_no_state_witness :
    ((StartVMUseCase.Execute defaultValidate startAllOk stateWithVmA { VMID := "vm-a" }).state =
          stateWithVmA ∧
        (StartVMUseCase.Execute defaultValidate startAllOk stateWithVmA { VMID := "vm-a" }).result =
          .ok { Status := "running" }) ∧
      (StopVMUseCase.Execute defaultValidate stopAllOk stateWithVmA
          { VMID := "vm-a", Force := true }).state = stateWithVmA ∧
      (StopVMUseCase.Execute defaultValidate stopAllOk stateWithVmA
          { VMID := "vm-a", Force := true }).result = .ok { Status := "stopped" } :=
  ⟨⟨((start_stop_change_no_state defaultValidate stateWithVmA).1 startAllOk { VMID := "vm-a" }).1,
      (((start_stop_change_no_state defaultValidate stateWithVmA).1 startAllOk
        { VMID := "vm-a" }).2 (by decide)).1⟩,
    ((start_stop_change_no_state defaultValidate stateWithVmA).2 stopAllOk
      { VMID := "vm-a", Force := true }).1,
    (((start_stop_change_no_state defaultValidate stateWithVmA).2 stopAllOk
      { VMID := "vm-a", Force := true }).2 (by decide)).1⟩

/-- Claim C17 as stated fails: with `vm-a` in the registry and no domain known to the hypervisor,
the listing succeeds and is empty, so `vm-a` is not reported (in particular not with state
error). -/
theorem list_omits_registry_only_record :
    VMMap.get stateWithVmA.vmRepo.vms "vm-a" = some recordVmA ∧
      (ListVMsUseCase.Execute listNoDomains stateWithVmA {}).result = .ok { VMs := [] } := by
  refine ⟨by decide, rfl⟩

/-- Claim C17, amended: whenever the hypervisor's listing succeeds, `ListVMsUseCase.Execute`
returns exactly one entry for each listed domain, in the order listed, and nothing else: the
entry carries the domain's name as id and name, the hypervisor's state mapped by
`mapLibvirtState`, and the address from `GetVMIP` or the empty string.  The registry is not
consulted and the state is unchanged. -/
theorem list_reports_hypervisor_domains (env : ListEnv) (st : State) (req : ListVMsRequest)
    (domains : List LibvirtDomain) (h : env.libvirt.listAllDomains = .ok domains) :
    (ListVMsUseCase.Execute env st req).result =
        .ok
          { VMs :=
              domains.map (fun d =>
                { VMID := orEmpty d.getName
                  Name := orEmpty d.getName
                  Status := Adapter.mapLibvirtState (stateOrZero d.getState)
                  IPAddress := orEmpty (env.getVMIP (orEmpty d.getName)) }) } ∧
      (ListVMsUseCase.Execute env st req).state = st := by
  have hlist : Adapter.ListVMs env.libvirt = .ok (domains.map Adapter.listedVM) := by
    simp only [Adapter.ListVMs, h]
  unfold ListVMsUseCase.Execute
  rw [hlist]
  refine ⟨?_, rfl⟩
  dsimp only
  rw [List.map_map]
  congr 2

/-- An instance of the amended C17: with `vm-a` in the registry and the hypervisor knowing the
shut-off domain `vm-x` only, the listing is the single entry `vm-x` in state stopped. -/
theorem list_reports_hypervisor_domains_witness :
    (ListVMsUseCase.Execute listOneDomain stateWithVmA {}).result =
        .ok { VMs := [{ VMID := "vm-x", Name := "vm-x", Status := "stopped", IPAddress := "" }] } ∧
      (ListVMsUseCase.Execute listOneDomain stateWithVmA {}).state = stateWithVmA :=
  list_reports_hypervisor_domains listOneDomain stateWithVmA {}
    [{ getName := .ok "vm-x", getState := .ok .DOMAIN_SHUTOFF }] rfl

/-- Claim C18 as stated fails: after `vm-a` was saved and persisted, a Save of `vm-b` whose write
to disk fails returns an error and leaves `vm-b` in the in-memory map, while `vms.json` still
decodes to the map holding `vm-a` only. -/
theorem failed_save_leaves_map_ahead_of_file :
    (RepoOp.apply (runRepoOps emptyRepo [.save persistOk recordVmA])
          (.save persistFails recordVmB)).2.isNil = false ∧
      (RepoOp.apply (runRepoOps emptyRepo [.save persistOk recordVmA])
          (.save persistFails recordVmB)).1.vms = [("vm-b", recordVmB), ("vm-a", recordVmA)] ∧
      (RepoOp.apply (runRepoOps emptyRepo [.save persistOk recordVmA])
          (.save persistFails recordVmB)).1.file.records = some [("vm-a", recordVmA)] ∧
      (RepoOp.apply (runRepoOps emptyRepo [.save persistOk recordVmA])
          (.save persistFails recordVmB)).1.file.records ≠
        some (RepoOp.apply (runRepoOps emptyRepo [.save persistOk recordVmA])
          (.save persistFails recordVmB)).1.vms := by
  refine ⟨rfl, by decide, by decide, by decide⟩

/-- Claim C18, amended: after every Save or Delete on `PersistentVMRepository` that returns
without an error, the record map decoded from the on-disk `vms.json` equals the repository's
in-memory map; when the call returns an error, the in-memory map holds the mutation all the same
and `vms.json` is left as it was before the call. -/
theorem file_equals_map_after_successful_mutation (r : PersistentVMRepository)
    (env : PersistEnv) :
    (∀ vm : VM,
        (r.Save env vm).1.vms = VMMap.set r.vms vm.ID vm ∧
          ((r.Save env vm).2.isNil = true →
            (r.Save env vm).1.file.records = some (r.Save env vm).1.vms) ∧
          ((r.Save env vm).2.isNil = false → (r.Save env vm).1.file = r.file)) ∧
      (∀ id : String,
        (r.Delete env id).1.vms = VMMap.delete r.vms id ∧
          ((r.Delete env id).2.isNil = true →
            (r.Delete env id).1.file.records = some (r.Delete env id).1.vms) ∧
          ((r.Delete env id).2.isNil = false → (r.Delete env id).1.file = r.file)) := by
  constructor
  · intro vm
    have hf := RepoOp.apply_file r (.save env vm)
    simp only [RepoOp.apply] at hf
    refine ⟨Save_vms r env vm, ?_, ?_⟩
    · intro h
      rw [hf, if_pos h]
      rfl
    · intro h
      rw [hf, h]
      rfl
  · intro id
    have hf := RepoOp.apply_file r (.delete env id)
    simp only [RepoOp.apply] at hf
    refine ⟨Delete_vms r env id, ?_, ?_⟩
    · intro h
      rw [hf, if_pos h]
      rfl
    · intro h
      rw [hf, h]
      rfl

/-- An instance of the amended C18: the successful Save of `vm-a` on an empty repository leaves
`vms.json` decoding to the in-memory map. -/
theorem file_equals_map_after_successful_mutation_witness :
    (emptyRepo.Save persistOk recordVmA).1.file.records =
      some (emptyRepo.Save persistOk recordVmA).1.vms :=
  ((file_equals_map_after_successful_mutation emptyRepo persistOk).1 recordVmA).2.1 rfl

/-- Claim C19: for every map of VM records held by a `PersistentVMRepository`, reopening the
repository on the file written by a successful `persist` yields the same map; hence, after any
run of Save and Delete calls, a repository reopened on the same data directory holds exactly the
map of the last persisted state (all its records and none that were not persisted), and when no
call of the run got through to the disk the file is the one before the run. -/
theorem reopen_yields_last_persisted (r : PersistentVMRepository) :
    (∀ env : PersistEnv, (r.persist env).2.isNil = true →
        reopen (r.persist env).1 = .ok { vms := r.vms, file := .decoded r.vms }) ∧
      (∀ (ops : List RepoOp) (m : VMMap), lastPersisted r ops = some m →
        reopen (runRepoOps r ops) = .ok { vms := m, file := .decoded m }) ∧
      (∀ ops : List RepoOp, lastPersisted r ops = none → (runRepoOps r ops).file = r.file) := by
  refine ⟨?_, ?_, ?_⟩
  · intro env h
    apply reopen_decoded
    rw [persist_file, if_pos h]
  · intro ops m h
    apply reopen_decoded
    rw [runRepoOps_file, h]
  · intro ops h
    rw [runRepoOps_file, h]

/-- An instance of C19: `vm-a` is saved and persisted, then a Save of `vm-b` fails to reach the
disk; the repository reopened on the directory holds `vm-a` and not `vm-b`. -/
theorem reopen_yields_last_persisted_witness :
    (runRepoOps emptyRepo [.save persistOk recordVmA, .save persistFails recordVmB]).vms =
        [("vm-b", recordVmB), ("vm-a", recordVmA)] ∧
      reopen (runRepoOps emptyRepo [.save persistOk recordVmA, .save persistFails recordVmB]) =
        .ok { vms := [("vm-a", recordVmA)], file := .decoded [("vm-a", recordVmA)] } :=
  ⟨by decide,
    (reopen_yields_last_persisted emptyRepo).2.1
      [.save persistOk recordVmA, .save persistFails recordVmB] [("vm-a", recordVmA)] rfl⟩

/-- Claim C20: `NewPersistentVMRepository` on a data directory with no `vms.json` returns a
repository with an empty map and no error; on a `vms.json` whose content does not decode as the
VM record map it returns the decoding error and no repository, and `startup` (the construction
in `main`, where the error is fatal) fails with that error. -/
theorem open_missing_or_corrupt_file :
    NewPersistentVMRepository { mkdirAll := .nil, file := .notExist } =
        .ok { vms := [], file := .notExist } ∧
      (∀ err : GoError, err.isNil = false →
        NewPersistentVMRepository { mkdirAll := .nil, file := .invalid err } = .error err ∧
          ∀ (numCPU : Int) (cfg : ResourceConfig),
            startup { mkdirAll := .nil, file := .invalid err } numCPU cfg = .error err) := by
  refine ⟨rfl, ?_⟩
  intro err h
  have hopen : NewPersistentVMRepository { mkdirAll := .nil, file := .invalid err } =
      .error err := by
    cases err <;> simp_all [GoError.isNil, NewPersistentVMRepository, PersistentVMRepository.load]
  refine ⟨hopen, ?_⟩
  intro numCPU cfg
  simp only [startup, hopen]

/-- An instance of C20: a `vms.json` cut short in the middle of a record is a startup error. -/
theorem open_missing_or_corrupt_file_witness :
    NewPersistentVMRepository
        { mkdirAll := .nil, file := .invalid (.plain "unexpected end of JSON input") } =
        .error (.plain "unexpected end of JSON input") ∧
      startup { mkdirAll := .nil, file := .invalid (.plain "unexpected end of JSON input") } 12
        scenarioConfig = .error (.plain "unexpected end of JSON input") :=
  ⟨(open_missing_or_corrupt_file.2 (.plain "unexpected end of JSON input") rfl).1,
    (open_missing_or_corrupt_file.2 (.plain "unexpected end of JSON input") rfl).2 12
      scenarioConfig⟩

/-- Claim C21, the code at the failing input: two concurrent creates on the scenario host in the
interleaving in which both pass admission before either goes on (`Execute` is its admission
followed by the rest, and only the last step of the rest writes the ledger).  For `vm-a` and
`vm-b` of footprint (2, 4, 50): both return success and both records are in the registry, yet the
ledger holds one allocation only (available 6, 12, 150 instead of 4, 8, 100, which the same two
creates give one after the other), and I5 is violated.  For two requests of five CPUs each, of the
eight available: both are admitted and both succeed, ten CPUs are in the registry, while the second
is refused for insufficient resources when it comes after the first. -/
theorem concurrent_creates_lose_an_allocation :
    (∀ (validator : Validate) (env : CreateEnv) (st : State) (req : CreateVMRequest),
        CreateVMUseCase.inTwoHalves validator env st req =
          CreateVMUseCase.Execute validator env st req) ∧
      (CreateVMUseCase.bothAdmittedFirst defaultValidate envAllOk envAllOkB scenarioState requestVmA
          requestVmB).resultA =
        .ok { VMID := "vm-a", IPAddress := "192.168.122.10", Status := "running" } ∧
      (CreateVMUseCase.bothAdmittedFirst defaultValidate envAllOk envAllOkB scenarioState requestVmA
          requestVmB).resultB =
        .ok { VMID := "vm-b", IPAddress := "192.168.122.10", Status := "running" } ∧
      (CreateVMUseCase.bothAdmittedFirst defaultValidate envAllOk envAllOkB scenarioState requestVmA
          requestVmB).state.vmRepo.vms.map (fun kv => kv.1) = ["vm-b", "vm-a"] ∧
      (CreateVMUseCase.bothAdmittedFirst defaultValidate envAllOk envAllOkB scenarioState requestVmA
          requestVmB).state.resourceRepo.resource =
        { TotalCPU := 12
          AvailableCPU := 6
          ReservedCPU := 4
          TotalRAMGB := 32
          AvailableRAMGB := 12
          ReservedRAMGB := 16
          TotalDiskGB := 500
          AvailableDiskGB := 150
          ReservedDiskGB := 300 } ∧
      ¬ invariantI5
          (CreateVMUseCase.bothAdmittedFirst defaultValidate envAllOk envAllOkB scenarioState
            requestVmA requestVmB).state ∧
      (runOps defaultValidate scenarioState
          [.create envAllOk requestVmA, .create envAllOkB requestVmB]).resourceRepo.resource =
        { TotalCPU := 12
          AvailableCPU := 4
          ReservedCPU := 4
          TotalRAMGB := 32
          AvailableRAMGB := 8
          ReservedRAMGB := 16
          TotalDiskGB := 500
          AvailableDiskGB := 100
          ReservedDiskGB := 300 } ∧
      scenarioState.resourceRepo.resource.AvailableCPU = 8 ∧
      (CreateVMUseCase.bothAdmittedFirst defaultValidate envAllOk envAllOkB scenarioState
          requestFiveCpuA requestFiveCpuB).resultA =
        .ok { VMID := "vm-a", IPAddress := "192.168.122.10", Status := "running" } ∧
      (CreateVMUseCase.bothAdmittedFirst defaultValidate envAllOk envAllOkB scenarioState
          requestFiveCpuA requestFiveCpuB).resultB =
        .ok { VMID := "vm-b", IPAddress := "192.168.122.10", Status := "running" } ∧
      (CreateVMUseCase.bothAdmittedFirst defaultValidate envAllOk envAllOkB scenarioState
          requestFiveCpuA requestFiveCpuB).state.vmRepo.vms.sumVCPU = 10 ∧
      (CreateVMUseCase.Execute defaultValidate envAllOkB
          (runOps defaultValidate scenarioState [.create envAllOk requestFiveCpuA])
          requestFiveCpuB).errCode = some .ErrCodeResourceLimit := by
  refine ⟨CreateVMUseCase.inTwoHalves_eq, rfl, rfl, by decide, by decide, ?_, by decide,
    by decide, rfl, rfl, by decide, by decide⟩
  unfold invariantI5
  decide

/-- Claim C22 as stated fails: on the scenario host the domain of `vm-a` is defined and its start
fails, and the removal of the overlay is refused.  `Execute` calls `DeleteDisk`, drops its error
and returns the Hypervisor error; the overlay of `vm-a` is still there after the call. -/
theorem failed_removal_leaves_overlay_after_failed_create :
    (CreateVMUseCase.Execute defaultValidate envStartFails scenarioState requestVmA).errCode =
        some .ErrCodeHypervisor ∧
      (CreateVMUseCase.Execute defaultValidate envStartFails scenarioState requestVmA).calls =
        [.vmRepoExists "vm-a", .resourceRepoGetAvailable, .storageGetImage "ubuntu-22.04",
          .storageCreateDisk "vm-a" "/var/lib/ghost/images/ubuntu-22.04.qcow2" 50,
          .hypervisorCreateVM specVmA, .storageDeleteDisk "vm-a"] ∧
      (cacheAdapter.DeleteDisk ["vm-a"] (.plain "remove vm-a.qcow2: permission denied")
          "vm-a").2.isNil = false ∧
      CreateVMUseCase.overlaysAfter cacheAdapter envStartFails
          (.plain "remove vm-a.qcow2: permission denied") []
          (CreateVMUseCase.Execute defaultValidate envStartFails scenarioState requestVmA).calls =
        ["vm-a"] := by
  refine ⟨by decide, by decide, by decide, by decide⟩

/-- Claim C22, amended: for every Create in which the hypervisor's define and launch fails after
the overlay disk was created, `Execute` calls the storage service's `DeleteDisk` for the request
name right after the failed hypervisor call and drops its result (the outcome is the same whatever
`DeleteDisk` returns), returns an error with code Hypervisor, makes no `Save` on the registry and
leaves registry and ledger unchanged.  The overlay of the request name is gone after the call
exactly when `os.Remove` succeeds; when it fails the overlay stays.  No other overlay is
touched. -/
theorem create_hypervisor_failure_calls_delete_disk (validator : Validate) (env : CreateEnv)
    (st : State) (req : CreateVMRequest) (baseImage diskPath : String)
    (hvalid : validator.StructCreate req = [])
    (hfree : VMMap.get st.vmRepo.vms req.Name = none)
    (hcan : st.resourceRepo.resource.CanAllocate req.VCPU req.RAMGB req.DiskGB = true)
    (himage : env.getImage = .ok baseImage) (hdisk : env.createDisk = .ok diskPath)
    (hfail : env.libvirt.breaker.isNil = false ∨ env.libvirt.defineXML.isNil = false ∨
      env.libvirt.domainCreate.isNil = false) :
    (CreateVMUseCase.Execute validator env st req).errCode = some .ErrCodeHypervisor ∧
      (∃ spec : VMSpec,
        (CreateVMUseCase.Execute validator env st req).calls =
          [.vmRepoExists req.Name, .resourceRepoGetAvailable, .storageGetImage req.Template,
            .storageCreateDisk req.Name baseImage req.DiskGB, .hypervisorCreateVM spec,
            .storageDeleteDisk req.Name]) ∧
      (∀ vm : VM, Call.vmRepoSave vm ∉ (CreateVMUseCase.Execute validator env st req).calls) ∧
      (CreateVMUseCase.Execute validator env st req).state = st ∧
      (∀ deleteDisk : GoError,
        CreateVMUseCase.Execute validator { env with deleteDisk := deleteDisk } st req =
          CreateVMUseCase.Execute validator env st req) ∧
      (∀ (a : storage.Adapter) (overlays : List String) (removeError : GoError),
        (req.Name ∈ CreateVMUseCase.overlaysAfter a env removeError overlays
              (CreateVMUseCase.Execute validator env st req).calls ↔
            removeError.isNil = false) ∧
          ∀ d : String, d ≠ req.Name →
            (d ∈ CreateVMUseCase.overlaysAfter a env removeError overlays
                (CreateVMUseCase.Execute validator env st req).calls ↔ d ∈ overlays)) := by
  obtain ⟨err, herr⟩ := Adapter.CreateVM_fails env.libvirt
    { Name := req.Name
      VCPU := req.VCPU
      RAMGB := req.RAMGB
      DiskGB := req.DiskGB
      Template := req.Template
      DiskPath := diskPath
      IP := "" } hfail
  obtain ⟨e, hcode, _, hexec⟩ :=
    create_hypervisor_fails validator env st req baseImage diskPath err hvalid hfree hcan himage
      hdisk herr
  refine ⟨?_, ?_, ?_, ?_, fun _ => rfl, ?_⟩
  · rw [hexec]
    simp [Outcome.errCode, hcode]
  · rw [hexec]
    exact ⟨_, rfl⟩
  · rw [hexec]
    intro vm hmem
    simp at hmem
  · rw [hexec]
  · intro a overlays removeError
    rw [hexec]
    dsimp only
    rw [overlaysAfter_failed_create a env removeError overlays _ _ _ diskPath _ _ hdisk]
    constructor
    · cases hr : removeError.isNil <;> simp
    · intro d hd
      cases hr : removeError.isNil <;> simp [hd]

/-- Instances of the amended C22 on the scenario host, where the domain of `vm-a` is defined and
its start fails: with a removal that succeeds no overlay is left, with a removal that is refused
the overlay of `vm-a` is left; the state is the one before the call. -/
theorem create_hypervisor_failure_calls_delete_disk_witness :
    (CreateVMUseCase.Execute defaultValidate envStartFails scenarioState requestVmA).errCode =
        some .ErrCodeHypervisor ∧
      (CreateVMUseCase.Execute defaultValidate envStartFails scenarioState requestVmA).state =
        scenarioState ∧
      CreateVMUseCase.overlaysAfter cacheAdapter envStartFails .nil []
          (CreateVMUseCase.Execute defaultValidate envStartFails scenarioState requestVmA).calls =
        [] ∧
      ("vm-a" ∈ CreateVMUseCase.overlaysAfter cacheAdapter envStartFails
            (.plain "remove vm-a.qcow2: permission denied") []
            (CreateVMUseCase.Execute defaultValidate envStartFails scenarioState requestVmA).calls ↔
          (GoError.plain "remove vm-a.qcow2: permission denied").isNil = false) :=
  ⟨(create_hypervisor_failure_calls_delete_disk defaultValidate envStartFails scenarioState
      requestVmA "/var/lib/ghost/images/ubuntu-22.04.qcow2"
      "/var/lib/ghost/images/disks/vm-a.qcow2" (by decide) (by decide) (by decide) rfl rfl
      (Or.inr (Or.inr rfl))).1,
    (create_hypervisor_failure_calls_delete_disk defaultValidate envStartFails scenarioState
      requestVmA "/var/lib/ghost/images/ubuntu-22.04.qcow2"
      "/var/lib/ghost/images/disks/vm-a.qcow2" (by decide) (by decide) (by decide) rfl rfl
      (Or.inr (Or.inr rfl))).2.2.2.1,
    by decide,
    ((create_hypervisor_failure_calls_delete_disk defaultValidate envStartFails scenarioState
      requestVmA "/var/lib/ghost/images/ubuntu-22.04.qcow2"
      "/var/lib/ghost/images/disks/vm-a.qcow2" (by decide) (by decide) (by decide) rfl rfl
      (Or.inr (Or.inr rfl))).2.2.2.2.2 cacheAdapter []
      (.plain "remove vm-a.qcow2: permission denied")).1⟩

/-- Claim C23, the code at the failing input: the create of `vm-a` on a host without a domain,
where the definition succeeds and the start fails.  `createVMInternal` returns the wrapped start
error; its libvirt calls are the definition, the failed start and the release of the handle, with
no `Undefine` among them; and the domain `vm-a` is still defined after the call. -/
theorem start_failure_leaves_domain_defined :
    Adapter.createVMInternal libvirtStartFails specVmA =
        .error (.wrap "failed to start domain"
          (.plain "internal error: process exited while connecting")) ∧
      Adapter.createVMInternalCalls libvirtStartFails specVmA =
        [(.connDomainDefineXML "vm-a", true), (.domainCreate "vm-a", false),
          (.domainFree "vm-a", true)] ∧
      Adapter.CreateVMCalls libvirtStartFails specVmA =
        Adapter.createVMInternalCalls libvirtStartFails specVmA ∧
      definedAfter [] (Adapter.CreateVMCalls libvirtStartFails specVmA) = ["vm-a"] ∧
      definedAfter [] (Adapter.CreateVMCalls libvirtStartFails specVmA) ≠ [] := by
  refine ⟨rfl, rfl, rfl, by decide, by decide⟩

/-- Claim C24: `mapLibvirtState` gives running for RUNNING, stopped for SHUTOFF, paused for PAUSED
and error for each of the five other states.  `GetVMStatus` of a domain that is found and whose
state query answers `state` reports the status mapped from `state`.  `ListVMs` returns one record
per listed domain, in order, whose status is the one mapped from the state the domain's state
query answers, and `error` when that query fails; its ID and name are the domain's name and every
other field is zero. -/
theorem mapLibvirtState_reported (id : String) (breaker : GoError) (state : DomainState)
    (domains : List LibvirtDomain) :
    Adapter.mapLibvirtState .DOMAIN_RUNNING = "running" ∧
      Adapter.mapLibvirtState .DOMAIN_SHUTOFF = "stopped" ∧
      Adapter.mapLibvirtState .DOMAIN_PAUSED = "paused" ∧
      Adapter.mapLibvirtState .DOMAIN_NOSTATE = "error" ∧
      Adapter.mapLibvirtState .DOMAIN_BLOCKED = "error" ∧
      Adapter.mapLibvirtState .DOMAIN_SHUTDOWN = "error" ∧
      Adapter.mapLibvirtState .DOMAIN_CRASHED = "error" ∧
      Adapter.mapLibvirtState .DOMAIN_PMSUSPENDED = "error" ∧
      Adapter.GetVMStatus
          { breaker := breaker, lookupDomainByName := .nil, getState := .ok state } id =
        .ok
          { Status := Adapter.mapLibvirtState state
            UptimeSeconds := 0
            CPUUsagePercent := 0
            RAMUsagePercent := 0 } ∧
      Adapter.ListVMs { listAllDomains := .ok domains } =
        .ok
          (domains.map (fun d =>
            { ID :=
                match d.getName with
                | .ok name => name
                | .error _ => ""
              Name :=
                match d.getName with
                | .ok name => name
                | .error _ => ""
              VCPU := 0
              RAMGB := 0
              DiskGB := 0
              Status :=
                match d.getState with
                | .ok s => Adapter.mapLibvirtState s
                | .error _ => "error"
              IP := ""
              Template := ""
              DiskPath := ""
              CreatedAt := 0
              UpdatedAt := 0 })) := by
  refine ⟨rfl, rfl, rfl, rfl, rfl, rfl, rfl, rfl, rfl, ?_⟩
  simp only [Adapter.ListVMs]
  congr 1
  apply List.map_congr_left
  intro d _
  cases hn : d.getName <;> cases hs : d.getState <;>
    simp [Adapter.listedVM, orEmpty, stateOrZero, hn, hs] <;> rfl

/-- An instance of C24: of three listed domains, one running, one paused and one whose state
query fails, `ListVMs` reports `running`, `paused` and `error`; `GetVMStatus` of a shut-off domain
reports `stopped`. -/
theorem mapLibvirtState_reported_witness :
    Adapter.ListVMs listThreeDomains =
        .ok
          [{ ID := "vm-a", Name := "vm-a", VCPU := 0, RAMGB := 0, DiskGB := 0, Status := "running",
              IP := "", Template := "", DiskPath := "", CreatedAt := 0, UpdatedAt := 0 },
            { ID := "vm-b", Name := "vm-b", VCPU := 0, RAMGB := 0, DiskGB := 0, Status := "paused",
              IP := "", Template := "", DiskPath := "", CreatedAt := 0, UpdatedAt := 0 },
            { ID := "vm-c", Name := "vm-c", VCPU := 0, RAMGB := 0, DiskGB := 0, Status := "error",
              IP := "", Template := "", DiskPath := "", CreatedAt := 0, UpdatedAt := 0 }] ∧
      Adapter.GetVMStatus
          { breaker := .nil, lookupDomainByName := .nil, getState := .ok .DOMAIN_SHUTOFF } "vm-a" =
        .ok { Status := "stopped", UptimeSeconds := 0, CPUUsagePercent := 0, RAMUsagePercent := 0 } :=
  ⟨(mapLibvirtState_reported "vm-a" .nil .DOMAIN_SHUTOFF
      [{ getName := .ok "vm-a", getState := .ok .DOMAIN_RUNNING },
        { getName := .ok "vm-b", getState := .ok .DOMAIN_PAUSED },
        { getName := .ok "vm-c", getState := .error (.plain "domain is not running") }]).2.2.2.2.2.2.2.2.2,
    (mapLibvirtState_reported "vm-a" .nil .DOMAIN_SHUTOFF
      [{ getName := .ok "vm-a", getState := .ok .DOMAIN_RUNNING },
        { getName := .ok "vm-b", getState := .ok .DOMAIN_PAUSED },
        { getName := .ok "vm-c", getState := .error (.plain "domain is not running") }]).2.2.2.2.2.2.2.2.1⟩

/-- Claim C25: for counts that fit `uint32`, `ReadyToTrip` is true exactly when the request count
is at least 3 and the failures are at least 60% of the requests, that is 5·failures ≥ 3·requests:
the rounding of the `float64` quotient and of the constant `0.6` never moves a count across the
threshold. -/
theorem readyToTrip_exactly_from_three_requests_at_sixty_percent (counts : Counts)
    (hreq : counts.Requests < 2 ^ 32) :
    (ReadyToTrip counts = true ↔
        3 ≤ counts.Requests ∧ 3 * counts.Requests ≤ 5 * counts.TotalFailures) ∧
      (ReadyToTrip counts = true ↔
        3 ≤ counts.Requests ∧
          (60 / 100 : ℚ) ≤ (counts.TotalFailures : ℚ) / (counts.Requests : ℚ)) := by
  refine ⟨ReadyToTrip_iff counts hreq, ?_⟩
  rw [ReadyToTrip_iff counts hreq]
  constructor
  · rintro ⟨h3, h5⟩
    refine ⟨h3, ?_⟩
    have hR : (0 : ℚ) < counts.Requests := by exact_mod_cast (by omega : 0 < counts.Requests)
    have hcast : (3 : ℚ) * counts.Requests ≤ 5 * counts.TotalFailures := by exact_mod_cast h5
    rw [le_div_iff₀ hR]
    linarith
  · rintro ⟨h3, h5⟩
    refine ⟨h3, ?_⟩
    have hR : (0 : ℚ) < counts.Requests := by exact_mod_cast (by omega : 0 < counts.Requests)
    rw [le_div_iff₀ hR] at h5
    have hcast : (3 : ℚ) * counts.Requests ≤ 5 * counts.TotalFailures := by linarith
    exact_mod_cast hcast

/-- Instances of C25: the predicate is true after three requests that all failed, and false for a
window without a request. -/
theorem readyToTrip_exactly_from_three_requests_at_sixty_percent_witness :
    threeFailures.Requests < 2 ^ 32 ∧ ReadyToTrip threeFailures = true ∧
      ReadyToTrip noRequests = false :=
  ⟨by decide,
    (readyToTrip_exactly_from_three_requests_at_sixty_percent threeFailures (by decide)).1.mpr
      ⟨by decide, by decide⟩,
    Bool.eq_false_iff.mpr (fun h =>
      absurd
        ((readyToTrip_exactly_from_three_requests_at_sixty_percent noRequests (by decide)).1.mp
          h).1
        (by decide))⟩

/-- Claim C26 as stated fails: while the circuit breaker is open, `GetVMStatus` of `vm-a` still
looks the domain up and reads its state on the libvirt connection, and answers `running`. -/
theorem status_query_bypasses_open_breaker :
    statusWhileBreakerOpen.breaker.isNil = false ∧
      Adapter.GetVMStatus statusWhileBreakerOpen "vm-a" =
        .ok { Status := "running", UptimeSeconds := 0, CPUUsagePercent := 0, RAMUsagePercent := 0 } ∧
      Adapter.GetVMStatusCalls statusWhileBreakerOpen "vm-a" =
        [(.connLookupDomainByName "vm-a", true), (.domainGetState "vm-a", true),
          (.domainFree "vm-a", true)] := by
  refine ⟨rfl, rfl, rfl⟩

/-- Claim C26, amended: the four operations that change a domain (CreateVM, DeleteVM, StartVM,
StopVM) go through the circuit breaker: while it rejects the request each returns a Hypervisor
error that wraps the breaker's error, and makes no libvirt call.  GetVMStatus, ListVMs and Ping do
not ask the breaker: their results and their libvirt calls are the same whatever its state. -/
theorem mutating_operations_fail_fast_when_breaker_open (create : LibvirtCreate)
    (delete : LibvirtDelete) (start : LibvirtStart) (stop : LibvirtStop) (status : LibvirtStatus)
    (listing : LibvirtListing) (ping : LibvirtPing) (spec : VMSpec) (id : String) (force : Bool)
    (breaker : GoError) (hcreate : create.breaker.isNil = false)
    (hdelete : delete.breaker.isNil = false) (hstart : start.breaker.isNil = false)
    (hstop : stop.breaker.isNil = false) :
    ((Adapter.CreateVM create spec =
          .error ((New .ErrCodeHypervisor "failed to create VM" create.breaker).WithContext
            "vm_name" (.str spec.Name)) ∧
        Adapter.CreateVMCalls create spec = []) ∧
      (Adapter.DeleteVM delete id =
          .error ((New .ErrCodeHypervisor "failed to delete VM" delete.breaker).WithContext
            "vm_id" (.str id)) ∧
        Adapter.DeleteVMCalls delete id = []) ∧
      (Adapter.StartVM start id =
          .error ((New .ErrCodeHypervisor "failed to start VM" start.breaker).WithContext
            "vm_id" (.str id)) ∧
        Adapter.StartVMCalls start id = []) ∧
      (Adapter.StopVM stop id force =
          .error ((New .ErrCodeHypervisor "failed to stop VM" stop.breaker).WithContext
            "vm_id" (.str id)) ∧
        Adapter.StopVMCalls stop id force = [])) ∧
      (Adapter.GetVMStatus { status with breaker := breaker } id = Adapter.GetVMStatus status id ∧
        Adapter.GetVMStatusCalls { status with breaker := breaker } id =
          Adapter.GetVMStatusCalls status id ∧
        Adapter.ListVMs ({ listing with breaker := breaker } : LibvirtListing).libvirt =
          Adapter.ListVMs listing.libvirt ∧
        Adapter.ListVMsCalls { listing with breaker := breaker } = Adapter.ListVMsCalls listing ∧
        Adapter.Ping { ping with breaker := breaker } = Adapter.Ping ping ∧
        Adapter.PingCalls { ping with breaker := breaker } = Adapter.PingCalls ping) :=
  ⟨⟨Adapter.CreateVM_breaker_open create spec hcreate, Adapter.DeleteVM_breaker_open delete id hdelete,
      Adapter.StartVM_breaker_open start id hstart,
      Adapter.StopVM_breaker_open stop id force hstop⟩,
    rfl, rfl, rfl, rfl, rfl, rfl⟩

/-- An instance of C26 as amended: with the breaker open, the create of `vm-a` and the delete,
start and stop of `vm-a` make no libvirt call, and `Ping` still asks the connection. -/
theorem mutating_operations_fail_fast_when_breaker_open_witness :
    envBreakerOpen.libvirt.breaker.isNil = false ∧
      Adapter.CreateVMCalls envBreakerOpen.libvirt specVmA = [] ∧
      Adapter.DeleteVMCalls { delAllOk.libvirt with breaker := ErrOpenState } "vm-a" = [] ∧
      Adapter.StartVMCalls { startAllOk.libvirt with breaker := ErrOpenState } "vm-a" = [] ∧
      Adapter.StopVMCalls { stopAllOk.libvirt with breaker := ErrOpenState } "vm-a" true = [] ∧
      Adapter.PingCalls { breaker := ErrOpenState, getVersion := .nil } =
        [(.connGetVersion, true)] :=
  have amended :=
    mutating_operations_fail_fast_when_breaker_open envBreakerOpen.libvirt
      { delAllOk.libvirt with breaker := ErrOpenState }
      { startAllOk.libvirt with breaker := ErrOpenState }
      { stopAllOk.libvirt with breaker := ErrOpenState } statusWhileBreakerOpen
      { breaker := .nil, libvirt := listOneDomain.libvirt }
      { breaker := .nil, getVersion := .nil } specVmA "vm-a" true ErrOpenState rfl rfl rfl rfl
  ⟨rfl, amended.1.1.2, amended.1.2.1.2, amended.1.2.2.1.2, amended.1.2.2.2.2,
    amended.2.2.2.2.2.2.symm ▸ rfl⟩

/-- Claim C27, the code at the failing input: a lease query that answers two interfaces, the first
without an address and the second with 192.168.122.10.  `GetVMIP` returns the Network error
"no IP address found", so `waitForDHCPLease` times out however often it polls and `AssignIP`
returns an error, while the scan of the hypervisor adapter's `waitForIP` finds the address in the
same answer.  With the address on the first interface `GetVMIP` returns it. -/
theorem lease_on_second_interface_not_found :
    (∃ ifaces : List DomainInterface,
        leaseOnSecondInterface.listAllInterfaceAddresses = .ok ifaces ∧
          (∃ iface ∈ ifaces, iface.Addrs ≠ []) ∧
          Adapter.firstLeaseAddress ifaces = some "192.168.122.10") ∧
      NATAdapter.GetVMIP leaseOnSecondInterface "vm-a" =
        .error ((New .ErrCodeNetwork "no IP address found" .nil).WithContext "vm_id"
          (.str "vm-a")) ∧
      (∀ n : Nat,
        NATAdapter.waitForDHCPLease (List.replicate n leaseOnSecondInterface) "vm-a" =
          .error (.plain "timeout waiting for DHCP lease")) ∧
      (∀ n : Nat,
        NATAdapter.AssignIP (List.replicate n leaseOnSecondInterface) "vm-a" =
          .error ((New .ErrCodeNetwork "failed to get DHCP lease"
            (.plain "timeout waiting for DHCP lease")).WithContext "vm_id" (.str "vm-a"))) ∧
      NATAdapter.GetVMIP leaseOnFirstInterface "vm-a" = .ok "192.168.122.10" := by
  have hwait : ∀ n : Nat,
      NATAdapter.waitForDHCPLease (List.replicate n leaseOnSecondInterface) "vm-a" =
        .error (.plain "timeout waiting for DHCP lease") := by
    intro n
    induction n with
    | zero => rfl
    | succ n ih =>
      rw [List.replicate_succ, NATAdapter.waitForDHCPLease]
      have hget : NATAdapter.GetVMIP leaseOnSecondInterface "vm-a" =
          .error ((New .ErrCodeNetwork "no IP address found" .nil).WithContext "vm_id"
            (.str "vm-a")) := rfl
      rw [hget]
      exact ih
  refine ⟨⟨_, rfl, ⟨_, List.mem_cons_of_mem _ (List.mem_cons_self _ _), by decide⟩, rfl⟩, rfl,
    hwait, ?_, rfl⟩
  intro n
  rw [NATAdapter.AssignIP, hwait n]

/-- Claim C28: whenever `GetImage` returns a path without error, the image repository afterwards
holds a record for the template whose `Path` is the returned path and whose `Checksum` is the
SHA-256 digest of the content of the file then at that path.  When the record cached before the
call is stale (the file at its path cannot be read, or its content hashes to another value than
the stored checksum), the cached record is not what is returned: the template's URL is downloaded
to the image path, the path returned is the image path, the file there is the one the download
left, and the record stored carries the digest of that file. -/
theorem getImage_record_matches_returned_file (a : storage.Adapter) (env : DownloadEnv)
    (files : Files) (template path : String)
    (h : (a.GetImage env files template).result = .ok path) :
    (∃ (img : Image) (content : Content),
        ImageMap.get (a.GetImage env files template).adapter.imageRepo.images template = some img ∧
          img.Path = path ∧
          (a.GetImage env files template).files path = .ok content ∧
          img.Checksum = a.sha256Hex content) ∧
      (∀ image : Image, ImageMap.get a.imageRepo.images template = some image →
        (∀ content : Content, files image.Path = .ok content →
          a.sha256Hex content ≠ image.Checksum) →
          ∃ (url : String) (content : Content),
            templateURL template = some url ∧
              env.download = .nil ∧
              (a.GetImage env files template).downloads = [(url, a.imagePath template)] ∧
              path = a.imagePath template ∧
              env.destinationAfter = .ok content ∧
              (a.GetImage env files template).files path = .ok content ∧
              ImageMap.get (a.GetImage env files template).adapter.imageRepo.images template =
                some
                  { Name := template
                    Path := a.imagePath template
                    URL := url
                    Checksum := a.sha256Hex content
                    SizeBytes := 0
                    CachedAt := 0 }) := by
  constructor
  · obtain ⟨img, hget, hpath, hsum⟩ := storage.Adapter.GetImage_record a env files template path h
    obtain ⟨content, hfile, hdigest⟩ :=
      (storage.Adapter.calculateChecksum_ok_iff _ _ _ _).mp hsum
    rw [storage.Adapter.GetImage_sha256Hex a env files template] at hdigest
    exact ⟨img, content, hget, hpath, hfile, hdigest⟩
  · intro image hcached hstale
    have hne := storage.Adapter.calculateChecksum_stale a files image hstale
    rw [storage.Adapter.GetImage_stale a env files template image hcached hne] at h ⊢
    obtain ⟨url, checksum, hurl, hdl, hpath, hsum, hfetch⟩ :=
      storage.Adapter.fetchImage_ok a env files template path h
    obtain ⟨content, hfile, hdigest⟩ :=
      (storage.Adapter.calculateChecksum_ok_iff _ _ _ _).mp hsum
    have hdest : env.destinationAfter = .ok content := by
      simpa [Files.update] using hfile
    rw [hfetch]
    refine ⟨url, content, hurl, hdl, rfl, hpath, hdest, ?_, ?_⟩
    · simp [Files.update, hpath, hdest]
    · rw [← hdigest]
      exact ImageMap.get_Save a.imageRepo _

/-- An instance of C28: `debian-12` is cached with the digest of its first download and its file
has gone; `GetImage` downloads the template's URL again, returns the image path, and the record
stored afterwards carries the digest of the new file. -/
theorem getImage_record_matches_returned_file_witness :
    (cacheWithDebian.GetImage downloadOkAgain noFiles "debian-12").result =
        .ok "/var/lib/ghost/images/debian-12.qcow2" ∧
      ImageMap.get cacheWithDebian.imageRepo.images "debian-12" =
        some
          { Name := "debian-12"
            Path := "/var/lib/ghost/images/debian-12.qcow2"
            URL := "https://cloud.debian.org/images/cloud/bookworm/latest/debian-12-generic-amd64.qcow2"
            Checksum := "123"
            SizeBytes := 0
            CachedAt := 0 } ∧
      (cacheWithDebian.GetImage downloadOkAgain noFiles "debian-12").downloads =
        [("https://cloud.debian.org/images/cloud/bookworm/latest/debian-12-generic-amd64.qcow2",
          "/var/lib/ghost/images/debian-12.qcow2")] ∧
      (cacheWithDebian.GetImage downloadOkAgain noFiles "debian-12").files
          "/var/lib/ghost/images/debian-12.qcow2" = .ok [4, 5, 6] ∧
      cacheWithDebian.sha256Hex [4, 5, 6] = "456" ∧
      ImageMap.get
          (cacheWithDebian.GetImage downloadOkAgain noFiles "debian-12").adapter.imageRepo.images
          "debian-12" =
        some
          { Name := "debian-12"
            Path := "/var/lib/ghost/images/debian-12.qcow2"
            URL := "https://cloud.debian.org/images/cloud/bookworm/latest/debian-12-generic-amd64.qcow2"
            Checksum := "456"
            SizeBytes := 0
            CachedAt := 0 } ∧
      (∃ (img : Image) (content : Content),
        ImageMap.get
            (cacheWithDebian.GetImage downloadOkAgain noFiles "debian-12").adapter.imageRepo.images
            "debian-12" = some img ∧
          img.Path = "/var/lib/ghost/images/debian-12.qcow2" ∧
          (cacheWithDebian.GetImage downloadOkAgain noFiles "debian-12").files
            "/var/lib/ghost/images/debian-12.qcow2" = .ok content ∧
          img.Checksum = cacheWithDebian.sha256Hex content) :=
  ⟨rfl, by decide, by decide, rfl, by decide, by decide,
    (getImage_record_matches_returned_file cacheWithDebian downloadOkAgain noFiles "debian-12"
      "/var/lib/ghost/images/debian-12.qcow2" rfl).1⟩

/-- Claim C29: for every sequence of Save, Delete, FindByID, FindByName, FindAll and Exists calls
from the empty repositories, each with a write of the temporary file and a rename that succeed,
the persistent repository returns the results the in-memory repository returns, call by call, and
holds the same map at the end.  (Both maps are walked in the order of their lists of bindings.) -/
theorem persistent_repository_refines_in_memory (cs : List (VMRepositoryCall × PersistEnv))
    (hwrites : ∀ c ∈ cs, c.2.writeFile = .nil ∧ c.2.rename = .nil) :
    (emptyRepo.run cs).2 = (NewInMemoryVMRepository.run (cs.map (fun c => c.1))).2 ∧
      (emptyRepo.run cs).1.vms = (NewInMemoryVMRepository.run (cs.map (fun c => c.1))).1.vms :=
  run_refines cs emptyRepo NewInMemoryVMRepository rfl hwrites

/-- An instance of C29: save `vm-a`, save `vm-b`, look `vm-a` up by name, delete `vm-a`, ask
whether it exists, list all. -/
theorem persistent_repository_refines_in_memory_witness :
    (∀ c ∈ [(VMRepositoryCall.Save recordVmA, persistOk), (.Save recordVmB, persistOk),
          (.FindByName "vm-a", persistOk), (.Delete "vm-a", persistOk),
          (.Exists "vm-a", persistOk), (.FindAll, persistOk)],
        c.2.writeFile = .nil ∧ c.2.rename = .nil) ∧
      (emptyRepo.run
          [(.Save recordVmA, persistOk), (.Save recordVmB, persistOk),
            (.FindByName "vm-a", persistOk), (.Delete "vm-a", persistOk),
            (.Exists "vm-a", persistOk), (.FindAll, persistOk)]).2 =
        (NewInMemoryVMRepository.run
          [.Save recordVmA, .Save recordVmB, .FindByName "vm-a", .Delete "vm-a", .Exists "vm-a",
            .FindAll]).2 ∧
      (emptyRepo.run
          [(.Save recordVmA, persistOk), (.Save recordVmB, persistOk),
            (.FindByName "vm-a", persistOk), (.Delete "vm-a", persistOk),
            (.Exists "vm-a", persistOk), (.FindAll, persistOk)]).1.vms = [("vm-b", recordVmB)] :=
  ⟨by simp [persistOk],
    (persistent_repository_refines_in_memory
      [(.Save recordVmA, persistOk), (.Save recordVmB, persistOk),
        (.FindByName "vm-a", persistOk), (.Delete "vm-a", persistOk),
        (.Exists "vm-a", persistOk), (.FindAll, persistOk)] (by simp [persistOk])).1,
    by decide⟩

/-- Claim C30, the code at the failing input: a `vms.json` holding the document `null`.
`NewPersistentVMRepository` returns a repository without an error, its map is the nil map, and a
`Save` of any VM on it panics at the assignment into the map.  On a `vms.json` holding an object
the same `Save` returns and `FindByID` then finds the VM. -/
theorem save_after_null_document_panics :
    NewPersistentVMRepositoryOn .null = .ok none ∧
      (∀ (file : VMFile) (env : PersistEnv) (vm : VM),
        PersistentVMRepository.SaveOnGoMap none file env vm =
          .panic "assignment to entry in nil map") ∧
      (∀ (m : VMMap) (file : VMFile) (env : PersistEnv) (vm : VM),
        NewPersistentVMRepositoryOn (.object m) = .ok (some m) ∧
          PersistentVMRepository.SaveOnGoMap (some m) file env vm =
            .returned (PersistentVMRepository.Save { vms := m, file := file } env vm) ∧
          (PersistentVMRepository.Save { vms := m, file := file } env vm).1.FindByID vm.ID =
            .ok vm) := by
  refine ⟨rfl, fun _ _ _ => rfl, fun m file env vm => ⟨rfl, rfl, ?_⟩⟩
  simp [PersistentVMRepository.FindByID, Save_vms, VMMap.get_set_self]

end Ghost
